import Mathlib

/-!
# TemplateUpdateRequest controller

A shallow embedding of
`controllers/templateupdaterequest/templateupdaterequest_controller.go`
and theorems about it.

Conventions of the embedding

* Go maps (`map[string]V`) are association lists with distinct keys
  (`GoMap V`); a nil map and an empty map are both `[]`, except where the
  code writes to a map that may be nil (`mur.Labels`), which is an `Option`.
* Go errors are their messages (`String`); a nilable error is `Option String`.
* A Go run-time panic (index out of range, write to a nil map) is `Run.panic`.
* The store is reached through `Client`, whose fields say what each call
  answers in the invocation at hand; the calls that write are recorded, in
  order, in `Outcome.writes`.
* `range` over a Go map visits the entries in an order the run time picks;
  the order is an input (`Env.rangeOrder`), turned into a permutation by
  `rangeMap`.
-/

namespace HostOperator

/-! ## Go maps -/

/-- A Go `map[string]V`: association list, keys distinct. -/
abbrev GoMap (V : Type) := List (String × V)

namespace GoMap

/-- Go `v, ok := m[k]`. -/
def get? {V : Type} : GoMap V → String → Option V
  | [], _ => none
  | (k', v) :: rest, k => if k' = k then some v else get? rest k

/-- Go `m[k]` on a `map[string]string`: the zero value when the key is absent. -/
def getD (m : GoMap String) (k : String) : String :=
  match get? m k with
  | some v => v
  | none => ""

/-- Go `m[k] = v`: overwrite the entry of `k`, or add one. -/
def set {V : Type} : GoMap V → String → V → GoMap V
  | [], k, v => [(k, v)]
  | (k', v') :: rest, k, v =>
    if k' = k then (k, v) :: rest else (k', v') :: set rest k v

/-- The keys of the map. -/
def keys {V : Type} (m : GoMap V) : List String := m.map Prod.fst

/-- The values of the map. -/
def values {V : Type} (m : GoMap V) : List V := m.map Prod.snd

end GoMap

/-- Put `x` at position `n` of a list (at the end when the list is shorter). -/
def insertAt {α : Type} (x : α) : Nat → List α → List α
  | 0, l => x :: l
  | _ + 1, [] => [x]
  | n + 1, y :: ys => y :: insertAt x n ys

/-- The order in which a Go `range` visits a collection of entries: the list
of numbers is the pick of the run time, and every pick gives a permutation of
the entries (every permutation is given by some pick). -/
def rangeMap {α : Type} : List Nat → List α → List α
  | _, [] => []
  | [], x :: xs => x :: xs
  | k :: ks, x :: xs => insertAt x k (rangeMap ks xs)

/-! ## API types (`toolchainv1alpha1`) -/

/-- The `toolchainv1alpha1.Condition` fields the controller reads or writes;
`lastTransitionTime = 0` is the zero time. -/
structure Condition where
  type : String
  status : String
  reason : String
  message : String
  lastTransitionTime : Nat
  deriving DecidableEq, Repr

/-- Value of `toolchainv1alpha1.TemplateUpdateRequestComplete`. -/
def TemplateUpdateRequestComplete : String := "Complete"
/-- Value of `toolchainv1alpha1.ConditionReady`. -/
def ConditionReady : String := "Ready"
/-- Value of `corev1.ConditionTrue`. -/
def ConditionTrue : String := "True"
/-- Value of `corev1.ConditionFalse`. -/
def ConditionFalse : String := "False"
/-- Value of `toolchainv1alpha1.TemplateUpdateRequestUnableToUpdateReason`. -/
def TemplateUpdateRequestUnableToUpdateReason : String := "UnableToUpdate"
/-- Value of `toolchainv1alpha1.TemplateUpdateRequestUpdatingReason`. -/
def TemplateUpdateRequestUpdatingReason : String := "Updating"
/-- Value of `toolchainv1alpha1.TemplateUpdateRequestUpdatedReason`. -/
def TemplateUpdateRequestUpdatedReason : String := "Updated"

/-- A namespace entry (`NSTemplateSetNamespace`, and `NSTemplateTierNamespace`
of the request, which the code converts into it field by field). -/
structure NSTemplateSetNamespace where
  templateRef : String
  deriving DecidableEq, Repr

/-- The cluster-resources reference (`NSTemplateSetClusterResources`). -/
structure NSTemplateSetClusterResources where
  templateRef : String
  deriving DecidableEq, Repr

/-- The namespace-set specification of an account (`NSTemplateSetSpec`). -/
structure NSTemplateSetSpec where
  tierName : String
  namespaces : List NSTemplateSetNamespace
  clusterResources : Option NSTemplateSetClusterResources
  deriving DecidableEq, Repr

/-- A per-cluster account of a MasterUserRecord (`UserAccountEmbedded`);
`nsTemplateSet` is the pointer `ua.Spec.NSTemplateSet`, `none` when nil. -/
structure UserAccountEmbedded where
  targetCluster : String
  syncIndex : String
  nsTemplateSet : Option NSTemplateSetSpec
  deriving DecidableEq, Repr

/-- The account-style target (`MasterUserRecord`); `labels = none` is a nil
`Labels` map. -/
structure MasterUserRecord where
  labels : Option (GoMap String)
  userAccounts : List UserAccountEmbedded
  conditions : List Condition
  deriving DecidableEq, Repr

/-- The workspace-style target (`Space`). -/
structure Space where
  labels : GoMap String
  tierName : String
  conditions : List Condition
  deriving DecidableEq, Repr

/-- The `Spec` of a TemplateUpdateRequest. -/
structure TemplateUpdateRequestSpec where
  tierName : String
  currentTierHash : String
  namespaces : List NSTemplateSetNamespace
  clusterResources : Option NSTemplateSetClusterResources
  deriving DecidableEq, Repr

/-- The `Status` of a TemplateUpdateRequest. -/
structure TemplateUpdateRequestStatus where
  syncIndexes : GoMap String
  conditions : List Condition
  deriving DecidableEq, Repr

/-- The request (`TemplateUpdateRequest`). -/
structure TemplateUpdateRequest where
  spec : TemplateUpdateRequestSpec
  status : TemplateUpdateRequestStatus
  deriving DecidableEq, Repr

/-! ## Collaborators -/

/-- Modelled from the spec: `condition.IsTrue` of toolchain-common
(`isTrue(conditions, type) → bool`): the first condition of the given type
exists and has status True. -/
def condition.IsTrue (conditions : List Condition) (conditionType : String) : Bool :=
  match conditions.find? (fun c => c.type = conditionType) with
  | some c => c.status = ConditionTrue
  | none => false

/-- Modelled from the spec: `condition.Count` of toolchain-common
(`count(conditions, type, status, reason) → int`): the number of conditions
with the given type, status and reason. -/
def condition.Count (conditions : List Condition) (conditionType status reason : String) : Nat :=
  (conditions.filter
    (fun c => c.type = conditionType ∧ c.status = status ∧ c.reason = reason)).length

/-- Modelled from the spec: `condition.AddStatusConditions` of
toolchain-common, which the controller documents as appending: the new
condition is added at the end, without looking for one of the same type, and
gets the current time when its `lastTransitionTime` is the zero time. -/
def condition.AddStatusConditions (now : Nat) (conditions : List Condition)
    (newCondition : Condition) : List Condition :=
  conditions ++
    [if newCondition.lastTransitionTime = 0 then
      { newCondition with lastTransitionTime := now } else newCondition]

/-- Go `errors.Wrap(err, message)`: the message of the wrapped error. -/
def errsWrap (err message : String) : String := message ++ ": " ++ err

/-- What the controller uses from outside its file and does not compute
itself. -/
structure Env where
  /-- The helper `tierutil.TemplateTierHashLabelKey`. -/
  TemplateTierHashLabelKey : String → String
  /-- The helper `tierutil.ComputeHashForNSTemplateSetSpec`, which may fail. -/
  ComputeHashForNSTemplateSetSpec : NSTemplateSetSpec → Except String String
  /-- The value of `metav1.Now()`. -/
  now : Nat
  /-- The order the run time picks for `range namespaces` in the account at
  the given index. -/
  rangeOrder : Nat → List Nat

/-- Answer of `Client.Get`. -/
inductive GetResult (α : Type) where
  | found (obj : α)
  | notFound (err : String)
  | failed (err : String)
  deriving DecidableEq, Repr

/-- What the store answers in one invocation. -/
structure Client where
  /-- Answer of `Get` for the TemplateUpdateRequest. -/
  getTUR : GetResult TemplateUpdateRequest
  /-- Answer of `Get` for the Space of the same name. -/
  getSpace : GetResult Space
  /-- Answer of `Get` for the MasterUserRecord of the same name. -/
  getMUR : GetResult MasterUserRecord
  /-- Answer of `toolchainconfig.GetToolchainConfig`: the error, or the value
  of `config.Users().MasterUserRecordUpdateFailureThreshold()`. -/
  GetToolchainConfig : Except String Int
  /-- Answer of `Client.Update` for a MasterUserRecord: the error, if any. -/
  Update : MasterUserRecord → Option String
  /-- Answer of `Client.Status().Update` for the request: the error, if any. -/
  StatusUpdate : TemplateUpdateRequest → Option String

/-- A write issued to the store, with the store's answer. -/
inductive Write where
  | update (mur : MasterUserRecord) (err : Option String)
  | statusUpdate (tur : TemplateUpdateRequest) (err : Option String)
  deriving DecidableEq, Repr

/-- The `reconcile.Result`; `requeueAfter` in seconds. -/
structure Result where
  requeue : Bool
  requeueAfter : Nat
  deriving DecidableEq, Repr

/-- What an invocation leaves: the returned pair, the request as it is in
memory at the return, and the writes issued. -/
structure Outcome where
  result : Result
  err : Option String
  tur : TemplateUpdateRequest
  writes : List Write
  deriving DecidableEq, Repr

/-- A Go computation that returns or panics. -/
inductive Run (α : Type) where
  | ret (a : α)
  | panic
  deriving DecidableEq, Repr

/-- The objects of one identity in the store. -/
structure Store where
  tur : Option TemplateUpdateRequest
  space : Option Space
  mur : Option MasterUserRecord
  deriving DecidableEq, Repr

/-- Effect of a write on the store: a write the store refused changes
nothing, a status update replaces the status of the stored request, an
update replaces the stored MasterUserRecord. -/
def Store.applyWrite (s : Store) : Write → Store
  | .update mur none => { s with mur := some mur }
  | .statusUpdate tur none =>
    { s with tur := s.tur.map (fun stored => { stored with status := tur.status }) }
  | .update _ (some _) => s
  | .statusUpdate _ (some _) => s

/-- Effect of a sequence of writes on the store. -/
def Store.applyWrites (s : Store) (ws : List Write) : Store :=
  ws.foldl Store.applyWrite s

/-! ## The controller -/

/-- Go `strings.Split` on the characters of a string, for a separator of one
character: the segments between the separators (one segment, the whole
string, when there is no separator). -/
def splitChars (sep : Char) : List Char → List (List Char)
  | [] => [[]]
  | c :: cs =>
    if c = sep then [] :: splitChars sep cs
    else
      match splitChars sep cs with
      | [] => [[c]]
      | p :: ps => (c :: p) :: ps

/-- Go `strings.Split(s, sep)` for a separator of one character. -/
def stringsSplit (s : String) (sep : Char) : List String :=
  (splitChars sep s.data).map String.mk

/-- The function `namespaceType`: `parts[1]` of the reference split on `-`;
the index is out of range when there is no second part. -/
def namespaceType (templateRef : String) : Run String :=
  match stringsSplit templateRef '-' with
  | _ :: part :: _ => .ret part
  | _ => .panic

/-- The function `syncIndexes`: the sync indexes of the accounts on the given
tier, by target cluster. -/
def syncIndexes (tierName : String) (mur : MasterUserRecord) : GoMap String :=
  mur.userAccounts.foldl
    (fun indexes ua =>
      match ua.nsTemplateSet with
      | some set =>
        if set.tierName = tierName then indexes.set ua.targetCluster ua.syncIndex
        else indexes
      | none => indexes)
    []

/-- The loop of `allSyncIndexesChanged` over the entries of
`tur.Status.SyncIndexes`. -/
def allSyncIndexesChangedLoop (murIndexes : GoMap String) : GoMap String → Bool
  | [] => true
  | (targetCluster, syncIndex) :: rest =>
    match murIndexes.get? targetCluster with
    | some current =>
      if current = syncIndex then false else allSyncIndexesChangedLoop murIndexes rest
    | none => allSyncIndexesChangedLoop murIndexes rest

/-- The function `allSyncIndexesChanged`. -/
def allSyncIndexesChanged (tur : TemplateUpdateRequest) (mur : MasterUserRecord) : Bool :=
  allSyncIndexesChangedLoop (syncIndexes tur.spec.tierName mur) tur.status.syncIndexes

/-- The function `maxUpdateFailuresReached`. -/
def maxUpdateFailuresReached (tur : TemplateUpdateRequest) (threshod : Int) : Bool :=
  decide ((condition.Count tur.status.conditions TemplateUpdateRequestComplete
    ConditionFalse TemplateUpdateRequestUnableToUpdateReason : Int) ≥ threshod)

/-- The function `ToFailure`. -/
def ToFailure (err : String) : Condition :=
  { type := TemplateUpdateRequestComplete
    status := ConditionFalse
    reason := TemplateUpdateRequestUnableToUpdateReason
    message := err
    lastTransitionTime := 0 }

/-- The function `ToBeUpdating`. -/
def ToBeUpdating (now : Nat) : Condition :=
  { type := TemplateUpdateRequestComplete
    status := ConditionFalse
    reason := TemplateUpdateRequestUpdatingReason
    message := ""
    lastTransitionTime := now }

/-- The function `ToBeComplete`. -/
def ToBeComplete (now : Nat) : Condition :=
  { type := TemplateUpdateRequestComplete
    status := ConditionTrue
    reason := TemplateUpdateRequestUpdatedReason
    message := ""
    lastTransitionTime := now }

/-- The function `addUpdatingStatusCondition`: the request as changed in
memory and the answer of the status update. -/
def addUpdatingStatusCondition (env : Env) (c : Client) (tur : TemplateUpdateRequest)
    (syncIndexes : GoMap String) : TemplateUpdateRequest × Option String :=
  let tur1 : TemplateUpdateRequest :=
    { tur with status := { syncIndexes := syncIndexes, conditions := [ToBeUpdating env.now] } }
  (tur1, c.StatusUpdate tur1)

/-- The function `addFailureStatusCondition`. -/
def addFailureStatusCondition (env : Env) (c : Client) (tur : TemplateUpdateRequest)
    (err : String) : TemplateUpdateRequest × Option String :=
  let tur1 : TemplateUpdateRequest :=
    { tur with status :=
        { tur.status with
          conditions := condition.AddStatusConditions env.now tur.status.conditions (ToFailure err) } }
  (tur1, c.StatusUpdate tur1)

/-- The function `setCompleteStatusCondition`. -/
def setCompleteStatusCondition (env : Env) (c : Client) (tur : TemplateUpdateRequest) :
    TemplateUpdateRequest × Option String :=
  let tur1 : TemplateUpdateRequest :=
    { tur with status := { tur.status with conditions := [ToBeComplete env.now] } }
  (tur1, c.StatusUpdate tur1)

/-- The map `namespaces` built in `updateTemplateRefs`: each desired namespace
under its type, a later one replacing an earlier one of the same type. -/
def desiredNamespaces :
    List NSTemplateSetNamespace → GoMap NSTemplateSetNamespace →
    Run (GoMap NSTemplateSetNamespace)
  | [], namespaces => .ret namespaces
  | ns :: rest, namespaces =>
    match namespaceType ns.templateRef with
    | .panic => .panic
    | .ret t => desiredNamespaces rest (namespaces.set t ns)

/-- The namespace set an account on the request's tier gets in
`updateTemplateRefs`, given the map of desired namespaces and the order of its
`range`. -/
def mergedSet (tur : TemplateUpdateRequest) (order : List Nat)
    (namespaces : GoMap NSTemplateSetNamespace) (set : NSTemplateSetSpec) : NSTemplateSetSpec :=
  { set with
    namespaces := rangeMap order namespaces.values
    clusterResources :=
      match tur.spec.clusterResources with
      | some cr => some { templateRef := cr.templateRef }
      | none => none }

/-- Put an account that is done in front of what the rest of the loop gives. -/
def consAccount (ua : UserAccountEmbedded) :
    Run (List UserAccountEmbedded × Option (GoMap String) × Option String) →
    Run (List UserAccountEmbedded × Option (GoMap String) × Option String)
  | .panic => .panic
  | .ret (rest, labels, err) => .ret (ua :: rest, labels, err)

/-- The loop of `updateTemplateRefs` over the accounts, from index `i`: the
accounts and the labels as they are in memory when the loop ends, and the
error when it ends on a failure of the hash. -/
def updateUserAccounts (env : Env) (tur : TemplateUpdateRequest) :
    Nat → List UserAccountEmbedded → Option (GoMap String) →
    Run (List UserAccountEmbedded × Option (GoMap String) × Option String)
  | _, [], labels => .ret ([], labels, none)
  | i, ua :: rest, labels =>
    match ua.nsTemplateSet with
    | none => consAccount ua (updateUserAccounts env tur (i + 1) rest labels)
    | some set =>
      if set.tierName = tur.spec.tierName then
        match desiredNamespaces tur.spec.namespaces [] with
        | .panic => .panic
        | .ret namespaces =>
          let set1 := mergedSet tur (env.rangeOrder i) namespaces set
          let ua1 : UserAccountEmbedded := { ua with nsTemplateSet := some set1 }
          match env.ComputeHashForNSTemplateSetSpec set1 with
          | .error err => .ret (ua1 :: rest, labels, some err)
          | .ok hash =>
            match labels with
            | none => .panic
            | some l =>
              consAccount ua1 (updateUserAccounts env tur (i + 1) rest
                (some (l.set (env.TemplateTierHashLabelKey tur.spec.tierName) hash)))
      else consAccount ua (updateUserAccounts env tur (i + 1) rest labels)

/-- The function `updateTemplateRefs`: the MasterUserRecord as it is in memory
at the return, the returned error, and the write issued. -/
def updateTemplateRefs (env : Env) (c : Client) (tur : TemplateUpdateRequest)
    (mur : MasterUserRecord) : Run (MasterUserRecord × Option String × List Write) :=
  match updateUserAccounts env tur 0 mur.userAccounts mur.labels with
  | .panic => .panic
  | .ret (accounts, labels, some err) =>
    .ret ({ mur with userAccounts := accounts, labels := labels }, some err, [])
  | .ret (accounts, labels, none) =>
    let mur1 : MasterUserRecord := { mur with userAccounts := accounts, labels := labels }
    .ret (mur1, c.Update mur1, [Write.update mur1 (c.Update mur1)])

/-- The empty `reconcile.Result{}`. -/
def Result.empty : Result := { requeue := false, requeueAfter := 0 }

/-- The function `handleSpaceUpdate`. -/
def handleSpaceUpdate (env : Env) (c : Client) (tur : TemplateUpdateRequest) : Outcome :=
  match c.getSpace with
  | .notFound err =>
    let r := addFailureStatusCondition env c tur err
    { result := Result.empty, err := r.2, tur := r.1, writes := [Write.statusUpdate r.1 r.2] }
  | .failed err =>
    { result := Result.empty
      err := some (errsWrap err "unable to get the Space associated with the TemplateUpdateRequest")
      tur := tur, writes := [] }
  | .found space =>
    let labelKey := env.TemplateTierHashLabelKey space.tierName
    if tur.spec.currentTierHash ≠ space.labels.getD labelKey ∧
        condition.IsTrue space.conditions ConditionReady = true then
      let r := setCompleteStatusCondition env c tur
      { result := Result.empty, err := r.2, tur := r.1, writes := [Write.statusUpdate r.1 r.2] }
    else
      let r := addUpdatingStatusCondition env c tur []
      match r.2 with
      | some err =>
        { result := Result.empty
          err := some (errsWrap err "unable to update the TemplateUpdateRequest status")
          tur := r.1, writes := [Write.statusUpdate r.1 r.2] }
      | none =>
        { result := Result.empty, err := none, tur := r.1, writes := [Write.statusUpdate r.1 r.2] }

/-- The first-invocation branch of `handleMURUpdate` (`Status.SyncIndexes`
empty), with the threshold read from the configuration. -/
def handleMURUpdateFirst (env : Env) (c : Client) (threshold : Int)
    (tur : TemplateUpdateRequest) (mur : MasterUserRecord) : Run Outcome :=
  let syncIndexes := syncIndexes tur.spec.tierName mur
  match updateTemplateRefs env c tur mur with
  | .panic => .panic
  | .ret (_, some err, ws) =>
    let err1 := errsWrap err
      "unable to update the MasterUserRecord associated with the TemplateUpdateRequest"
    let r := addFailureStatusCondition env c tur err1
    match r.2 with
    | some err2 =>
      .ret { result := Result.empty, err := some err2, tur := r.1
             writes := ws ++ [Write.statusUpdate r.1 r.2] }
    | none =>
      if maxUpdateFailuresReached r.1 threshold = true then
        .ret { result := Result.empty, err := none, tur := r.1
               writes := ws ++ [Write.statusUpdate r.1 r.2] }
      else
        .ret { result := { requeue := true, requeueAfter := 5 }, err := some err1, tur := r.1
               writes := ws ++ [Write.statusUpdate r.1 r.2] }
  | .ret (_, none, ws) =>
    let r := addUpdatingStatusCondition env c tur syncIndexes
    match r.2 with
    | some err =>
      .ret { result := Result.empty
             err := some (errsWrap err "unable to update the TemplateUpdateRequest status")
             tur := r.1, writes := ws ++ [Write.statusUpdate r.1 r.2] }
    | none =>
      .ret { result := Result.empty, err := none, tur := r.1
             writes := ws ++ [Write.statusUpdate r.1 r.2] }

/-- The function `handleMURUpdate`. -/
def handleMURUpdate (env : Env) (c : Client) (tur : TemplateUpdateRequest) : Run Outcome :=
  match c.GetToolchainConfig with
  | .error err =>
    .ret { result := Result.empty, err := some (errsWrap err "unable to get ToolchainConfig")
           tur := tur, writes := [] }
  | .ok threshold =>
    match c.getMUR with
    | .notFound err =>
      let r := addFailureStatusCondition env c tur err
      .ret { result := Result.empty, err := r.2, tur := r.1
             writes := [Write.statusUpdate r.1 r.2] }
    | .failed err =>
      .ret { result := Result.empty
             err := some (errsWrap err
               "unable to get the MasterUserRecord associated with the TemplateUpdateRequest")
             tur := tur, writes := [] }
    | .found mur =>
      if tur.status.syncIndexes.length = 0 then
        handleMURUpdateFirst env c threshold tur mur
      else if allSyncIndexesChanged tur mur = true ∧
          condition.IsTrue mur.conditions ConditionReady = true then
        let r := setCompleteStatusCondition env c tur
        .ret { result := Result.empty, err := r.2, tur := r.1
               writes := [Write.statusUpdate r.1 r.2] }
      else
        .ret { result := Result.empty, err := none, tur := tur, writes := [] }

/-- The zero value `&toolchainv1alpha1.TemplateUpdateRequest{}`. -/
def TemplateUpdateRequest.zero : TemplateUpdateRequest :=
  { spec := { tierName := "", currentTierHash := "", namespaces := [], clusterResources := none }
    status := { syncIndexes := [], conditions := [] } }

/-- The function `Reconcile`. -/
def Reconcile (env : Env) (c : Client) : Run Outcome :=
  match c.getTUR with
  | .notFound _ =>
    .ret { result := Result.empty, err := none, tur := TemplateUpdateRequest.zero, writes := [] }
  | .failed err =>
    .ret { result := Result.empty
           err := some (errsWrap err "unable to get the current TemplateUpdateRequest")
           tur := TemplateUpdateRequest.zero, writes := [] }
  | .found tur =>
    if tur.spec.currentTierHash ≠ "" then .ret (handleSpaceUpdate env c tur)
    else handleMURUpdate env c tur

/-- The client of an invocation on a store: reads answer from the store
(the object, or the not-found error `nf`) unless `faults` makes them fail;
the configuration and the answers to writes are those of `faults`. -/
def Store.client (s : Store) (nf : String) (faults : Client) : Client :=
  { faults with
    getTUR :=
      match faults.getTUR with
      | .failed e => .failed e
      | _ => match s.tur with
        | some o => .found o
        | none => .notFound nf
    getSpace :=
      match faults.getSpace with
      | .failed e => .failed e
      | _ => match s.space with
        | some o => .found o
        | none => .notFound nf
    getMUR :=
      match faults.getMUR with
      | .failed e => .failed e
      | _ => match s.mur with
        | some o => .found o
        | none => .notFound nf }

/-! ## Notions used in the statements -/

/-- The test of `syncIndexes` and `updateTemplateRefs` on an account: it has a
namespace set, on the given tier. -/
def onTier (tierName : String) (ua : UserAccountEmbedded) : Bool :=
  match ua.nsTemplateSet with
  | some set => set.tierName = tierName
  | none => false

/-- A request whose baseline is the given map (tier `base`). -/
def turWithBaseline (baseline : GoMap String) : TemplateUpdateRequest :=
  { spec := { tierName := "base", currentTierHash := "", namespaces := [], clusterResources := none }
    status := { syncIndexes := baseline, conditions := [] } }

/-- An account on tier `base` with the given cluster and sync index. -/
def baseAccount (targetCluster syncIndex : String) : UserAccountEmbedded :=
  { targetCluster := targetCluster, syncIndex := syncIndex
    nsTemplateSet := some { tierName := "base", namespaces := [], clusterResources := none } }

/-- A MasterUserRecord with the given accounts and readiness. -/
def murWithAccounts (accounts : List UserAccountEmbedded) (ready : Bool) : MasterUserRecord :=
  { labels := some []
    userAccounts := accounts
    conditions :=
      [{ type := ConditionReady, status := if ready then ConditionTrue else ConditionFalse
         reason := "", message := "", lastTransitionTime := 1 }] }

/-- The snapshot `cur1` differs from `cur` only in the values of keys whose
value in `cur` was already different from the value the baseline has for
them. -/
def differsOnlyAtMoved (baseline cur cur1 : GoMap String) : Prop :=
  ∀ k, cur1.get? k = cur.get? k ∨
    ∃ v v1 b, cur.get? k = some v ∧ cur1.get? k = some v1 ∧
      baseline.get? k = some b ∧ v ≠ b

/-- What the loop of `updateTemplateRefs` makes of one account at index `i`,
given the map of desired namespaces: an account on the request's tier gets the
merged namespace set, any other account is kept. -/
def mergedAccount (tur : TemplateUpdateRequest) (order : Nat → List Nat)
    (namespaces : GoMap NSTemplateSetNamespace) (i : Nat) (ua : UserAccountEmbedded) :
    UserAccountEmbedded :=
  match ua.nsTemplateSet with
  | none => ua
  | some set =>
    if set.tierName = tur.spec.tierName then
      { ua with nsTemplateSet := some (mergedSet tur (order i) namespaces set) }
    else ua

/-- What the loop of `updateTemplateRefs` makes of the accounts from index
`i` on. -/
def mergedAccounts (tur : TemplateUpdateRequest) (order : Nat → List Nat)
    (namespaces : GoMap NSTemplateSetNamespace) : Nat → List UserAccountEmbedded →
    List UserAccountEmbedded
  | _, [] => []
  | i, ua :: rest =>
    mergedAccount tur order namespaces i ua :: mergedAccounts tur order namespaces (i + 1) rest

/-- The hash does not depend on the order of the namespaces: two namespace
sets with the same tier, the same cluster-resources reference and the same
namespaces up to order have the same hash (or fail alike). -/
def hashIgnoresOrder (env : Env) : Prop :=
  ∀ s s1 : NSTemplateSetSpec, s.tierName = s1.tierName →
    s.namespaces.Perm s1.namespaces → s.clusterResources = s1.clusterResources →
    env.ComputeHashForNSTemplateSetSpec s = env.ComputeHashForNSTemplateSetSpec s1

/-- Two accounts that agree up to the order of their namespaces. -/
def sameUpToOrder (ua ua1 : UserAccountEmbedded) : Prop :=
  ua1.targetCluster = ua.targetCluster ∧ ua1.syncIndex = ua.syncIndex ∧
  match ua.nsTemplateSet, ua1.nsTemplateSet with
  | some s, some s1 =>
    s1.tierName = s.tierName ∧ s1.namespaces.Perm s.namespaces ∧
    s1.clusterResources = s.clusterResources
  | none, none => True
  | _, _ => False

/-! ## Concrete inputs -/

/-- An environment: label key as in the tier utilities, a hash that never
fails and depends on the number of namespaces and the cluster-resources
reference only, time 7, and insertion order for every `range`. -/
def env0 : Env :=
  { TemplateTierHashLabelKey := fun tierName =>
      "toolchain.dev.openshift.com/" ++ tierName ++ "-tier-hash"
    ComputeHashForNSTemplateSetSpec := fun set =>
      .ok (String.mk (List.replicate set.namespaces.length 'n') ++
        match set.clusterResources with
        | some cr => cr.templateRef
        | none => "")
    now := 7
    rangeOrder := fun _ => [] }

/-- A store behaviour with no failure: every read and write succeeds, and the
failure threshold is the given one. -/
def noFaults (threshold : Int) : Client :=
  { getTUR := .notFound "", getSpace := .notFound "", getMUR := .notFound ""
    GetToolchainConfig := .ok threshold
    Update := fun _ => none
    StatusUpdate := fun _ => none }

/-- A store behaviour in which the update of the MasterUserRecord is refused
and everything else succeeds. -/
def updateRefused (threshold : Int) : Client :=
  { noFaults threshold with Update := fun _ => some "conflict" }

/-- A request of the Space flow, waiting for hash `h1` to be replaced. -/
def turSpace : TemplateUpdateRequest :=
  { spec := { tierName := "base", currentTierHash := "h1", namespaces := []
              clusterResources := none }
    status := { syncIndexes := [], conditions := [] } }

/-- A Space on tier `base` with the given hash label and readiness. -/
def spaceWith (hash : String) (ready : Bool) : Space :=
  { labels := [("toolchain.dev.openshift.com/base-tier-hash", hash)]
    tierName := "base"
    conditions :=
      [{ type := ConditionReady, status := if ready then ConditionTrue else ConditionFalse
         reason := "", message := "", lastTransitionTime := 1 }] }

/-- A store holding the given Space and no MasterUserRecord. -/
def storeWithSpace (tur : TemplateUpdateRequest) (space : Space) : Store :=
  { tur := some tur, space := some space, mur := none }

/-- A store holding the given MasterUserRecord and no Space. -/
def storeWithMUR (tur : TemplateUpdateRequest) (mur : MasterUserRecord) : Store :=
  { tur := some tur, space := none, mur := some mur }

/-- A store holding the request only. -/
def storeWithoutTarget (tur : TemplateUpdateRequest) : Store :=
  { tur := some tur, space := none, mur := none }

/-- A request of the MasterUserRecord flow on tier `base` with one desired
namespace of type `dev`, the given baseline and the given conditions. -/
def turMUR (baseline : GoMap String) (conditions : List Condition) : TemplateUpdateRequest :=
  { spec := { tierName := "base", currentTierHash := ""
              namespaces := [{ templateRef := "base-dev-abc" }]
              clusterResources := some { templateRef := "base-clusterresources-abc" } }
    status := { syncIndexes := baseline, conditions := conditions } }

/-- A MasterUserRecord with one account on tier `base`, holding namespaces of
types `dev` and `stage`. -/
def murTwoTypes : MasterUserRecord :=
  { labels := some []
    userAccounts :=
      [{ targetCluster := "c1", syncIndex := "s1"
         nsTemplateSet := some
           { tierName := "base"
             namespaces := [{ templateRef := "base-dev-old" }, { templateRef := "base-stage-old" }]
             clusterResources := none } }]
    conditions := [] }

/-- The record `murTwoTypes` after the merge of the request `turMUR`, whose
only desired namespace is of type `dev`. -/
def murTwoTypesMerged : MasterUserRecord :=
  { labels := some [("toolchain.dev.openshift.com/base-tier-hash", "nbase-clusterresources-abc")]
    userAccounts :=
      [{ targetCluster := "c1", syncIndex := "s1"
         nsTemplateSet := some
           { tierName := "base"
             namespaces := [{ templateRef := "base-dev-abc" }]
             clusterResources := some { templateRef := "base-clusterresources-abc" } } }]
    conditions := [] }

/-- A request on tier `base` with two desired namespaces, of types `dev` and
`stage`, and no cluster-resources reference. -/
def turTwoTypes : TemplateUpdateRequest :=
  { spec := { tierName := "base", currentTierHash := ""
              namespaces := [{ templateRef := "base-dev-abc" }, { templateRef := "base-stage-abc" }]
              clusterResources := none }
    status := { syncIndexes := [], conditions := [] } }

/-- A record with one account on tier `base` holding the given namespaces,
and the tier-hash label that `env0` computes for two namespaces. -/
def murWithNamespaces (namespaces : List NSTemplateSetNamespace) : MasterUserRecord :=
  { labels := some [("toolchain.dev.openshift.com/base-tier-hash", "nn")]
    userAccounts :=
      [{ targetCluster := "c1", syncIndex := "s1"
         nsTemplateSet := some
           { tierName := "base", namespaces := namespaces, clusterResources := none } }]
    conditions := [] }

/-- The environment `env0` with another order for the `range` over the map of
desired namespaces: the first entry is visited second. -/
def env1 : Env := { env0 with rangeOrder := fun _ => [1] }

/-- What the merge keeps of an account: the target cluster, the sync index,
the tier name of the namespace set (and whether there is one), and the whole
account when it is not on the given tier. -/
def keepsFrame (tierName : String) (ua ua1 : UserAccountEmbedded) : Prop :=
  ua1.targetCluster = ua.targetCluster ∧ ua1.syncIndex = ua.syncIndex ∧
  ua1.nsTemplateSet.map (fun s => s.tierName) = ua.nsTemplateSet.map (fun s => s.tierName) ∧
  (onTier tierName ua = false → ua1 = ua)

/-- The type of a namespace: `namespaceType` of its template reference. -/
def typeOf (ns : NSTemplateSetNamespace) : Run String := namespaceType ns.templateRef

/-- A request on tier `base` whose desired namespaces are of types `dev`,
`stage` and `dev` again, with no cluster-resources reference. -/
def turLastWins : TemplateUpdateRequest :=
  { spec := { tierName := "base", currentTierHash := ""
              namespaces := [{ templateRef := "base-dev-abc" }, { templateRef := "base-stage-abc" },
                { templateRef := "base-dev-xyz" }]
              clusterResources := none }
    status := { syncIndexes := [], conditions := [] } }

/-- The write is an update of a target entity (`Client.Update`). -/
def Write.isUpdate : Write → Bool
  | .update _ _ => true
  | .statusUpdate _ _ => false

/-- The write is a status update of the request (`Client.Status().Update`). -/
def Write.isStatusUpdate : Write → Bool
  | .update _ _ => false
  | .statusUpdate _ _ => true

/-! ## Invocations on a store -/

/-- One invocation of `Reconcile` on the store: the store after the writes of
the invocation. An invocation that panics has written nothing and leaves the
store as it is. -/
def invoke (env : Env) (nf : String) (faults : Client) (s : Store) : Store :=
  match Reconcile env (s.client nf faults) with
  | .ret out => s.applyWrites out.writes
  | .panic => s

/-- The writes issued by one invocation of `Reconcile` on the store. -/
def invokeWrites (env : Env) (nf : String) (faults : Client) (s : Store) : List Write :=
  match Reconcile env (s.client nf faults) with
  | .ret out => out.writes
  | .panic => []

/-- What happens to the objects of one identity: an invocation of `Reconcile`,
with its environment and the behaviour of the store in it, or a change of the
MasterUserRecord from outside (downstream systems, or its removal). -/
inductive Event where
  | reconcile (env : Env) (faults : Client)
  | external (mur : Option MasterUserRecord)

/-- The store and the writes issued so far, after one more event. -/
def Event.apply (nf : String) (st : Store × List Write) : Event → Store × List Write
  | .reconcile env faults =>
    (invoke env nf faults st.1, st.2 ++ invokeWrites env nf faults st.1)
  | .external mur => ({ st.1 with mur := mur }, st.2)

/-- The store reached from `s` by a sequence of events, with all the writes
issued on the way. -/
def runEvents (nf : String) (events : List Event) (s : Store) : Store × List Write :=
  events.foldl (Event.apply nf) (s, [])

/-- The status decision a request carries: the kind of its latest condition
(the reason: Updating, UnableToUpdate for Failed, Updated for Complete; `none`
when there is no condition) and its `status.syncIndexes`. -/
def decision (tur : TemplateUpdateRequest) : Option String × GoMap String :=
  (tur.status.conditions.getLast?.map (fun c => c.reason), tur.status.syncIndexes)

end HostOperator

/-! ## Theorems -/

namespace HostOperator

/-! ### Go maps -/

theorem GoMap.get?_set {V : Type} (m : GoMap V) (k k' : String) (v : V) :
    (m.set k v).get? k' = if k = k' then some v else m.get? k' := by
  induction m with
  | nil => simp [GoMap.set, GoMap.get?]
  | cons e rest ih =>
    obtain ⟨a, b⟩ := e
    by_cases h : a = k
    · subst h
      by_cases h2 : a = k' <;> simp [GoMap.set, GoMap.get?, h2]
    · by_cases h2 : a = k'
      · subst h2
        simp [GoMap.set, GoMap.get?, h, Ne.symm h]
      · simp [GoMap.set, GoMap.get?, h, h2, ih]

theorem GoMap.mem_keys_set {V : Type} (m : GoMap V) (k k' : String) (v : V) :
    k' ∈ (m.set k v).keys ↔ k' = k ∨ k' ∈ m.keys := by
  induction m with
  | nil => simp [GoMap.set, GoMap.keys]
  | cons e rest ih =>
    obtain ⟨a, b⟩ := e
    by_cases h : a = k
    · subst h
      simp [GoMap.set, GoMap.keys]
    · simp only [GoMap.keys] at ih
      simp only [GoMap.set, GoMap.keys, if_neg h, List.map_cons, List.mem_cons, ih]
      tauto

theorem GoMap.nodup_keys_set {V : Type} (m : GoMap V) (k : String) (v : V)
    (h : m.keys.Nodup) : (m.set k v).keys.Nodup := by
  induction m with
  | nil => simp [GoMap.set, GoMap.keys]
  | cons e rest ih =>
    obtain ⟨a, b⟩ := e
    have h1 : a ∉ GoMap.keys rest ∧ (GoMap.keys rest).Nodup := by
      simpa [GoMap.keys] using h
    by_cases hk : a = k
    · subst hk
      simpa [GoMap.set, GoMap.keys] using h
    · have h3 : a ∉ (GoMap.set rest k v).keys := by
        rw [GoMap.mem_keys_set]
        tauto
      have h4 := ih h1.2
      simp only [GoMap.keys] at h3 h4
      simp only [GoMap.set, GoMap.keys, if_neg hk, List.map_cons, List.nodup_cons]
      exact ⟨h3, h4⟩

theorem GoMap.get?_eq_none_iff {V : Type} (m : GoMap V) (k : String) :
    m.get? k = none ↔ k ∉ m.keys := by
  induction m with
  | nil => simp [GoMap.get?, GoMap.keys]
  | cons e rest ih =>
    obtain ⟨a, b⟩ := e
    simp only [GoMap.keys] at ih
    by_cases h : a = k
    · simp [GoMap.get?, GoMap.keys, h]
    · simp [GoMap.get?, GoMap.keys, h, ih, Ne.symm h]

/-! ### The convergence check -/

theorem allSyncIndexesChangedLoop_eq_true (cur baseline : GoMap String) :
    allSyncIndexesChangedLoop cur baseline = true ↔
      ∀ e ∈ baseline, cur.get? e.1 ≠ some e.2 := by
  induction baseline with
  | nil => simp [allSyncIndexesChangedLoop]
  | cons e rest ih =>
    obtain ⟨k, v⟩ := e
    simp only [allSyncIndexesChangedLoop, List.mem_cons, forall_eq_or_imp]
    cases hg : cur.get? k with
    | none => simp [ih]
    | some current =>
      by_cases hc : current = v
      · simp [hc]
      · simp [hc, ih]

/-- C2: `allSyncIndexesChanged` returns false exactly when some entry of the
baseline (`tur.Status.SyncIndexes`) has its key mapped to an equal value in
`syncIndexes(tierName, mur)`; it returns true exactly when every baseline key
is absent from the current snapshot or present there with another value; an
empty baseline is converged. -/
theorem allSyncIndexesChanged_iff (tur : TemplateUpdateRequest) (mur : MasterUserRecord) :
    (allSyncIndexesChanged tur mur = false ↔
      ∃ e ∈ tur.status.syncIndexes,
        (syncIndexes tur.spec.tierName mur).get? e.1 = some e.2) ∧
    (allSyncIndexesChanged tur mur = true ↔
      ∀ e ∈ tur.status.syncIndexes,
        (syncIndexes tur.spec.tierName mur).get? e.1 = none ∨
        ∃ current, (syncIndexes tur.spec.tierName mur).get? e.1 = some current ∧
          current ≠ e.2) ∧
    allSyncIndexesChanged
      { tur with status := { tur.status with syncIndexes := [] } } mur = true := by
  have key := allSyncIndexesChangedLoop_eq_true
    (syncIndexes tur.spec.tierName mur) tur.status.syncIndexes
  refine ⟨?_, ?_, ?_⟩
  · unfold allSyncIndexesChanged
    rw [← Bool.not_eq_true, key]
    push_neg
    rfl
  · unfold allSyncIndexesChanged
    rw [key]
    constructor
    · intro h e he
      cases hg : (syncIndexes tur.spec.tierName mur).get? e.1 with
      | none => exact Or.inl rfl
      | some current =>
        refine Or.inr ⟨current, rfl, ?_⟩
        intro hc
        exact h e he (by rw [hg, hc])
    · intro h e he hg
      rcases h e he with h1 | ⟨current, h1, h2⟩
      · rw [h1] at hg
        cases hg
      · rw [h1] at hg
        exact h2 (Option.some.inj hg)
  · simp [allSyncIndexesChanged, allSyncIndexesChangedLoop]

/-! ### The snapshot -/

/-- The step of the loop of `syncIndexes`. -/
theorem syncIndexes_append (tierName : String) (mur : MasterUserRecord)
    (l : List UserAccountEmbedded) (ua : UserAccountEmbedded) :
    syncIndexes tierName { mur with userAccounts := l ++ [ua] } =
      if onTier tierName ua = true then
        (syncIndexes tierName { mur with userAccounts := l }).set ua.targetCluster ua.syncIndex
      else syncIndexes tierName { mur with userAccounts := l } := by
  simp only [syncIndexes, List.foldl_append, List.foldl_cons, List.foldl_nil, onTier]
  cases ua.nsTemplateSet with
  | none => simp
  | some set => by_cases h : set.tierName = tierName <;> simp [h]

theorem syncIndexes_get? (tierName : String) (mur : MasterUserRecord) (k : String) :
    (syncIndexes tierName mur).get? k =
      ((mur.userAccounts.filter
        (fun ua => onTier tierName ua && decide (ua.targetCluster = k))).getLast?).map
        (fun ua => ua.syncIndex) := by
  obtain ⟨labels, accounts, conditions⟩ := mur
  induction accounts using List.reverseRecOn with
  | nil => simp [syncIndexes, GoMap.get?]
  | append_singleton l ua ih =>
    have hstep := syncIndexes_append tierName ⟨labels, l, conditions⟩ l ua
    simp only at hstep ih ⊢
    rw [hstep, List.filter_append]
    by_cases ht : onTier tierName ua = true
    · rw [if_pos ht, GoMap.get?_set]
      by_cases hk : ua.targetCluster = k
      · simp [ht, hk, List.filter_cons]
      · simp [ht, hk, List.filter_cons, ih]
    · rw [if_neg ht]
      simp [ht, List.filter_cons, ih]

theorem syncIndexes_nodup (tierName : String) (mur : MasterUserRecord) :
    (syncIndexes tierName mur).keys.Nodup := by
  obtain ⟨labels, accounts, conditions⟩ := mur
  induction accounts using List.reverseRecOn with
  | nil => simp [syncIndexes, GoMap.keys]
  | append_singleton l ua ih =>
    have hstep := syncIndexes_append tierName ⟨labels, l, conditions⟩ l ua
    simp only at hstep ih ⊢
    rw [hstep]
    by_cases ht : onTier tierName ua = true
    · rw [if_pos ht]
      exact GoMap.nodup_keys_set _ _ _ ih
    · rw [if_neg ht]
      exact ih

/-- C9: the map returned by `syncIndexes` has distinct keys, its keys are
exactly the target clusters of the accounts that have a namespace set on the
given tier, and the value of a key is the sync index of the last such account
(in account order) on that cluster; other accounts contribute nothing. -/
theorem syncIndexes_spec (tierName : String) (mur : MasterUserRecord) :
    (syncIndexes tierName mur).keys.Nodup ∧
    (∀ k, k ∈ (syncIndexes tierName mur).keys ↔
      ∃ ua ∈ mur.userAccounts, onTier tierName ua = true ∧ ua.targetCluster = k) ∧
    (∀ k, (syncIndexes tierName mur).get? k =
      ((mur.userAccounts.filter
        (fun ua => onTier tierName ua && decide (ua.targetCluster = k))).getLast?).map
        (fun ua => ua.syncIndex)) := by
  refine ⟨syncIndexes_nodup tierName mur, ?_, syncIndexes_get? tierName mur⟩
  intro k
  have h1 := GoMap.get?_eq_none_iff (syncIndexes tierName mur) k
  rw [syncIndexes_get?] at h1
  rw [← not_iff_not, ← h1]
  simp [List.getLast?_eq_none_iff, List.filter_eq_nil_iff]

/-! ### Monotonicity of the convergence check -/

/-- C8, as stated, fails: with baseline `c1:s1`, the snapshot `c1:s2` is
converged; the snapshot `c1:s1` differs from it only in the value of `c1`,
whose value `s2` was already different from the baseline value; and it is not
converged. -/
theorem allSyncIndexesChanged_not_monotonic :
    allSyncIndexesChanged (turWithBaseline [("c1", "s1")])
      (murWithAccounts [baseAccount "c1" "s2"] true) = true ∧
    differsOnlyAtMoved [("c1", "s1")]
      (syncIndexes "base" (murWithAccounts [baseAccount "c1" "s2"] true))
      (syncIndexes "base" (murWithAccounts [baseAccount "c1" "s1"] true)) ∧
    allSyncIndexesChanged (turWithBaseline [("c1", "s1")])
      (murWithAccounts [baseAccount "c1" "s1"] true) = false := by
  refine ⟨by decide, ?_, by decide⟩
  have e1 : syncIndexes "base" (murWithAccounts [baseAccount "c1" "s2"] true)
      = [("c1", "s2")] := by decide
  have e2 : syncIndexes "base" (murWithAccounts [baseAccount "c1" "s1"] true)
      = [("c1", "s1")] := by decide
  rw [e1, e2]
  intro k
  by_cases hk : "c1" = k
  · subst hk
    exact Or.inr ⟨"s2", "s1", "s1", by decide, by decide, by decide, by decide⟩
  · exact Or.inl (by simp [GoMap.get?, hk])

/-- C8, amended: when `allSyncIndexesChanged` is true for a snapshot, it is
still true for every snapshot that differs from it only in the values of keys
whose value was already different from the baseline value, provided the new
value of each changed baseline key differs from the baseline value too. -/
theorem allSyncIndexesChanged_monotonic (tur : TemplateUpdateRequest)
    (mur mur1 : MasterUserRecord)
    (h : allSyncIndexesChanged tur mur = true)
    (hd : differsOnlyAtMoved tur.status.syncIndexes
      (syncIndexes tur.spec.tierName mur) (syncIndexes tur.spec.tierName mur1))
    (hn : ∀ e ∈ tur.status.syncIndexes, ∀ v1,
      (syncIndexes tur.spec.tierName mur1).get? e.1 = some v1 →
      (syncIndexes tur.spec.tierName mur).get? e.1 ≠ some v1 → v1 ≠ e.2) :
    allSyncIndexesChanged tur mur1 = true := by
  unfold allSyncIndexesChanged at h ⊢
  rw [allSyncIndexesChangedLoop_eq_true] at h ⊢
  intro e he hg
  rcases hd e.1 with hsame | ⟨v, v1, b, hv, hv1, _, _⟩
  · rw [hsame] at hg
    exact h e he hg
  · by_cases hvv : (syncIndexes tur.spec.tierName mur).get? e.1 = some e.2
    · exact h e he hvv
    · exact hn e he e.2 hg hvv rfl

/-- Witness for C8 amended: baseline `c1:s1, c2:s2`, snapshot `c1:s4, c2:s3`
(converged), then `c1:s5, c2:s3`: still converged. -/
theorem allSyncIndexesChanged_monotonic_witness :
    allSyncIndexesChanged (turWithBaseline [("c1", "s1"), ("c2", "s2")])
      (murWithAccounts [baseAccount "c1" "s5", baseAccount "c2" "s3"] true) = true := by
  have e1 : syncIndexes "base"
      (murWithAccounts [baseAccount "c1" "s4", baseAccount "c2" "s3"] true)
      = [("c1", "s4"), ("c2", "s3")] := by decide
  have e2 : syncIndexes "base"
      (murWithAccounts [baseAccount "c1" "s5", baseAccount "c2" "s3"] true)
      = [("c1", "s5"), ("c2", "s3")] := by decide
  refine allSyncIndexesChanged_monotonic (turWithBaseline [("c1", "s1"), ("c2", "s2")])
    (murWithAccounts [baseAccount "c1" "s4", baseAccount "c2" "s3"] true)
    (murWithAccounts [baseAccount "c1" "s5", baseAccount "c2" "s3"] true)
    (by decide) ?_ ?_
  · show differsOnlyAtMoved [("c1", "s1"), ("c2", "s2")] (syncIndexes "base" _)
      (syncIndexes "base" _)
    rw [e1, e2]
    intro k
    by_cases hk : "c1" = k
    · subst hk
      exact Or.inr ⟨"s4", "s5", "s1", by decide, by decide, by decide, by decide⟩
    · exact Or.inl (by simp [GoMap.get?, hk])
  · show ∀ e ∈ [("c1", "s1"), ("c2", "s2")], ∀ v1,
      (syncIndexes "base" _).get? e.1 = some v1 →
      (syncIndexes "base" _).get? e.1 ≠ some v1 → v1 ≠ e.2
    rw [e1, e2]
    intro e he v1 h1 _
    simp only [List.mem_cons, List.mem_singleton, List.not_mem_nil, or_false] at he
    rcases he with rfl | rfl
    · have : v1 = "s5" := by simpa [GoMap.get?] using h1.symm
      subst this
      decide
    · have : v1 = "s3" := by simpa [GoMap.get?] using h1.symm
      subst this
      decide

/-! ### The Space flow -/

/-- C3: in the Space flow with an existing Space, when the label under the
tier-hash key of the Space's own tier differs from `currentTierHash` and the
Space is ready, the request's conditions become exactly `[Complete]`;
otherwise they become exactly `[Updating]` and `status.syncIndexes` the empty
map. In both cases the only write is one status update of the request, and
the Space in the store is left as it was. -/
theorem handleSpaceUpdate_found (env : Env) (c : Client) (tur : TemplateUpdateRequest)
    (space : Space) (hs : c.getSpace = .found space) :
    ((tur.spec.currentTierHash ≠
          space.labels.getD (env.TemplateTierHashLabelKey space.tierName) ∧
        condition.IsTrue space.conditions ConditionReady = true) →
      (handleSpaceUpdate env c tur).tur.status.conditions = [ToBeComplete env.now]) ∧
    (¬ (tur.spec.currentTierHash ≠
          space.labels.getD (env.TemplateTierHashLabelKey space.tierName) ∧
        condition.IsTrue space.conditions ConditionReady = true) →
      (handleSpaceUpdate env c tur).tur.status.conditions = [ToBeUpdating env.now] ∧
      (handleSpaceUpdate env c tur).tur.status.syncIndexes = []) ∧
    (handleSpaceUpdate env c tur).writes =
      [Write.statusUpdate (handleSpaceUpdate env c tur).tur
        (c.StatusUpdate (handleSpaceUpdate env c tur).tur)] ∧
    (handleSpaceUpdate env c tur).tur.spec = tur.spec ∧
    ∀ store : Store,
      (store.applyWrites (handleSpaceUpdate env c tur).writes).space = store.space ∧
      (store.applyWrites (handleSpaceUpdate env c tur).writes).mur = store.mur := by
  by_cases hcond : tur.spec.currentTierHash ≠
      space.labels.getD (env.TemplateTierHashLabelKey space.tierName) ∧
      condition.IsTrue space.conditions ConditionReady = true
  · have hout : handleSpaceUpdate env c tur =
        { result := Result.empty, err := (setCompleteStatusCondition env c tur).2
          tur := (setCompleteStatusCondition env c tur).1
          writes := [Write.statusUpdate (setCompleteStatusCondition env c tur).1
            (setCompleteStatusCondition env c tur).2] } := by
      simp only [handleSpaceUpdate, hs, if_pos hcond]
    rw [hout]
    refine ⟨fun _ => rfl, fun h => absurd hcond h, rfl, rfl, ?_⟩
    intro store
    cases hw : c.StatusUpdate (setCompleteStatusCondition env c tur).1 <;>
      simp [Store.applyWrites, Store.applyWrite, setCompleteStatusCondition] at hw ⊢ <;>
      simp [hw, Store.applyWrite]
  · cases hw : c.StatusUpdate (addUpdatingStatusCondition env c tur []).1 with
    | none =>
      have hout : handleSpaceUpdate env c tur =
          { result := Result.empty, err := none
            tur := (addUpdatingStatusCondition env c tur []).1
            writes := [Write.statusUpdate (addUpdatingStatusCondition env c tur []).1 none] } := by
        have h2 : (addUpdatingStatusCondition env c tur []).2 = none := hw
        simp only [handleSpaceUpdate, hs, if_neg hcond, h2]
      rw [hout]
      refine ⟨fun h => absurd h hcond, fun _ => ⟨rfl, rfl⟩, ?_, rfl, ?_⟩
      · simp only [hw]
      · intro store
        simp [Store.applyWrites, Store.applyWrite]
    | some e =>
      have hout : handleSpaceUpdate env c tur =
          { result := Result.empty
            err := some (errsWrap e "unable to update the TemplateUpdateRequest status")
            tur := (addUpdatingStatusCondition env c tur []).1
            writes := [Write.statusUpdate (addUpdatingStatusCondition env c tur []).1
              (some e)] } := by
        have h2 : (addUpdatingStatusCondition env c tur []).2 = some e := hw
        simp only [handleSpaceUpdate, hs, if_neg hcond, h2]
      rw [hout]
      refine ⟨fun h => absurd h hcond, fun _ => ⟨rfl, rfl⟩, ?_, rfl, ?_⟩
      · simp only [hw]
      · intro store
        simp [Store.applyWrites, Store.applyWrite]

/-- Witness for C3: hash `h1`, label `h1`, not ready gives Updating with an
empty map; label `h2` and ready gives Complete. -/
theorem handleSpaceUpdate_found_witness :
    ((handleSpaceUpdate env0
        ((storeWithSpace turSpace (spaceWith "h1" false)).client "not found" (noFaults 3))
        turSpace).tur.status.conditions = [ToBeUpdating 7] ∧
      (handleSpaceUpdate env0
        ((storeWithSpace turSpace (spaceWith "h1" false)).client "not found" (noFaults 3))
        turSpace).tur.status.syncIndexes = []) ∧
    (handleSpaceUpdate env0
        ((storeWithSpace turSpace (spaceWith "h2" true)).client "not found" (noFaults 3))
        turSpace).tur.status.conditions = [ToBeComplete 7] :=
  ⟨(handleSpaceUpdate_found env0
      ((storeWithSpace turSpace (spaceWith "h1" false)).client "not found" (noFaults 3))
      turSpace (spaceWith "h1" false) rfl).2.1 (by decide),
   (handleSpaceUpdate_found env0
      ((storeWithSpace turSpace (spaceWith "h2" true)).client "not found" (noFaults 3))
      turSpace (spaceWith "h2" true) rfl).1 (by decide)⟩

/-! ### The MasterUserRecord flow -/

/-- C1: in the MasterUserRecord flow, when `status.syncIndexes` is empty and
`updateTemplateRefs` succeeds (the merged record is persisted), the request
gets exactly `[Updating]` and the `status.syncIndexes` written with it is
`syncIndexes(tierName, mur)` of the record as fetched, before the merge. -/
theorem handleMURUpdate_captures_baseline (env : Env) (c : Client)
    (tur : TemplateUpdateRequest) (threshold : Int) (mur mur1 : MasterUserRecord)
    (ws : List Write)
    (hc : c.GetToolchainConfig = .ok threshold) (hm : c.getMUR = .found mur)
    (hb : tur.status.syncIndexes = [])
    (hu : updateTemplateRefs env c tur mur = .ret (mur1, none, ws)) :
    ∃ out, handleMURUpdate env c tur = .ret out ∧
      out.tur.status.syncIndexes = syncIndexes tur.spec.tierName mur ∧
      out.tur.status.conditions = [ToBeUpdating env.now] ∧
      out.writes = [Write.update mur1 none,
        Write.statusUpdate out.tur (c.StatusUpdate out.tur)] := by
  have hws : ws = [Write.update mur1 none] := by
    unfold updateTemplateRefs at hu
    split at hu
    · cases hu
    · cases hu
    · simp only [Run.ret.injEq, Prod.mk.injEq] at hu
      obtain ⟨h1, h2, h3⟩ := hu
      subst h1
      rw [← h3, h2]
  subst hws
  have hfirst : handleMURUpdate env c tur = handleMURUpdateFirst env c threshold tur mur := by
    simp only [handleMURUpdate, hc, hm, hb, List.length_nil, if_true]
  rw [hfirst]
  cases hw : c.StatusUpdate
      (addUpdatingStatusCondition env c tur (syncIndexes tur.spec.tierName mur)).1 with
  | none =>
    have h2 : (addUpdatingStatusCondition env c tur
        (syncIndexes tur.spec.tierName mur)).2 = none := hw
    refine ⟨{ result := Result.empty, err := none
              tur := (addUpdatingStatusCondition env c tur
                (syncIndexes tur.spec.tierName mur)).1
              writes := [Write.update mur1 none] ++
                [Write.statusUpdate (addUpdatingStatusCondition env c tur
                  (syncIndexes tur.spec.tierName mur)).1 none] }, ?_, rfl, rfl, ?_⟩
    · simp only [handleMURUpdateFirst, hu, h2]
    · simp only [hw, List.singleton_append]
  | some e =>
    have h2 : (addUpdatingStatusCondition env c tur
        (syncIndexes tur.spec.tierName mur)).2 = some e := hw
    refine ⟨{ result := Result.empty
              err := some (errsWrap e "unable to update the TemplateUpdateRequest status")
              tur := (addUpdatingStatusCondition env c tur
                (syncIndexes tur.spec.tierName mur)).1
              writes := [Write.update mur1 none] ++
                [Write.statusUpdate (addUpdatingStatusCondition env c tur
                  (syncIndexes tur.spec.tierName mur)).1 (some e)] }, ?_, rfl, rfl, ?_⟩
    · simp only [handleMURUpdateFirst, hu, h2]
    · simp only [hw, List.singleton_append]

/-- Witness for C1: two accounts on tier `base`, on `c1` and `c2` with sync
indexes `s1` and `s2`: the status holds exactly `c1:s1, c2:s2`. -/
theorem handleMURUpdate_captures_baseline_witness :
    ∃ out, handleMURUpdate env0
        ((storeWithMUR (turMUR [] [])
          (murWithAccounts [baseAccount "c1" "s1", baseAccount "c2" "s2"] true)).client
          "not found" (noFaults 3))
        (turMUR [] []) = .ret out ∧
      out.tur.status.syncIndexes = [("c1", "s1"), ("c2", "s2")] := by
  obtain ⟨out, h1, h2, _, _⟩ := handleMURUpdate_captures_baseline env0
    ((storeWithMUR (turMUR [] [])
      (murWithAccounts [baseAccount "c1" "s1", baseAccount "c2" "s2"] true)).client
      "not found" (noFaults 3))
    (turMUR [] []) 3
    (murWithAccounts [baseAccount "c1" "s1", baseAccount "c2" "s2"] true)
    _ _ rfl rfl rfl rfl
  exact ⟨out, h1, h2.trans (by decide)⟩

/-- The flow with a configuration, a fetched record and a non-empty baseline
is the comparison branch of `handleMURUpdate`. -/
theorem handleMURUpdate_of_baseline (env : Env) (c : Client) (tur : TemplateUpdateRequest)
    (threshold : Int) (mur : MasterUserRecord)
    (hc : c.GetToolchainConfig = .ok threshold) (hm : c.getMUR = .found mur)
    (hb : tur.status.syncIndexes ≠ []) :
    handleMURUpdate env c tur =
      if allSyncIndexesChanged tur mur = true ∧
          condition.IsTrue mur.conditions ConditionReady = true then
        .ret { result := Result.empty, err := (setCompleteStatusCondition env c tur).2
               tur := (setCompleteStatusCondition env c tur).1
               writes := [Write.statusUpdate (setCompleteStatusCondition env c tur).1
                 (setCompleteStatusCondition env c tur).2] }
      else .ret { result := Result.empty, err := none, tur := tur, writes := [] } := by
  have hlen : ¬ tur.status.syncIndexes.length = 0 := by
    intro h
    exact hb (List.length_eq_zero.mp h)
  simp only [handleMURUpdate, hc, hm, if_neg hlen]

/-- C4: in the MasterUserRecord flow with a non-empty `status.syncIndexes` and
an existing record, the invocation returns; when `allSyncIndexesChanged` holds
and the record is ready, the request's conditions become exactly `[Complete]`
and the one write is the status update carrying them; otherwise there is no
write at all, the request is unchanged, and the result is empty with no error.
So a write is issued exactly when both hold, and the record is never
written. -/
theorem handleMURUpdate_baseline (env : Env) (c : Client) (tur : TemplateUpdateRequest)
    (threshold : Int) (mur : MasterUserRecord)
    (hc : c.GetToolchainConfig = .ok threshold) (hm : c.getMUR = .found mur)
    (hb : tur.status.syncIndexes ≠ []) :
    ∃ out, handleMURUpdate env c tur = .ret out ∧
      ((allSyncIndexesChanged tur mur = true ∧
          condition.IsTrue mur.conditions ConditionReady = true) →
        out.tur.status.conditions = [ToBeComplete env.now] ∧
        out.tur.status.syncIndexes = tur.status.syncIndexes ∧
        out.writes = [Write.statusUpdate out.tur (c.StatusUpdate out.tur)] ∧
        out.result = Result.empty ∧ out.err = c.StatusUpdate out.tur) ∧
      (¬ (allSyncIndexesChanged tur mur = true ∧
          condition.IsTrue mur.conditions ConditionReady = true) →
        out.tur = tur ∧ out.writes = [] ∧ out.result = Result.empty ∧ out.err = none) ∧
      (out.writes ≠ [] ↔
        (allSyncIndexesChanged tur mur = true ∧
          condition.IsTrue mur.conditions ConditionReady = true)) ∧
      ∀ store : Store, (store.applyWrites out.writes).mur = store.mur := by
  rw [handleMURUpdate_of_baseline env c tur threshold mur hc hm hb]
  by_cases hcond : allSyncIndexesChanged tur mur = true ∧
      condition.IsTrue mur.conditions ConditionReady = true
  · rw [if_pos hcond]
    refine ⟨_, rfl, fun _ => ⟨rfl, rfl, rfl, rfl, rfl⟩, fun h => absurd hcond h, ?_, ?_⟩
    · simp [hcond]
    · intro store
      cases hw : (setCompleteStatusCondition env c tur).2 <;>
        simp [Store.applyWrites, Store.applyWrite, hw]
  · rw [if_neg hcond]
    refine ⟨_, rfl, fun h => absurd h hcond, fun _ => ⟨rfl, rfl, rfl, rfl⟩, ?_, ?_⟩
    · simp [hcond]
    · intro store
      simp [Store.applyWrites]

/-- Witness for C4, with baseline `c1:s1, c2:s2`: the record reporting
`c1:s1, c2:s3` leaves the request unchanged with no write; reporting
`c1:s4, c2:s3` and ready gives Complete; reporting `c1:s4` only and ready
gives Complete. -/
theorem handleMURUpdate_baseline_witness :
    (∃ out, handleMURUpdate env0
        ((storeWithMUR (turMUR [("c1", "s1"), ("c2", "s2")] [ToBeUpdating 5])
          (murWithAccounts [baseAccount "c1" "s1", baseAccount "c2" "s3"] true)).client
          "not found" (noFaults 3))
        (turMUR [("c1", "s1"), ("c2", "s2")] [ToBeUpdating 5]) = .ret out ∧
      out.tur = turMUR [("c1", "s1"), ("c2", "s2")] [ToBeUpdating 5] ∧ out.writes = [] ∧
      out.result = Result.empty ∧ out.err = none) ∧
    (∃ out, handleMURUpdate env0
        ((storeWithMUR (turMUR [("c1", "s1"), ("c2", "s2")] [ToBeUpdating 5])
          (murWithAccounts [baseAccount "c1" "s4", baseAccount "c2" "s3"] true)).client
          "not found" (noFaults 3))
        (turMUR [("c1", "s1"), ("c2", "s2")] [ToBeUpdating 5]) = .ret out ∧
      out.tur.status.conditions = [ToBeComplete 7]) ∧
    (∃ out, handleMURUpdate env0
        ((storeWithMUR (turMUR [("c1", "s1"), ("c2", "s2")] [ToBeUpdating 5])
          (murWithAccounts [baseAccount "c1" "s4"] true)).client
          "not found" (noFaults 3))
        (turMUR [("c1", "s1"), ("c2", "s2")] [ToBeUpdating 5]) = .ret out ∧
      out.tur.status.conditions = [ToBeComplete 7]) := by
  refine ⟨?_, ?_, ?_⟩
  · obtain ⟨out, h1, _, h3, _⟩ := handleMURUpdate_baseline env0
      ((storeWithMUR (turMUR [("c1", "s1"), ("c2", "s2")] [ToBeUpdating 5])
        (murWithAccounts [baseAccount "c1" "s1", baseAccount "c2" "s3"] true)).client
        "not found" (noFaults 3))
      (turMUR [("c1", "s1"), ("c2", "s2")] [ToBeUpdating 5]) 3
      (murWithAccounts [baseAccount "c1" "s1", baseAccount "c2" "s3"] true)
      rfl rfl (by decide)
    exact ⟨out, h1, h3 (by decide)⟩
  · obtain ⟨out, h1, h2, _⟩ := handleMURUpdate_baseline env0
      ((storeWithMUR (turMUR [("c1", "s1"), ("c2", "s2")] [ToBeUpdating 5])
        (murWithAccounts [baseAccount "c1" "s4", baseAccount "c2" "s3"] true)).client
        "not found" (noFaults 3))
      (turMUR [("c1", "s1"), ("c2", "s2")] [ToBeUpdating 5]) 3
      (murWithAccounts [baseAccount "c1" "s4", baseAccount "c2" "s3"] true)
      rfl rfl (by decide)
    exact ⟨out, h1, (h2 (by decide)).1⟩
  · obtain ⟨out, h1, h2, _⟩ := handleMURUpdate_baseline env0
      ((storeWithMUR (turMUR [("c1", "s1"), ("c2", "s2")] [ToBeUpdating 5])
        (murWithAccounts [baseAccount "c1" "s4"] true)).client
        "not found" (noFaults 3))
      (turMUR [("c1", "s1"), ("c2", "s2")] [ToBeUpdating 5]) 3
      (murWithAccounts [baseAccount "c1" "s4"] true)
      rfl rfl (by decide)
    exact ⟨out, h1, (h2 (by decide)).1⟩

/-- Recording a failure adds one to the count that `maxUpdateFailuresReached`
reads. -/
theorem count_addFailureStatusCondition (env : Env) (c : Client)
    (tur : TemplateUpdateRequest) (err : String) :
    condition.Count (addFailureStatusCondition env c tur err).1.status.conditions
        TemplateUpdateRequestComplete ConditionFalse TemplateUpdateRequestUnableToUpdateReason =
      condition.Count tur.status.conditions
        TemplateUpdateRequestComplete ConditionFalse
        TemplateUpdateRequestUnableToUpdateReason + 1 := by
  simp [addFailureStatusCondition, condition.AddStatusConditions, condition.Count, ToFailure,
    List.filter_append, List.filter_cons]

/-- C5: in the first-invocation branch of the MasterUserRecord flow, when
`updateTemplateRefs` fails with `err` (the persist step in particular) and the
Failed condition is recorded (the status update succeeds): the request's
conditions are the earlier ones followed by the Failed condition; if the
number of conditions with type Complete, status False and reason
UnableToUpdate, counted after recording, is at least the threshold, the
result is empty with no error; if it is below, the result is Requeue with
RequeueAfter 5 seconds and the error wraps the update error. The count after
recording is the count before plus one. -/
theorem handleMURUpdate_update_failed (env : Env) (c : Client)
    (tur : TemplateUpdateRequest) (threshold : Int) (mur mur1 : MasterUserRecord)
    (err : String) (ws : List Write)
    (hc : c.GetToolchainConfig = .ok threshold) (hm : c.getMUR = .found mur)
    (hb : tur.status.syncIndexes = [])
    (hu : updateTemplateRefs env c tur mur = .ret (mur1, some err, ws))
    (hs : c.StatusUpdate (addFailureStatusCondition env c tur (errsWrap err
      "unable to update the MasterUserRecord associated with the TemplateUpdateRequest")).1
        = none) :
    ∃ out, handleMURUpdate env c tur = .ret out ∧
      out.tur.status.conditions = tur.status.conditions ++
        [{ ToFailure (errsWrap err
            "unable to update the MasterUserRecord associated with the TemplateUpdateRequest")
           with lastTransitionTime := env.now }] ∧
      out.writes = ws ++ [Write.statusUpdate out.tur none] ∧
      (threshold ≤ (condition.Count out.tur.status.conditions TemplateUpdateRequestComplete
          ConditionFalse TemplateUpdateRequestUnableToUpdateReason : Int) →
        out.result = Result.empty ∧ out.err = none) ∧
      ((condition.Count out.tur.status.conditions TemplateUpdateRequestComplete
          ConditionFalse TemplateUpdateRequestUnableToUpdateReason : Int) < threshold →
        out.result = { requeue := true, requeueAfter := 5 } ∧
        out.err = some (errsWrap err
          "unable to update the MasterUserRecord associated with the TemplateUpdateRequest")) ∧
      condition.Count out.tur.status.conditions TemplateUpdateRequestComplete
          ConditionFalse TemplateUpdateRequestUnableToUpdateReason =
        condition.Count tur.status.conditions TemplateUpdateRequestComplete
          ConditionFalse TemplateUpdateRequestUnableToUpdateReason + 1 := by
  have hfirst : handleMURUpdate env c tur = handleMURUpdateFirst env c threshold tur mur := by
    simp only [handleMURUpdate, hc, hm, hb, List.length_nil, if_true]
  have h2 : (addFailureStatusCondition env c tur (errsWrap err
      "unable to update the MasterUserRecord associated with the TemplateUpdateRequest")).2
        = none := hs
  have hconds : (addFailureStatusCondition env c tur (errsWrap err
      "unable to update the MasterUserRecord associated with the TemplateUpdateRequest")).1.status.conditions
      = tur.status.conditions ++
        [{ ToFailure (errsWrap err
            "unable to update the MasterUserRecord associated with the TemplateUpdateRequest")
           with lastTransitionTime := env.now }] := by
    simp [addFailureStatusCondition, condition.AddStatusConditions, ToFailure]
  rw [hfirst]
  by_cases hmax : maxUpdateFailuresReached (addFailureStatusCondition env c tur (errsWrap err
      "unable to update the MasterUserRecord associated with the TemplateUpdateRequest")).1
      threshold = true
  · refine ⟨{ result := Result.empty, err := none
              tur := (addFailureStatusCondition env c tur (errsWrap err
                "unable to update the MasterUserRecord associated with the TemplateUpdateRequest")).1
              writes := ws ++ [Write.statusUpdate (addFailureStatusCondition env c tur
                (errsWrap err
                "unable to update the MasterUserRecord associated with the TemplateUpdateRequest")).1
                none] }, ?_, hconds, rfl, fun _ => ⟨rfl, rfl⟩, ?_,
              count_addFailureStatusCondition env c tur _⟩
    · simp only [handleMURUpdateFirst, hu, h2, if_pos hmax]
    · intro hlt
      simp only [maxUpdateFailuresReached, decide_eq_true_eq, ge_iff_le] at hmax
      exact absurd hmax (not_le.mpr hlt)
  · refine ⟨{ result := { requeue := true, requeueAfter := 5 }
              err := some (errsWrap err
                "unable to update the MasterUserRecord associated with the TemplateUpdateRequest")
              tur := (addFailureStatusCondition env c tur (errsWrap err
                "unable to update the MasterUserRecord associated with the TemplateUpdateRequest")).1
              writes := ws ++ [Write.statusUpdate (addFailureStatusCondition env c tur
                (errsWrap err
                "unable to update the MasterUserRecord associated with the TemplateUpdateRequest")).1
                none] }, ?_, hconds, rfl, ?_, fun _ => ⟨rfl, rfl⟩,
              count_addFailureStatusCondition env c tur _⟩
    · simp only [handleMURUpdateFirst, hu, h2, if_neg hmax]
    · intro hge
      simp only [maxUpdateFailuresReached, decide_eq_true_eq, ge_iff_le] at hmax
      exact absurd hge hmax

/-- Witness for C5: the update of the record is refused and the request
already carries one Failed condition, so the count after recording is 2: with
threshold 2 the result is empty with no error, with threshold 3 (count is
threshold - 1) the result is Requeue after 5 seconds with the error. -/
theorem handleMURUpdate_update_failed_witness :
    (∃ out, handleMURUpdate env0
        ((storeWithMUR (turMUR [] [{ ToFailure "earlier" with lastTransitionTime := 6 }])
          (murWithAccounts [baseAccount "c1" "s1"] true)).client "not found" (updateRefused 2))
        (turMUR [] [{ ToFailure "earlier" with lastTransitionTime := 6 }]) = .ret out ∧
      out.result = Result.empty ∧ out.err = none) ∧
    (∃ out, handleMURUpdate env0
        ((storeWithMUR (turMUR [] [{ ToFailure "earlier" with lastTransitionTime := 6 }])
          (murWithAccounts [baseAccount "c1" "s1"] true)).client "not found" (updateRefused 3))
        (turMUR [] [{ ToFailure "earlier" with lastTransitionTime := 6 }]) = .ret out ∧
      out.result = { requeue := true, requeueAfter := 5 } ∧
      out.err = some (errsWrap "conflict"
        "unable to update the MasterUserRecord associated with the TemplateUpdateRequest")) := by
  refine ⟨?_, ?_⟩
  · obtain ⟨out, h1, h2, _, h4, _, _⟩ := handleMURUpdate_update_failed env0
      ((storeWithMUR (turMUR [] [{ ToFailure "earlier" with lastTransitionTime := 6 }])
        (murWithAccounts [baseAccount "c1" "s1"] true)).client "not found" (updateRefused 2))
      (turMUR [] [{ ToFailure "earlier" with lastTransitionTime := 6 }]) 2
      (murWithAccounts [baseAccount "c1" "s1"] true) _ "conflict" _ rfl rfl rfl rfl rfl
    refine ⟨out, h1, h4 ?_⟩
    rw [h2]
    decide
  · obtain ⟨out, h1, h2, _, _, h5, _⟩ := handleMURUpdate_update_failed env0
      ((storeWithMUR (turMUR [] [{ ToFailure "earlier" with lastTransitionTime := 6 }])
        (murWithAccounts [baseAccount "c1" "s1"] true)).client "not found" (updateRefused 3))
      (turMUR [] [{ ToFailure "earlier" with lastTransitionTime := 6 }]) 3
      (murWithAccounts [baseAccount "c1" "s1"] true) _ "conflict" _ rfl rfl rfl rfl rfl
    refine ⟨out, h1, h5 ?_⟩
    rw [h2]
    decide

/-! ### Target not found, and other fetch errors -/

/-- C10: in both flows, when the target (Space, or MasterUserRecord once the
configuration is read) is not found, the invocation appends a Failed
condition (type Complete, status False, reason UnableToUpdate, message the
fetch error) to the request's conditions, issues the status update and
nothing else, asks for no requeue, and returns the answer of the status
update (no error when it succeeds); on any other fetch error it returns the
wrapped error, leaves the request as it was and writes nothing. -/
theorem target_not_found (env : Env) (c : Client) (tur : TemplateUpdateRequest)
    (err : String) :
    (c.getSpace = .notFound err →
      (handleSpaceUpdate env c tur).tur.status.conditions = tur.status.conditions ++
        [{ type := TemplateUpdateRequestComplete, status := ConditionFalse
           reason := TemplateUpdateRequestUnableToUpdateReason, message := err
           lastTransitionTime := env.now }] ∧
      (handleSpaceUpdate env c tur).tur.status.syncIndexes = tur.status.syncIndexes ∧
      (handleSpaceUpdate env c tur).writes =
        [Write.statusUpdate (handleSpaceUpdate env c tur).tur
          (c.StatusUpdate (handleSpaceUpdate env c tur).tur)] ∧
      (handleSpaceUpdate env c tur).result = Result.empty ∧
      (handleSpaceUpdate env c tur).err =
        c.StatusUpdate (handleSpaceUpdate env c tur).tur) ∧
    (c.getSpace = .failed err →
      handleSpaceUpdate env c tur =
        { result := Result.empty
          err := some (errsWrap err
            "unable to get the Space associated with the TemplateUpdateRequest")
          tur := tur, writes := [] }) ∧
    (∀ threshold, c.GetToolchainConfig = .ok threshold → c.getMUR = .notFound err →
      ∃ out, handleMURUpdate env c tur = .ret out ∧
        out.tur.status.conditions = tur.status.conditions ++
          [{ type := TemplateUpdateRequestComplete, status := ConditionFalse
             reason := TemplateUpdateRequestUnableToUpdateReason, message := err
             lastTransitionTime := env.now }] ∧
        out.tur.status.syncIndexes = tur.status.syncIndexes ∧
        out.writes = [Write.statusUpdate out.tur (c.StatusUpdate out.tur)] ∧
        out.result = Result.empty ∧
        out.err = c.StatusUpdate out.tur) ∧
    (∀ threshold, c.GetToolchainConfig = .ok threshold → c.getMUR = .failed err →
      handleMURUpdate env c tur = .ret
        { result := Result.empty
          err := some (errsWrap err
            "unable to get the MasterUserRecord associated with the TemplateUpdateRequest")
          tur := tur, writes := [] }) := by
  have hconds : (addFailureStatusCondition env c tur err).1.status.conditions =
      tur.status.conditions ++
        [{ type := TemplateUpdateRequestComplete, status := ConditionFalse
           reason := TemplateUpdateRequestUnableToUpdateReason, message := err
           lastTransitionTime := env.now }] := by
    simp [addFailureStatusCondition, condition.AddStatusConditions, ToFailure]
  refine ⟨?_, ?_, ?_, ?_⟩
  · intro hs
    have hout : handleSpaceUpdate env c tur =
        { result := Result.empty, err := (addFailureStatusCondition env c tur err).2
          tur := (addFailureStatusCondition env c tur err).1
          writes := [Write.statusUpdate (addFailureStatusCondition env c tur err).1
            (addFailureStatusCondition env c tur err).2] } := by
      simp only [handleSpaceUpdate, hs]
    rw [hout]
    exact ⟨hconds, rfl, rfl, rfl, rfl⟩
  · intro hs
    simp only [handleSpaceUpdate, hs]
  · intro threshold hc hm
    refine ⟨{ result := Result.empty, err := (addFailureStatusCondition env c tur err).2
              tur := (addFailureStatusCondition env c tur err).1
              writes := [Write.statusUpdate (addFailureStatusCondition env c tur err).1
                (addFailureStatusCondition env c tur err).2] }, ?_, hconds, rfl, rfl, rfl, rfl⟩
    simp only [handleMURUpdate, hc, hm]
  · intro threshold hc hm
    simp only [handleMURUpdate, hc, hm]

/-- Witness for C10: a store without target; the Space flow and the
MasterUserRecord flow both record the Failed condition carrying the not-found
error, with an empty result and no error; and a read that fails otherwise
returns its error and writes nothing. -/
theorem target_not_found_witness :
    ((handleSpaceUpdate env0
        ((storeWithoutTarget turSpace).client "space not found" (noFaults 3))
        turSpace).tur.status.conditions =
        [{ ToFailure "space not found" with lastTransitionTime := 7 }] ∧
      (handleSpaceUpdate env0
        ((storeWithoutTarget turSpace).client "space not found" (noFaults 3))
        turSpace).err = none) ∧
    (∃ out, handleMURUpdate env0
        ((storeWithoutTarget (turMUR [] [])).client "mur not found" (noFaults 3))
        (turMUR [] []) = .ret out ∧
      out.tur.status.conditions =
        [{ ToFailure "mur not found" with lastTransitionTime := 7 }] ∧
      out.result = Result.empty ∧ out.err = none) ∧
    (handleSpaceUpdate env0
        ((storeWithoutTarget turSpace).client "space not found"
          { noFaults 3 with getSpace := .failed "timeout" })
        turSpace).writes = [] := by
  refine ⟨?_, ?_, ?_⟩
  · have h := (target_not_found env0
      ((storeWithoutTarget turSpace).client "space not found" (noFaults 3))
      turSpace "space not found").1 rfl
    exact ⟨h.1, h.2.2.2.2⟩
  · obtain ⟨out, h1, h2, _, _, h5, h6⟩ := (target_not_found env0
      ((storeWithoutTarget (turMUR [] [])).client "mur not found" (noFaults 3))
      (turMUR [] []) "mur not found").2.2.1 3 rfl rfl
    refine ⟨out, h1, h2, h5, ?_⟩
    rw [h6]
    rfl
  · have h := (target_not_found env0
      ((storeWithoutTarget turSpace).client "space not found"
        { noFaults 3 with getSpace := .failed "timeout" })
      turSpace "timeout").2.1 rfl
    rw [h]

/-! ### The merge of `updateTemplateRefs` -/

theorem insertAt_perm {α : Type} (x : α) (n : Nat) (l : List α) :
    (insertAt x n l).Perm (x :: l) := by
  induction l generalizing n with
  | nil => cases n <;> simp [insertAt]
  | cons y ys ih =>
    cases n with
    | zero => simp [insertAt]
    | succ n =>
      simp only [insertAt]
      exact ((ih n).cons y).trans (List.Perm.swap x y ys)

theorem rangeMap_perm {α : Type} (order : List Nat) (l : List α) :
    (rangeMap order l).Perm l := by
  induction l generalizing order with
  | nil => cases order <;> simp [rangeMap]
  | cons x xs ih =>
    cases order with
    | nil => simp [rangeMap]
    | cons k ks =>
      simp only [rangeMap]
      exact (insertAt_perm x k _).trans ((ih ks).cons x)

theorem GoMap.mem_values_set {V : Type} (m : GoMap V) (k : String) (v w : V)
    (h : w ∈ (m.set k v).values) : w = v ∨ w ∈ m.values := by
  induction m with
  | nil => simpa [GoMap.set, GoMap.values] using h
  | cons e rest ih =>
    obtain ⟨a, b⟩ := e
    by_cases hk : a = k
    · simp only [GoMap.set, GoMap.values, if_pos hk, List.map_cons, List.mem_cons] at h
      simp only [GoMap.values, List.map_cons, List.mem_cons]
      tauto
    · simp only [GoMap.set, GoMap.values, if_neg hk, List.map_cons, List.mem_cons] at h
      simp only [GoMap.values, List.map_cons, List.mem_cons] at ih ⊢
      tauto

theorem GoMap.set_set {V : Type} (m : GoMap V) (k : String) (v w : V) :
    (m.set k v).set k w = m.set k w := by
  induction m with
  | nil => simp [GoMap.set]
  | cons e rest ih =>
    obtain ⟨a, b⟩ := e
    by_cases hk : a = k
    · simp [GoMap.set, hk]
    · simp [GoMap.set, hk, ih]

/-- The values of the map of desired namespaces are desired namespaces (or
were in the map at the start). -/
theorem desiredNamespaces_values (desired : List NSTemplateSetNamespace)
    (m0 m : GoMap NSTemplateSetNamespace) (h : desiredNamespaces desired m0 = .ret m)
    (ns : NSTemplateSetNamespace) (hns : ns ∈ m.values) :
    ns ∈ desired ∨ ns ∈ m0.values := by
  induction desired generalizing m0 with
  | nil =>
    simp only [desiredNamespaces, Run.ret.injEq] at h
    subst h
    exact Or.inr hns
  | cons d rest ih =>
    simp only [desiredNamespaces] at h
    cases ht : namespaceType d.templateRef with
    | panic => simp [ht] at h
    | ret t =>
      simp only [ht] at h
      rcases ih _ h with h1 | h1
      · exact Or.inl (List.mem_cons_of_mem _ h1)
      · rcases GoMap.mem_values_set _ _ _ _ h1 with h2 | h2
        · exact Or.inl (by simp [h2])
        · exact Or.inr h2

theorem consAccount_eq_ret (ua : UserAccountEmbedded)
    (r : Run (List UserAccountEmbedded × Option (GoMap String) × Option String))
    (accounts : List UserAccountEmbedded) (labels : Option (GoMap String))
    (err : Option String) (h : consAccount ua r = .ret (accounts, labels, err)) :
    ∃ rest, r = .ret (rest, labels, err) ∧ accounts = ua :: rest := by
  cases r with
  | panic => simp [consAccount] at h
  | ret a =>
    obtain ⟨rest, l, e⟩ := a
    simp only [consAccount, Run.ret.injEq, Prod.mk.injEq] at h
    obtain ⟨h1, h2, h3⟩ := h
    exact ⟨rest, by rw [h2, h3], h1.symm⟩

/-- When no account is on the request's tier, the loop changes nothing. -/
theorem updateUserAccounts_none_onTier (env : Env) (tur : TemplateUpdateRequest) (i : Nat)
    (accounts : List UserAccountEmbedded) (labels : Option (GoMap String))
    (h : ∀ ua ∈ accounts, onTier tur.spec.tierName ua = false) :
    updateUserAccounts env tur i accounts labels = .ret (accounts, labels, none) := by
  induction accounts generalizing i with
  | nil => simp [updateUserAccounts]
  | cons ua rest ih =>
    have hrest := ih (i + 1) (fun x hx => h x (List.mem_cons_of_mem _ hx))
    have hua := h ua (List.mem_cons_self _ _)
    unfold updateUserAccounts
    cases hs : ua.nsTemplateSet with
    | none => simp [hrest, consAccount]
    | some set =>
      have hne : ¬ set.tierName = tur.spec.tierName := by
        simpa [onTier, hs] using hua
      simp [hne, hrest, consAccount]

/-- When the loop returns and some account is on the request's tier, the map
of desired namespaces was built without a panic. -/
theorem updateUserAccounts_desired (env : Env) (tur : TemplateUpdateRequest) (i : Nat)
    (accounts accounts1 : List UserAccountEmbedded) (labels labels1 : Option (GoMap String))
    (err : Option String)
    (h : updateUserAccounts env tur i accounts labels = .ret (accounts1, labels1, err))
    (hex : ∃ ua ∈ accounts, onTier tur.spec.tierName ua = true) :
    ∃ namespaces, desiredNamespaces tur.spec.namespaces [] = .ret namespaces := by
  induction accounts generalizing i accounts1 with
  | nil => simp at hex
  | cons ua rest ih =>
    unfold updateUserAccounts at h
    cases hs : ua.nsTemplateSet with
    | none =>
      simp only [hs] at h
      obtain ⟨rest1, hr, _⟩ := consAccount_eq_ret _ _ _ _ _ h
      obtain ⟨x, hx, hxt⟩ := hex
      rcases List.mem_cons.mp hx with rfl | hx
      · simp [onTier, hs] at hxt
      · exact ih (i + 1) rest1 hr ⟨x, hx, hxt⟩
    | some set =>
      simp only [hs] at h
      by_cases ht : set.tierName = tur.spec.tierName
      · simp only [if_pos ht] at h
        cases hd : desiredNamespaces tur.spec.namespaces [] with
        | panic => simp [hd] at h
        | ret namespaces => exact ⟨namespaces, rfl⟩
      · simp only [if_neg ht] at h
        obtain ⟨rest1, hr, _⟩ := consAccount_eq_ret _ _ _ _ _ h
        obtain ⟨x, hx, hxt⟩ := hex
        rcases List.mem_cons.mp hx with rfl | hx
        · simp [onTier, hs, ht] at hxt
        · exact ih (i + 1) rest1 hr ⟨x, hx, hxt⟩

/-- When the loop ends without error, the accounts are the merged accounts. -/
theorem updateUserAccounts_accounts (env : Env) (tur : TemplateUpdateRequest)
    (namespaces : GoMap NSTemplateSetNamespace)
    (hd : desiredNamespaces tur.spec.namespaces [] = .ret namespaces) (i : Nat)
    (accounts accounts1 : List UserAccountEmbedded) (labels labels1 : Option (GoMap String))
    (h : updateUserAccounts env tur i accounts labels = .ret (accounts1, labels1, none)) :
    accounts1 = mergedAccounts tur env.rangeOrder namespaces i accounts := by
  induction accounts generalizing i accounts1 labels with
  | nil =>
    simp only [updateUserAccounts, Run.ret.injEq, Prod.mk.injEq] at h
    simp [mergedAccounts, h.1]
  | cons ua rest ih =>
    unfold updateUserAccounts at h
    cases hs : ua.nsTemplateSet with
    | none =>
      simp only [hs] at h
      obtain ⟨rest1, hr, he⟩ := consAccount_eq_ret _ _ _ _ _ h
      rw [he, ih (i + 1) rest1 labels hr]
      simp [mergedAccounts, mergedAccount, hs]
    | some set =>
      simp only [hs] at h
      by_cases ht : set.tierName = tur.spec.tierName
      · simp only [if_pos ht, hd] at h
        cases hh : env.ComputeHashForNSTemplateSetSpec
            (mergedSet tur (env.rangeOrder i) namespaces set) with
        | error e => simp [hh] at h
        | ok hash =>
          simp only [hh] at h
          cases labels with
          | none => simp at h
          | some l =>
            simp only at h
            obtain ⟨rest1, hr, he⟩ := consAccount_eq_ret _ _ _ _ _ h
            rw [he, ih (i + 1) rest1 _ hr]
            simp [mergedAccounts, mergedAccount, hs, ht]
      · simp only [if_neg ht] at h
        obtain ⟨rest1, hr, he⟩ := consAccount_eq_ret _ _ _ _ _ h
        rw [he, ih (i + 1) rest1 labels hr]
        simp [mergedAccounts, mergedAccount, hs, ht]

theorem mem_mergedAccounts (tur : TemplateUpdateRequest) (order : Nat → List Nat)
    (namespaces : GoMap NSTemplateSetNamespace) (i : Nat)
    (accounts : List UserAccountEmbedded) (ua1 : UserAccountEmbedded)
    (h : ua1 ∈ mergedAccounts tur order namespaces i accounts) :
    ∃ j, ∃ ua ∈ accounts, ua1 = mergedAccount tur order namespaces j ua := by
  induction accounts generalizing i with
  | nil => simp [mergedAccounts] at h
  | cons ua rest ih =>
    simp only [mergedAccounts, List.mem_cons] at h
    rcases h with h | h
    · exact ⟨i, ua, List.mem_cons_self _ _, h⟩
    · obtain ⟨j, x, hx, hj⟩ := ih (i + 1) h
      exact ⟨j, x, List.mem_cons_of_mem _ hx, hj⟩

/-- A merged account on the request's tier comes from an account on that tier
and holds the values of the map of desired namespaces, in the order of the
`range`, and the request's cluster-resources reference. -/
theorem mergedAccount_onTier (tur : TemplateUpdateRequest) (order : Nat → List Nat)
    (namespaces : GoMap NSTemplateSetNamespace) (j : Nat) (ua : UserAccountEmbedded)
    (set1 : NSTemplateSetSpec)
    (hs : (mergedAccount tur order namespaces j ua).nsTemplateSet = some set1)
    (ht : set1.tierName = tur.spec.tierName) :
    onTier tur.spec.tierName ua = true ∧
    set1.namespaces = rangeMap (order j) namespaces.values ∧
    set1.clusterResources =
      (match tur.spec.clusterResources with
       | some cr => some { templateRef := cr.templateRef }
       | none => none) := by
  unfold mergedAccount at hs
  cases hua : ua.nsTemplateSet with
  | none => simp [hua] at hs
  | some set =>
    simp only [hua] at hs
    by_cases hte : set.tierName = tur.spec.tierName
    · simp only [if_pos hte, Option.some.injEq] at hs
      subst hs
      simp [onTier, hua, hte, mergedSet]
    · simp only [if_neg hte] at hs
      rw [hua, Option.some.injEq] at hs
      subst hs
      exact absurd ht hte

/-- The loop of `updateTemplateRefs` ended without error exactly when the
function issued the update of the record. -/
theorem updateTemplateRefs_persisted (env : Env) (c : Client) (tur : TemplateUpdateRequest)
    (mur mur1 : MasterUserRecord) (err : Option String)
    (hu : updateTemplateRefs env c tur mur = .ret (mur1, err, [Write.update mur1 err])) :
    ∃ accounts labels,
      updateUserAccounts env tur 0 mur.userAccounts mur.labels = .ret (accounts, labels, none) ∧
      mur1 = { mur with userAccounts := accounts, labels := labels } ∧
      err = c.Update mur1 := by
  unfold updateTemplateRefs at hu
  split at hu
  · cases hu
  · simp at hu
  · rename_i accounts labels heq
    simp only [Run.ret.injEq, Prod.mk.injEq] at hu
    obtain ⟨h1, h2, _⟩ := hu
    refine ⟨accounts, labels, heq, h1.symm, ?_⟩
    rw [← h2, h1]

/-- C6: in the record that `updateTemplateRefs` sends to the store (the loop
over the accounts has ended without a failure of the hash), every account on
the request's tier holds only namespaces of the request's desired set, so no
namespace whose type is absent from the types of the desired namespaces,
whatever the account held before. -/
theorem updateTemplateRefs_replaces (env : Env) (c : Client) (tur : TemplateUpdateRequest)
    (mur mur1 : MasterUserRecord) (err : Option String)
    (hu : updateTemplateRefs env c tur mur = .ret (mur1, err, [Write.update mur1 err])) :
    ∀ ua ∈ mur1.userAccounts, ∀ set, ua.nsTemplateSet = some set →
      set.tierName = tur.spec.tierName →
      ∀ ns ∈ set.namespaces,
        ns ∈ tur.spec.namespaces ∧
        namespaceType ns.templateRef ∈
          tur.spec.namespaces.map (fun d => namespaceType d.templateRef) := by
  obtain ⟨accounts, labels, hloop, hm1, _⟩ := updateTemplateRefs_persisted env c tur mur mur1 err hu
  intro ua hua set hset htier ns hns
  have hmem : ns ∈ tur.spec.namespaces := by
    by_cases hex : ∃ x ∈ mur.userAccounts, onTier tur.spec.tierName x = true
    · obtain ⟨namespaces, hd⟩ := updateUserAccounts_desired env tur 0 _ _ _ _ _ hloop hex
      have hacc := updateUserAccounts_accounts env tur namespaces hd 0 _ _ _ _ hloop
      rw [hm1] at hua
      simp only at hua
      rw [hacc] at hua
      obtain ⟨j, x, _, hj⟩ := mem_mergedAccounts tur env.rangeOrder namespaces 0 _ ua hua
      rw [hj] at hset
      obtain ⟨_, h2, _⟩ := mergedAccount_onTier tur env.rangeOrder namespaces j x set hset htier
      rw [h2] at hns
      have hv : ns ∈ namespaces.values := (rangeMap_perm _ _).mem_iff.mp hns
      rcases desiredNamespaces_values _ _ _ hd ns hv with h | h
      · exact h
      · simp [GoMap.values] at h
    · have hnone : ∀ x ∈ mur.userAccounts, onTier tur.spec.tierName x = false := by
        intro x hx
        by_contra hc
        exact hex ⟨x, hx, by simpa using hc⟩
      have hsame := updateUserAccounts_none_onTier env tur 0 mur.userAccounts mur.labels hnone
      rw [hsame] at hloop
      simp only [Run.ret.injEq, Prod.mk.injEq] at hloop
      rw [hm1] at hua
      simp only at hua
      rw [← hloop.1] at hua
      have := hnone ua hua
      simp [onTier, hset, htier] at this
  exact ⟨hmem, List.mem_map.mpr ⟨ns, hmem, rfl⟩⟩

/-- Witness for C6: an account with namespaces of types `dev` and `stage` and
a request whose desired set has type `dev` only: the account ends with the
desired `dev` namespace only. -/
theorem updateTemplateRefs_replaces_witness :
    updateTemplateRefs env0 (noFaults 3) (turMUR [] []) murTwoTypes =
      .ret (murTwoTypesMerged, none, [Write.update murTwoTypesMerged none]) ∧
    murTwoTypesMerged.userAccounts.map (fun ua => ua.nsTemplateSet.map (fun s => s.namespaces)) =
      [some [{ templateRef := "base-dev-abc" }]] ∧
    ∀ ua ∈ murTwoTypesMerged.userAccounts, ∀ set, ua.nsTemplateSet = some set →
      set.tierName = (turMUR [] []).spec.tierName →
      ∀ ns ∈ set.namespaces,
        ns ∈ (turMUR [] []).spec.namespaces ∧
        namespaceType ns.templateRef ∈
          (turMUR [] []).spec.namespaces.map (fun d => namespaceType d.templateRef) :=
  ⟨by decide, by decide,
   updateTemplateRefs_replaces env0 (noFaults 3) (turMUR [] []) murTwoTypes murTwoTypesMerged
     none (by decide)⟩

/-! ### Idempotence of the merge -/

/-- When the loop ends without error and some account is on the request's
tier, the map of desired namespaces was built, the labels were not nil, and
the hash of some merged set was computed. -/
theorem updateUserAccounts_first (env : Env) (tur : TemplateUpdateRequest) (i : Nat)
    (accounts accounts1 : List UserAccountEmbedded) (labels labels1 : Option (GoMap String))
    (h : updateUserAccounts env tur i accounts labels = .ret (accounts1, labels1, none))
    (hex : ∃ ua ∈ accounts, onTier tur.spec.tierName ua = true) :
    ∃ namespaces l order set hash,
      desiredNamespaces tur.spec.namespaces [] = .ret namespaces ∧ labels = some l ∧
      set.tierName = tur.spec.tierName ∧
      env.ComputeHashForNSTemplateSetSpec (mergedSet tur order namespaces set) = .ok hash := by
  induction accounts generalizing i accounts1 with
  | nil => simp at hex
  | cons ua rest ih =>
    unfold updateUserAccounts at h
    cases hs : ua.nsTemplateSet with
    | none =>
      simp only [hs] at h
      obtain ⟨rest1, hr, _⟩ := consAccount_eq_ret _ _ _ _ _ h
      obtain ⟨x, hx, hxt⟩ := hex
      rcases List.mem_cons.mp hx with rfl | hx
      · simp [onTier, hs] at hxt
      · exact ih (i + 1) rest1 hr ⟨x, hx, hxt⟩
    | some set =>
      simp only [hs] at h
      by_cases ht : set.tierName = tur.spec.tierName
      · simp only [if_pos ht] at h
        cases hd : desiredNamespaces tur.spec.namespaces [] with
        | panic => simp [hd] at h
        | ret namespaces =>
          simp only [hd] at h
          cases hh : env.ComputeHashForNSTemplateSetSpec
              (mergedSet tur (env.rangeOrder i) namespaces set) with
          | error e => simp [hh] at h
          | ok hash =>
            simp only [hh] at h
            cases labels with
            | none => simp at h
            | some l => exact ⟨namespaces, l, env.rangeOrder i, set, hash, rfl, rfl, ht, hh⟩
      · simp only [if_neg ht] at h
        obtain ⟨rest1, hr, _⟩ := consAccount_eq_ret _ _ _ _ _ h
        obtain ⟨x, hx, hxt⟩ := hex
        rcases List.mem_cons.mp hx with rfl | hx
        · simp [onTier, hs, ht] at hxt
        · exact ih (i + 1) rest1 hr ⟨x, hx, hxt⟩

/-- The loop, when the map of desired namespaces is built and every merged
set has the hash `hash`: the accounts are merged, and the label is set when
some account is on the request's tier. -/
theorem updateUserAccounts_run (env : Env) (tur : TemplateUpdateRequest)
    (namespaces : GoMap NSTemplateSetNamespace) (hash : String)
    (hd : desiredNamespaces tur.spec.namespaces [] = .ret namespaces)
    (hh : ∀ order set, set.tierName = tur.spec.tierName →
      env.ComputeHashForNSTemplateSetSpec (mergedSet tur order namespaces set) = .ok hash)
    (i : Nat) (accounts : List UserAccountEmbedded) (l : GoMap String) :
    updateUserAccounts env tur i accounts (some l) =
      .ret (mergedAccounts tur env.rangeOrder namespaces i accounts,
        some (if accounts.any (onTier tur.spec.tierName) = true then
          l.set (env.TemplateTierHashLabelKey tur.spec.tierName) hash else l),
        none) := by
  induction accounts generalizing i l with
  | nil => simp [updateUserAccounts, mergedAccounts]
  | cons ua rest ih =>
    unfold updateUserAccounts
    cases hs : ua.nsTemplateSet with
    | none =>
      simp only [ih (i + 1) l, consAccount, mergedAccounts, mergedAccount, hs, List.any_cons,
        onTier, Bool.false_or]
    | some set =>
      by_cases ht : set.tierName = tur.spec.tierName
      · simp only [if_pos ht, hd, hh (env.rangeOrder i) set ht, ih (i + 1), consAccount,
          mergedAccounts, mergedAccount, hs, List.any_cons, onTier, decide_True, Bool.true_or,
          if_true, GoMap.set_set]
        simp [ht]
      · simp only [if_neg ht, ih (i + 1) l, consAccount, mergedAccounts, mergedAccount, hs,
          List.any_cons, onTier, decide_False, Bool.false_or]
        simp [ht]

theorem mergedAccount_onTier_eq (tur : TemplateUpdateRequest) (order : Nat → List Nat)
    (namespaces : GoMap NSTemplateSetNamespace) (i : Nat) (ua : UserAccountEmbedded) :
    onTier tur.spec.tierName (mergedAccount tur order namespaces i ua) =
      onTier tur.spec.tierName ua := by
  unfold mergedAccount
  cases hs : ua.nsTemplateSet with
  | none => simp [onTier, hs]
  | some set =>
    by_cases ht : set.tierName = tur.spec.tierName
    · simp [onTier, hs, ht, mergedSet]
    · simp [onTier, hs, ht]

theorem mergedAccount_again (tur : TemplateUpdateRequest) (order order2 : Nat → List Nat)
    (namespaces : GoMap NSTemplateSetNamespace) (i : Nat) (ua : UserAccountEmbedded) :
    mergedAccount tur order2 namespaces i (mergedAccount tur order namespaces i ua) =
      mergedAccount tur order2 namespaces i ua := by
  unfold mergedAccount
  cases hs : ua.nsTemplateSet with
  | none => simp [hs]
  | some set =>
    by_cases ht : set.tierName = tur.spec.tierName
    · simp [ht, mergedSet]
    · simp [hs, ht]

theorem mergedAccounts_again (tur : TemplateUpdateRequest) (order order2 : Nat → List Nat)
    (namespaces : GoMap NSTemplateSetNamespace) (i : Nat)
    (accounts : List UserAccountEmbedded) :
    mergedAccounts tur order2 namespaces i (mergedAccounts tur order namespaces i accounts) =
      mergedAccounts tur order2 namespaces i accounts := by
  induction accounts generalizing i with
  | nil => simp [mergedAccounts]
  | cons ua rest ih => simp [mergedAccounts, mergedAccount_again, ih]

theorem mergedAccounts_any (tur : TemplateUpdateRequest) (order : Nat → List Nat)
    (namespaces : GoMap NSTemplateSetNamespace) (i : Nat)
    (accounts : List UserAccountEmbedded) :
    (mergedAccounts tur order namespaces i accounts).any (onTier tur.spec.tierName) =
      accounts.any (onTier tur.spec.tierName) := by
  induction accounts generalizing i with
  | nil => simp [mergedAccounts]
  | cons ua rest ih => simp [mergedAccounts, mergedAccount_onTier_eq, ih]

theorem mergedAccount_sameUpToOrder (tur : TemplateUpdateRequest) (order order2 : Nat → List Nat)
    (namespaces : GoMap NSTemplateSetNamespace) (i : Nat) (ua : UserAccountEmbedded) :
    sameUpToOrder (mergedAccount tur order namespaces i ua)
      (mergedAccount tur order2 namespaces i ua) := by
  unfold mergedAccount sameUpToOrder
  cases hs : ua.nsTemplateSet with
  | none => simp [hs]
  | some set =>
    by_cases ht : set.tierName = tur.spec.tierName
    · simp only [if_pos ht, mergedSet, true_and]
      exact ⟨(rangeMap_perm _ _).trans (rangeMap_perm _ _).symm, trivial⟩
    · simp [hs, ht]

theorem mergedAccounts_sameUpToOrder (tur : TemplateUpdateRequest)
    (order order2 : Nat → List Nat) (namespaces : GoMap NSTemplateSetNamespace) (i : Nat)
    (accounts : List UserAccountEmbedded) :
    List.Forall₂ sameUpToOrder (mergedAccounts tur order namespaces i accounts)
      (mergedAccounts tur order2 namespaces i accounts) := by
  induction accounts generalizing i with
  | nil => simp [mergedAccounts]
  | cons ua rest ih =>
    simp only [mergedAccounts, List.forall₂_cons]
    exact ⟨mergedAccount_sameUpToOrder tur order order2 namespaces i ua, ih (i + 1)⟩

theorem sameUpToOrder_refl (ua : UserAccountEmbedded) : sameUpToOrder ua ua := by
  unfold sameUpToOrder
  cases hs : ua.nsTemplateSet <;> simp

theorem forall₂_sameUpToOrder_refl (accounts : List UserAccountEmbedded) :
    List.Forall₂ sameUpToOrder accounts accounts := by
  induction accounts with
  | nil => simp
  | cons ua rest ih => exact List.Forall₂.cons (sameUpToOrder_refl ua) ih

theorem updateTemplateRefs_of_loop (env : Env) (c : Client) (tur : TemplateUpdateRequest)
    (mur : MasterUserRecord) (accounts : List UserAccountEmbedded)
    (labels : Option (GoMap String))
    (h : updateUserAccounts env tur 0 mur.userAccounts mur.labels =
      .ret (accounts, labels, none)) :
    updateTemplateRefs env c tur mur =
      .ret ({ mur with userAccounts := accounts, labels := labels },
        c.Update { mur with userAccounts := accounts, labels := labels },
        [Write.update { mur with userAccounts := accounts, labels := labels }
          (c.Update { mur with userAccounts := accounts, labels := labels })]) := by
  simp only [updateTemplateRefs, h]

/-- C7, as stated, fails: the request desires namespaces of types `dev` and
`stage`; a first merge whose `range` visits the map in insertion order gives
the list `dev, stage`; a second merge of the same request on the result, whose
`range` visits the map in the other order, gives `stage, dev`: not the same
namespace list as after one merge. -/
theorem updateTemplateRefs_not_idempotent :
    updateTemplateRefs env0 (noFaults 3) turTwoTypes murTwoTypes =
      .ret (murWithNamespaces [{ templateRef := "base-dev-abc" },
              { templateRef := "base-stage-abc" }], none,
            [Write.update (murWithNamespaces [{ templateRef := "base-dev-abc" },
              { templateRef := "base-stage-abc" }]) none]) ∧
    updateTemplateRefs env1 (noFaults 3) turTwoTypes
        (murWithNamespaces [{ templateRef := "base-dev-abc" },
          { templateRef := "base-stage-abc" }]) =
      .ret (murWithNamespaces [{ templateRef := "base-stage-abc" },
              { templateRef := "base-dev-abc" }], none,
            [Write.update (murWithNamespaces [{ templateRef := "base-stage-abc" },
              { templateRef := "base-dev-abc" }]) none]) ∧
    (murWithNamespaces [{ templateRef := "base-stage-abc" },
        { templateRef := "base-dev-abc" }]).userAccounts ≠
      (murWithNamespaces [{ templateRef := "base-dev-abc" },
        { templateRef := "base-stage-abc" }]).userAccounts := by
  refine ⟨by decide, by decide, by decide⟩

/-- C7, amended: for a hash that does not depend on the order of the
namespaces, after a merge that reached the persist step a second merge of the
same request, whatever order its `range` takes, reaches the persist step too
and yields the same number of accounts, each with the same target cluster,
sync index, tier and cluster-resources reference and the same namespaces up
to order, the same labels (so the same tier-hash label) and the same
conditions; and the same record when both merges range in the same order. -/
theorem updateTemplateRefs_idempotent (env : Env) (c c2 : Client)
    (tur : TemplateUpdateRequest) (mur mur1 : MasterUserRecord) (err : Option String)
    (order2 : Nat → List Nat)
    (H : hashIgnoresOrder env)
    (hu : updateTemplateRefs env c tur mur = .ret (mur1, err, [Write.update mur1 err])) :
    ∃ mur2,
      updateTemplateRefs { env with rangeOrder := order2 } c2 tur mur1 =
        .ret (mur2, c2.Update mur2, [Write.update mur2 (c2.Update mur2)]) ∧
      List.Forall₂ sameUpToOrder mur1.userAccounts mur2.userAccounts ∧
      mur2.labels = mur1.labels ∧ mur2.conditions = mur1.conditions ∧
      (order2 = env.rangeOrder → mur2 = mur1) := by
  obtain ⟨accounts, labels, hloop, hm1, _⟩ := updateTemplateRefs_persisted env c tur mur mur1 err hu
  by_cases hex : ∃ x ∈ mur.userAccounts, onTier tur.spec.tierName x = true
  · obtain ⟨namespaces, l, order, set, hash, hd, hl, ht, hh0⟩ :=
      updateUserAccounts_first env tur 0 _ _ _ _ hloop hex
    have hh : ∀ order1 set1, set1.tierName = tur.spec.tierName →
        env.ComputeHashForNSTemplateSetSpec (mergedSet tur order1 namespaces set1) = .ok hash := by
      intro order1 set1 ht1
      rw [← hh0]
      apply H
      · simp [mergedSet, ht, ht1]
      · exact (rangeMap_perm _ _).trans (rangeMap_perm _ _).symm
      · simp [mergedSet]
    have hany : mur.userAccounts.any (onTier tur.spec.tierName) = true := by
      obtain ⟨x, hx, hxt⟩ := hex
      exact List.any_eq_true.mpr ⟨x, hx, hxt⟩
    have hrun := updateUserAccounts_run env tur namespaces hash hd hh 0 mur.userAccounts l
    rw [hl, hrun, hany] at hloop
    simp only [if_true, Run.ret.injEq, Prod.mk.injEq, and_true] at hloop
    obtain ⟨hacc, hlab⟩ := hloop
    have hrun2 := updateUserAccounts_run { env with rangeOrder := order2 } tur namespaces hash
      hd hh 0 accounts (l.set (env.TemplateTierHashLabelKey tur.spec.tierName) hash)
    have hany2 : accounts.any (onTier tur.spec.tierName) = true := by
      rw [← hacc, mergedAccounts_any, hany]
    rw [hany2] at hrun2
    simp only [if_true, GoMap.set_set] at hrun2
    have hloop2 : updateUserAccounts { env with rangeOrder := order2 } tur 0
        mur1.userAccounts mur1.labels =
        .ret (mergedAccounts tur order2 namespaces 0 accounts, labels, none) := by
      rw [hm1, ← hlab]
      exact hrun2
    refine ⟨_, updateTemplateRefs_of_loop _ c2 tur mur1 _ _ hloop2, ?_, ?_, rfl, ?_⟩
    · rw [hm1]
      simp only
      rw [← hacc, mergedAccounts_again]
      exact mergedAccounts_sameUpToOrder tur env.rangeOrder order2 namespaces 0 mur.userAccounts
    · rw [hm1]
    · intro ho
      rw [hm1]
      simp only
      rw [← hacc, mergedAccounts_again, ho]
  · have hnone : ∀ x ∈ mur.userAccounts, onTier tur.spec.tierName x = false := by
      intro x hx
      by_contra hc
      exact hex ⟨x, hx, by simpa using hc⟩
    have hsame := updateUserAccounts_none_onTier env tur 0 mur.userAccounts mur.labels hnone
    rw [hsame] at hloop
    simp only [Run.ret.injEq, Prod.mk.injEq, and_true] at hloop
    obtain ⟨hacc, hlab⟩ := hloop
    have hmur : mur1 = mur := by
      rw [hm1, ← hacc, ← hlab]
    have hloop2 := updateUserAccounts_none_onTier { env with rangeOrder := order2 } tur 0
      mur.userAccounts mur.labels hnone
    rw [hmur]
    refine ⟨_, updateTemplateRefs_of_loop _ c2 tur mur _ _ hloop2, ?_, rfl, rfl, fun _ => rfl⟩
    exact forall₂_sameUpToOrder_refl _

/-- The hash of `env0` does not depend on the order of the namespaces. -/
theorem hashIgnoresOrder_env0 : hashIgnoresOrder env0 := by
  intro s s1 _ hp hc
  simp [env0, hp.length_eq, hc]

/-- Witness for C7 amended: the two merges of the counterexample give
accounts that agree up to the order of the namespaces, and the same labels. -/
theorem updateTemplateRefs_idempotent_witness :
    ∃ mur2,
      updateTemplateRefs env1 (noFaults 3) turTwoTypes
          (murWithNamespaces [{ templateRef := "base-dev-abc" },
            { templateRef := "base-stage-abc" }]) =
        .ret (mur2, none, [Write.update mur2 none]) ∧
      List.Forall₂ sameUpToOrder
        (murWithNamespaces [{ templateRef := "base-dev-abc" },
          { templateRef := "base-stage-abc" }]).userAccounts mur2.userAccounts ∧
      mur2.labels = some [("toolchain.dev.openshift.com/base-tier-hash", "nn")] := by
  obtain ⟨mur2, h1, h2, h3, _⟩ := updateTemplateRefs_idempotent env0 (noFaults 3) (noFaults 3)
    turTwoTypes murTwoTypes
    (murWithNamespaces [{ templateRef := "base-dev-abc" }, { templateRef := "base-stage-abc" }])
    none (fun _ => [1]) hashIgnoresOrder_env0 (by decide)
  exact ⟨mur2, h1, h2, h3⟩

/-! ### The dispatcher -/

/-- C11: `Reconcile` returns an empty result with no error and writes nothing
when the request is not found; returns the wrapped error with an empty result
and writes nothing on any other failure of the fetch; and otherwise is
`handleSpaceUpdate` when the request's `currentTierHash` is not empty and
`handleMURUpdate` when it is empty. -/
theorem Reconcile_dispatch (env : Env) (c : Client) :
    (∀ err, c.getTUR = .notFound err →
      ∃ out, Reconcile env c = .ret out ∧
        out.result = Result.empty ∧ out.err = none ∧ out.writes = []) ∧
    (∀ err, c.getTUR = .failed err →
      ∃ out, Reconcile env c = .ret out ∧
        out.result = Result.empty ∧
        out.err = some (errsWrap err "unable to get the current TemplateUpdateRequest") ∧
        out.writes = []) ∧
    (∀ tur, c.getTUR = .found tur → tur.spec.currentTierHash ≠ "" →
      Reconcile env c = .ret (handleSpaceUpdate env c tur)) ∧
    (∀ tur, c.getTUR = .found tur → tur.spec.currentTierHash = "" →
      Reconcile env c = handleMURUpdate env c tur) := by
  refine ⟨?_, ?_, ?_, ?_⟩
  · intro err h
    exact ⟨{ result := Result.empty, err := none, tur := TemplateUpdateRequest.zero
             writes := [] }, by simp only [Reconcile, h], rfl, rfl, rfl⟩
  · intro err h
    exact ⟨{ result := Result.empty
             err := some (errsWrap err "unable to get the current TemplateUpdateRequest")
             tur := TemplateUpdateRequest.zero, writes := [] },
      by simp only [Reconcile, h], rfl, rfl, rfl⟩
  · intro tur h hne
    simp only [Reconcile, h, if_pos hne]
  · intro tur h he
    simp only [Reconcile, h, he, ne_eq, not_true_eq_false, if_false]

/-- Witness for C11: on a store without the request nothing is written; a
request with hash `h1` goes to the Space flow, a request with an empty hash to
the MasterUserRecord flow. -/
theorem Reconcile_dispatch_witness :
    (∃ out, Reconcile env0
        (({ tur := none, space := none, mur := none } : Store).client "not found" (noFaults 3))
        = .ret out ∧ out.result = Result.empty ∧ out.err = none ∧ out.writes = []) ∧
    Reconcile env0
        ((storeWithSpace turSpace (spaceWith "h2" true)).client "not found" (noFaults 3)) =
      .ret (handleSpaceUpdate env0
        ((storeWithSpace turSpace (spaceWith "h2" true)).client "not found" (noFaults 3))
        turSpace) ∧
    Reconcile env0
        ((storeWithMUR (turMUR [] []) murTwoTypes).client "not found" (noFaults 3)) =
      handleMURUpdate env0
        ((storeWithMUR (turMUR [] []) murTwoTypes).client "not found" (noFaults 3))
        (turMUR [] []) :=
  ⟨(Reconcile_dispatch env0
      (({ tur := none, space := none, mur := none } : Store).client "not found" (noFaults 3))).1
      "not found" rfl,
   (Reconcile_dispatch env0
      ((storeWithSpace turSpace (spaceWith "h2" true)).client "not found" (noFaults 3))).2.2.1
      turSpace rfl (by decide),
   (Reconcile_dispatch env0
      ((storeWithMUR (turMUR [] []) murTwoTypes).client "not found" (noFaults 3))).2.2.2
      (turMUR [] []) rfl rfl⟩

/-! ### The condition history -/

/-- C19: `addUpdatingStatusCondition` leaves exactly `[Updating]` and
`setCompleteStatusCondition` exactly `[Complete]`, whatever the conditions
were, so the count read by `maxUpdateFailuresReached` is 0 after either (and
the maximum is reached only for a threshold of 0 or less); whereas
`addFailureStatusCondition` keeps every earlier condition, in order, and adds
the Failed one at the end. -/
theorem status_writes_history (env : Env) (c : Client) (tur : TemplateUpdateRequest)
    (syncIndexes : GoMap String) (err : String) :
    (addUpdatingStatusCondition env c tur syncIndexes).1.status.conditions =
      [ToBeUpdating env.now] ∧
    (setCompleteStatusCondition env c tur).1.status.conditions = [ToBeComplete env.now] ∧
    condition.Count (addUpdatingStatusCondition env c tur syncIndexes).1.status.conditions
      TemplateUpdateRequestComplete ConditionFalse
      TemplateUpdateRequestUnableToUpdateReason = 0 ∧
    condition.Count (setCompleteStatusCondition env c tur).1.status.conditions
      TemplateUpdateRequestComplete ConditionFalse
      TemplateUpdateRequestUnableToUpdateReason = 0 ∧
    (∀ threshold : Int,
      maxUpdateFailuresReached (addUpdatingStatusCondition env c tur syncIndexes).1 threshold =
        decide (threshold ≤ 0) ∧
      maxUpdateFailuresReached (setCompleteStatusCondition env c tur).1 threshold =
        decide (threshold ≤ 0)) ∧
    (addFailureStatusCondition env c tur err).1.status.conditions =
      tur.status.conditions ++ [{ ToFailure err with lastTransitionTime := env.now }] ∧
    condition.Count (addFailureStatusCondition env c tur err).1.status.conditions
      TemplateUpdateRequestComplete ConditionFalse
      TemplateUpdateRequestUnableToUpdateReason =
      condition.Count tur.status.conditions TemplateUpdateRequestComplete ConditionFalse
        TemplateUpdateRequestUnableToUpdateReason + 1 := by
  have hu : condition.Count
      (addUpdatingStatusCondition env c tur syncIndexes).1.status.conditions
      TemplateUpdateRequestComplete ConditionFalse
      TemplateUpdateRequestUnableToUpdateReason = 0 := by
    have hne : TemplateUpdateRequestUpdatingReason ≠
        TemplateUpdateRequestUnableToUpdateReason := by decide
    simp [addUpdatingStatusCondition, condition.Count, ToBeUpdating, List.filter_cons, hne]
  have hc : condition.Count (setCompleteStatusCondition env c tur).1.status.conditions
      TemplateUpdateRequestComplete ConditionFalse
      TemplateUpdateRequestUnableToUpdateReason = 0 := by
    have hne : ConditionTrue ≠ ConditionFalse := by decide
    simp [setCompleteStatusCondition, condition.Count, ToBeComplete, List.filter_cons, hne]
  refine ⟨rfl, rfl, hu, hc, ?_, ?_, count_addFailureStatusCondition env c tur err⟩
  · intro threshold
    simp only [maxUpdateFailuresReached, hu, hc, Nat.cast_zero, ge_iff_le]
    exact ⟨trivial, trivial⟩
  · simp [addFailureStatusCondition, condition.AddStatusConditions, ToFailure]

/-! ### What the merge writes and what it keeps -/

/-- In the record that `updateTemplateRefs` sends to the store, an account on
the request's tier holds the values of the map of desired namespaces, in the
order of some `range`, and the request's cluster-resources reference. -/
theorem updateTemplateRefs_merged_account (env : Env) (c : Client)
    (tur : TemplateUpdateRequest) (mur mur1 : MasterUserRecord) (err : Option String)
    (hu : updateTemplateRefs env c tur mur = .ret (mur1, err, [Write.update mur1 err]))
    (ua : UserAccountEmbedded) (hua : ua ∈ mur1.userAccounts) (set : NSTemplateSetSpec)
    (hset : ua.nsTemplateSet = some set) (htier : set.tierName = tur.spec.tierName) :
    ∃ namespaces j, desiredNamespaces tur.spec.namespaces [] = .ret namespaces ∧
      set.namespaces = rangeMap (env.rangeOrder j) namespaces.values ∧
      set.clusterResources =
        (match tur.spec.clusterResources with
         | some cr => some { templateRef := cr.templateRef }
         | none => none) := by
  obtain ⟨accounts, labels, hloop, hm1, _⟩ := updateTemplateRefs_persisted env c tur mur mur1 err hu
  by_cases hex : ∃ x ∈ mur.userAccounts, onTier tur.spec.tierName x = true
  · obtain ⟨namespaces, hd⟩ := updateUserAccounts_desired env tur 0 _ _ _ _ _ hloop hex
    have hacc := updateUserAccounts_accounts env tur namespaces hd 0 _ _ _ _ hloop
    rw [hm1] at hua
    simp only at hua
    rw [hacc] at hua
    obtain ⟨j, x, _, hj⟩ := mem_mergedAccounts tur env.rangeOrder namespaces 0 _ ua hua
    rw [hj] at hset
    obtain ⟨_, h2, h3⟩ := mergedAccount_onTier tur env.rangeOrder namespaces j x set hset htier
    exact ⟨namespaces, j, hd, h2, h3⟩
  · have hnone : ∀ x ∈ mur.userAccounts, onTier tur.spec.tierName x = false := by
      intro x hx
      by_contra hc
      exact hex ⟨x, hx, by simpa using hc⟩
    have hsame := updateUserAccounts_none_onTier env tur 0 mur.userAccounts mur.labels hnone
    rw [hsame] at hloop
    simp only [Run.ret.injEq, Prod.mk.injEq] at hloop
    rw [hm1] at hua
    simp only at hua
    rw [← hloop.1] at hua
    have := hnone ua hua
    simp [onTier, hset, htier] at this

/-- C16: in the record that `updateTemplateRefs` sends to the store, every
account on the request's tier has the cluster-resources reference present
with the request's desired `templateRef` when the request has one, and absent
when the request has none, whatever the account held before. -/
theorem updateTemplateRefs_clusterResources (env : Env) (c : Client)
    (tur : TemplateUpdateRequest) (mur mur1 : MasterUserRecord) (err : Option String)
    (hu : updateTemplateRefs env c tur mur = .ret (mur1, err, [Write.update mur1 err])) :
    ∀ ua ∈ mur1.userAccounts, ∀ set, ua.nsTemplateSet = some set →
      set.tierName = tur.spec.tierName →
      (∀ cr, tur.spec.clusterResources = some cr →
        set.clusterResources = some { templateRef := cr.templateRef }) ∧
      (tur.spec.clusterResources = none → set.clusterResources = none) := by
  intro ua hua set hset htier
  obtain ⟨_, _, _, _, h3⟩ :=
    updateTemplateRefs_merged_account env c tur mur mur1 err hu ua hua set hset htier
  constructor
  · intro cr hcr
    rw [h3, hcr]
  · intro hcr
    rw [h3, hcr]

/-- Witness for C16: an account without cluster-resources reference gets the
request's one; an account holding one loses it when the request has none. -/
theorem updateTemplateRefs_clusterResources_witness :
    (∀ ua ∈ murTwoTypesMerged.userAccounts, ∀ set, ua.nsTemplateSet = some set →
      set.tierName = "base" →
      set.clusterResources = some { templateRef := "base-clusterresources-abc" }) ∧
    (∀ ua ∈ (murWithNamespaces [{ templateRef := "base-dev-abc" },
        { templateRef := "base-stage-abc" }]).userAccounts, ∀ set, ua.nsTemplateSet = some set →
      set.tierName = "base" → set.clusterResources = none) := by
  constructor
  · intro ua hua set hset htier
    exact (updateTemplateRefs_clusterResources env0 (noFaults 3) (turMUR [] []) murTwoTypes
      murTwoTypesMerged none (by decide) ua hua set hset htier).1 _ rfl
  · intro ua hua set hset htier
    exact (updateTemplateRefs_clusterResources env0 (noFaults 3) turTwoTypes murTwoTypesMerged
      (murWithNamespaces [{ templateRef := "base-dev-abc" }, { templateRef := "base-stage-abc" }])
      none (by decide) ua hua set hset htier).2 rfl

theorem keepsFrame_refl (tierName : String) (ua : UserAccountEmbedded) :
    keepsFrame tierName ua ua :=
  ⟨rfl, rfl, rfl, fun _ => rfl⟩

theorem forall₂_keepsFrame_refl (tierName : String) (accounts : List UserAccountEmbedded) :
    List.Forall₂ (keepsFrame tierName) accounts accounts := by
  induction accounts with
  | nil => simp
  | cons ua rest ih => exact List.Forall₂.cons (keepsFrame_refl tierName ua) ih

/-- Whatever way the loop of `updateTemplateRefs` ends, each account keeps
its frame. -/
theorem updateUserAccounts_frame (env : Env) (tur : TemplateUpdateRequest) (i : Nat)
    (accounts accounts1 : List UserAccountEmbedded) (labels labels1 : Option (GoMap String))
    (err : Option String)
    (h : updateUserAccounts env tur i accounts labels = .ret (accounts1, labels1, err)) :
    List.Forall₂ (keepsFrame tur.spec.tierName) accounts accounts1 := by
  induction accounts generalizing i accounts1 labels with
  | nil =>
    simp only [updateUserAccounts, Run.ret.injEq, Prod.mk.injEq] at h
    rw [← h.1]
    exact List.Forall₂.nil
  | cons ua rest ih =>
    unfold updateUserAccounts at h
    cases hs : ua.nsTemplateSet with
    | none =>
      simp only [hs] at h
      obtain ⟨rest1, hr, he⟩ := consAccount_eq_ret _ _ _ _ _ h
      rw [he]
      exact List.Forall₂.cons (keepsFrame_refl _ ua) (ih (i + 1) rest1 labels hr)
    | some set =>
      simp only [hs] at h
      by_cases ht : set.tierName = tur.spec.tierName
      · simp only [if_pos ht] at h
        cases hd : desiredNamespaces tur.spec.namespaces [] with
        | panic => simp [hd] at h
        | ret namespaces =>
          simp only [hd] at h
          have hframe : keepsFrame tur.spec.tierName ua
              ⟨ua.targetCluster, ua.syncIndex,
                some (mergedSet tur (env.rangeOrder i) namespaces set)⟩ := by
            refine ⟨rfl, rfl, ?_, ?_⟩
            · simp [hs, mergedSet]
            · intro hno
              simp [onTier, hs, ht] at hno
          cases hh : env.ComputeHashForNSTemplateSetSpec
              (mergedSet tur (env.rangeOrder i) namespaces set) with
          | error e =>
            simp only [hh, Run.ret.injEq, Prod.mk.injEq] at h
            rw [← h.1]
            exact List.Forall₂.cons hframe (forall₂_keepsFrame_refl _ rest)
          | ok hash =>
            simp only [hh] at h
            cases labels with
            | none => simp at h
            | some l =>
              simp only at h
              obtain ⟨rest1, hr, he⟩ := consAccount_eq_ret _ _ _ _ _ h
              rw [he]
              exact List.Forall₂.cons hframe (ih (i + 1) rest1 _ hr)
      · simp only [if_neg ht] at h
        obtain ⟨rest1, hr, he⟩ := consAccount_eq_ret _ _ _ _ _ h
        rw [he]
        exact List.Forall₂.cons (keepsFrame_refl _ ua) (ih (i + 1) rest1 labels hr)

/-- The loop of `syncIndexes` reads only what the frame keeps. -/
theorem syncIndexes_foldl_of_frame (tierName t : String)
    (l l1 : List UserAccountEmbedded) (h : List.Forall₂ (keepsFrame t) l l1)
    (acc : GoMap String) :
    l1.foldl
      (fun indexes ua =>
        match ua.nsTemplateSet with
        | some set =>
          if set.tierName = tierName then indexes.set ua.targetCluster ua.syncIndex
          else indexes
        | none => indexes) acc =
    l.foldl
      (fun indexes ua =>
        match ua.nsTemplateSet with
        | some set =>
          if set.tierName = tierName then indexes.set ua.targetCluster ua.syncIndex
          else indexes
        | none => indexes) acc := by
  induction h generalizing acc with
  | nil => rfl
  | @cons ua ua1 rest rest1 hab _ ih =>
    simp only [List.foldl_cons]
    obtain ⟨h1, h2, h3, _⟩ := hab
    have hstep :
        (match ua1.nsTemplateSet with
          | some set =>
            if set.tierName = tierName then acc.set ua1.targetCluster ua1.syncIndex else acc
          | none => acc) =
        (match ua.nsTemplateSet with
          | some set =>
            if set.tierName = tierName then acc.set ua.targetCluster ua.syncIndex else acc
          | none => acc) := by
      rw [h1, h2]
      cases hs : ua.nsTemplateSet with
      | none =>
        rw [hs] at h3
        cases hs1 : ua1.nsTemplateSet with
        | none => rfl
        | some s1 => simp [hs1] at h3
      | some s =>
        rw [hs] at h3
        cases hs1 : ua1.nsTemplateSet with
        | none => simp [hs1] at h3
        | some s1 =>
          have : s1.tierName = s.tierName := by simpa [hs1] using h3
          simp [this]
    rw [hstep]
    exact ih _

/-- The snapshot reads only what the frame keeps. -/
theorem syncIndexes_of_frame (tierName t : String) (mur mur1 : MasterUserRecord)
    (h : List.Forall₂ (keepsFrame t) mur.userAccounts mur1.userAccounts) :
    syncIndexes tierName mur1 = syncIndexes tierName mur :=
  syncIndexes_foldl_of_frame tierName t _ _ h []

/-- C18: whatever way `updateTemplateRefs` returns, the record in memory has
the same accounts in number and order, each with the target cluster, sync
index and tier name it had, the accounts that are not on the request's tier
(no namespace set, or another tier) are unchanged, and so are the conditions;
hence `syncIndexes` of any tier is the same before and after the merge. -/
theorem updateTemplateRefs_frame (env : Env) (c : Client) (tur : TemplateUpdateRequest)
    (mur mur1 : MasterUserRecord) (err : Option String) (ws : List Write)
    (hu : updateTemplateRefs env c tur mur = .ret (mur1, err, ws)) :
    mur1.userAccounts.length = mur.userAccounts.length ∧
    List.Forall₂ (keepsFrame tur.spec.tierName) mur.userAccounts mur1.userAccounts ∧
    mur1.conditions = mur.conditions ∧
    ∀ tierName, syncIndexes tierName mur1 = syncIndexes tierName mur := by
  have key : List.Forall₂ (keepsFrame tur.spec.tierName) mur.userAccounts mur1.userAccounts ∧
      mur1.conditions = mur.conditions := by
    unfold updateTemplateRefs at hu
    split at hu
    · cases hu
    · rename_i accounts labels e heq
      simp only [Run.ret.injEq, Prod.mk.injEq] at hu
      rw [← hu.1]
      exact ⟨updateUserAccounts_frame env tur 0 _ _ _ _ _ heq, rfl⟩
    · rename_i accounts labels heq
      simp only [Run.ret.injEq, Prod.mk.injEq] at hu
      rw [← hu.1]
      exact ⟨updateUserAccounts_frame env tur 0 _ _ _ _ _ heq, rfl⟩
  exact ⟨key.1.length_eq.symm, key.1, key.2,
    fun tierName => syncIndexes_of_frame tierName _ mur mur1 key.1⟩

/-- Witness for C18: the merge of the record with namespaces of two types
keeps its snapshot `c1:s1`. -/
theorem updateTemplateRefs_frame_witness :
    syncIndexes "base" murTwoTypesMerged = [("c1", "s1")] ∧
    murTwoTypesMerged.userAccounts.length = 1 :=
  ⟨((updateTemplateRefs_frame env0 (noFaults 3) (turMUR [] []) murTwoTypes murTwoTypesMerged
      none [Write.update murTwoTypesMerged none] (by decide)).2.2.2 "base").trans (by decide),
   (updateTemplateRefs_frame env0 (noFaults 3) (turMUR [] []) murTwoTypes murTwoTypesMerged
      none [Write.update murTwoTypesMerged none] (by decide)).1.trans (by decide)⟩

/-! ### The type of a template reference -/

theorem splitChars_ne_nil (sep : Char) (l : List Char) : splitChars sep l ≠ [] := by
  cases l with
  | nil => simp [splitChars]
  | cons c cs =>
    by_cases h : c = sep
    · simp [splitChars, h]
    · simp only [splitChars, if_neg h]
      split <;> simp

/-- Without separator there is one segment, the whole string. -/
theorem splitChars_of_not_mem (sep : Char) (l : List Char) (h : sep ∉ l) :
    splitChars sep l = [l] := by
  induction l with
  | nil => simp [splitChars]
  | cons c cs ih =>
    have hc : ¬ c = sep := fun e => h (by simp [e])
    have hcs : sep ∉ cs := fun e => h (List.mem_cons_of_mem _ e)
    simp [splitChars, hc, ih hcs]

/-- The first segment ends at the first separator. -/
theorem splitChars_append_sep (sep : Char) (a b : List Char) (h : sep ∉ a) :
    splitChars sep (a ++ sep :: b) = a :: splitChars sep b := by
  induction a with
  | nil => simp [splitChars]
  | cons c cs ih =>
    have hc : ¬ c = sep := fun e => h (by simp [e])
    have hcs : sep ∉ cs := fun e => h (List.mem_cons_of_mem _ e)
    simp [splitChars, hc, ih hcs]

/-- There are at least two segments exactly when the separator occurs. -/
theorem splitChars_two_le_length (sep : Char) (l : List Char) :
    2 ≤ (splitChars sep l).length ↔ sep ∈ l := by
  constructor
  · intro h
    by_contra hno
    rw [splitChars_of_not_mem sep l hno] at h
    simp at h
  · intro h
    induction l with
    | nil => simp at h
    | cons c cs ih =>
      by_cases hc : c = sep
      · have := splitChars_ne_nil sep cs
        simp only [splitChars, if_pos hc, List.length_cons]
        cases hs : splitChars sep cs with
        | nil => exact absurd hs this
        | cons p ps => simp
      · have hin : sep ∈ cs := by
          rcases List.mem_cons.mp h with e | e
          · exact absurd e.symm hc
          · exact e
        have := ih hin
        simp only [splitChars, if_neg hc]
        cases hs : splitChars sep cs with
        | nil => rw [hs] at this; simp at this
        | cons p ps =>
          rw [hs] at this
          simpa using this

theorem namespaceType_ret_iff (templateRef : String) :
    (∃ t, namespaceType templateRef = .ret t) ↔ 2 ≤ (stringsSplit templateRef '-').length := by
  unfold namespaceType
  cases hs : stringsSplit templateRef '-' with
  | nil => simp
  | cons p ps =>
    cases ps with
    | nil => simp
    | cons q qs => simp

/-- C17, as stated, fails: for tier `base-large`, type `dev` and hash `abc`,
`namespaceType` of `base-large-dev-abc` returns `large`, not `dev`. -/
theorem namespaceType_tier_with_dash :
    namespaceType ("base-large" ++ "-" ++ "dev" ++ "-" ++ "abc") = .ret "large" ∧
    namespaceType ("base-large" ++ "-" ++ "dev" ++ "-" ++ "abc") ≠ .ret "dev" := by
  constructor <;> decide

/-- C17, amended: for every tier and type that contain no `-` and every hash,
`namespaceType` of `tier-type-hash` returns the type; and for every reference
the index access is in range (the function returns) exactly when the
reference contains a `-`, that is when it splits into at least two
segments. -/
theorem namespaceType_format :
    (∀ tier typ hash : String, '-' ∉ tier.data → '-' ∉ typ.data →
      namespaceType (tier ++ "-" ++ typ ++ "-" ++ hash) = .ret typ) ∧
    (∀ templateRef : String,
      ((∃ t, namespaceType templateRef = .ret t) ↔ '-' ∈ templateRef.data) ∧
      (namespaceType templateRef = .panic ↔ '-' ∉ templateRef.data) ∧
      ((∃ t, namespaceType templateRef = .ret t) ↔
        2 ≤ (stringsSplit templateRef '-').length)) := by
  constructor
  · intro tier typ hash ht hty
    have hdata : (tier ++ "-" ++ typ ++ "-" ++ hash).data =
        tier.data ++ '-' :: (typ.data ++ '-' :: hash.data) := by
      simp [String.data_append]
    have hmk : String.mk typ.data = typ := rfl
    unfold namespaceType stringsSplit
    rw [hdata, splitChars_append_sep '-' _ _ ht, splitChars_append_sep '-' _ _ hty]
    simp only [List.map_cons, hmk]
  · intro templateRef
    have h2 := namespaceType_ret_iff templateRef
    have h3 : 2 ≤ (stringsSplit templateRef '-').length ↔ '-' ∈ templateRef.data := by
      unfold stringsSplit
      rw [List.length_map]
      exact splitChars_two_le_length '-' templateRef.data
    refine ⟨h2.trans h3, ?_, h2⟩
    rw [← h3, ← h2]
    cases hn : namespaceType templateRef with
    | panic => simp
    | ret t => simp

/-- Witness for C17 amended: `base-dev-abc` has type `dev`. -/
theorem namespaceType_format_witness :
    namespaceType ("base" ++ "-" ++ "dev" ++ "-" ++ "abc") = .ret "dev" :=
  namespaceType_format.1 "base" "dev" "abc" (by decide) (by decide)

/-! ### The namespaces after the merge -/

theorem GoMap.mem_set {V : Type} (m : GoMap V) (k : String) (v : V) (e : String × V)
    (h : e ∈ m.set k v) : e = (k, v) ∨ e ∈ m := by
  induction m with
  | nil => simpa [GoMap.set] using h
  | cons x rest ih =>
    obtain ⟨a, b⟩ := x
    by_cases hk : a = k
    · simp only [GoMap.set, if_pos hk, List.mem_cons] at h
      simp only [List.mem_cons]
      tauto
    · simp only [GoMap.set, if_neg hk, List.mem_cons] at h
      simp only [List.mem_cons]
      tauto

/-- In a map with distinct keys, an entry is what its key is mapped to. -/
theorem GoMap.get?_of_mem {V : Type} (m : GoMap V) (k : String) (v : V)
    (hn : m.keys.Nodup) (h : (k, v) ∈ m) : m.get? k = some v := by
  induction m with
  | nil => simp at h
  | cons x rest ih =>
    obtain ⟨a, b⟩ := x
    have h1 : a ∉ GoMap.keys rest ∧ (GoMap.keys rest).Nodup := by
      simpa [GoMap.keys] using hn
    rcases List.mem_cons.mp h with e | e
    · simp only [Prod.mk.injEq] at e
      simp [GoMap.get?, e.1, e.2]
    · have hne : ¬ a = k := by
        intro hak
        apply h1.1
        rw [hak]
        exact List.mem_map.mpr ⟨(k, v), e, rfl⟩
      simp only [GoMap.get?, if_neg hne]
      exact ih h1.2 e

theorem GoMap.mem_of_get? {V : Type} (m : GoMap V) (k : String) (v : V)
    (h : m.get? k = some v) : (k, v) ∈ m := by
  induction m with
  | nil => simp [GoMap.get?] at h
  | cons x rest ih =>
    obtain ⟨a, b⟩ := x
    by_cases hk : a = k
    · simp only [GoMap.get?, if_pos hk, Option.some.injEq] at h
      simp [hk, h]
    · simp only [GoMap.get?, if_neg hk] at h
      exact List.mem_cons_of_mem _ (ih h)

/-- The map of desired namespaces: a key is mapped to the last desired
namespace of that type, or to what it was mapped to at the start. -/
theorem desiredNamespaces_get? (desired : List NSTemplateSetNamespace)
    (m0 m : GoMap NSTemplateSetNamespace) (h : desiredNamespaces desired m0 = .ret m)
    (t : String) :
    m.get? t =
      match (desired.filter (fun d => typeOf d = .ret t)).getLast? with
      | some d => some d
      | none => m0.get? t := by
  induction desired generalizing m0 with
  | nil =>
    simp only [desiredNamespaces, Run.ret.injEq] at h
    simp [h]
  | cons d rest ih =>
    simp only [desiredNamespaces] at h
    cases ht : namespaceType d.templateRef with
    | panic => simp [ht] at h
    | ret t0 =>
      simp only [ht] at h
      have hrec := ih _ h
      rw [hrec]
      by_cases htt : t0 = t
      · subst htt
        have hd : typeOf d = Run.ret t0 := ht
        simp only [List.filter_cons, hd, decide_True, if_true]
        cases hl : List.filter (fun d => decide (typeOf d = Run.ret t0)) rest with
        | nil => simp [GoMap.get?_set]
        | cons y ys =>
          rw [List.getLast?_cons_cons]
          cases hg : (y :: ys).getLast? with
          | none => simp at hg
          | some x => rfl
      · have hd : ¬ typeOf d = Run.ret t := by
          unfold typeOf
          rw [ht]
          simpa using htt
        simp only [List.filter_cons, hd, decide_False, Bool.false_eq_true, if_false]
        cases hl : (List.filter (fun d => decide (typeOf d = Run.ret t)) rest).getLast? with
        | none => simp [GoMap.get?_set, htt]
        | some x => rfl

/-- The map of desired namespaces keeps the keys distinct, keeps each value
under its type, and is built only when every desired reference has a type. -/
theorem desiredNamespaces_inv (desired : List NSTemplateSetNamespace)
    (m0 m : GoMap NSTemplateSetNamespace) (h : desiredNamespaces desired m0 = .ret m) :
    (m0.keys.Nodup → m.keys.Nodup) ∧
    ((∀ e ∈ m0, typeOf e.2 = .ret e.1) → ∀ e ∈ m, typeOf e.2 = .ret e.1) ∧
    (∀ d ∈ desired, ∃ t, typeOf d = .ret t) := by
  induction desired generalizing m0 with
  | nil =>
    simp only [desiredNamespaces, Run.ret.injEq] at h
    subst h
    exact ⟨id, id, by simp⟩
  | cons d rest ih =>
    simp only [desiredNamespaces] at h
    cases ht : namespaceType d.templateRef with
    | panic => simp [ht] at h
    | ret t0 =>
      simp only [ht] at h
      obtain ⟨h1, h2, h3⟩ := ih _ h
      refine ⟨fun hn => h1 (GoMap.nodup_keys_set _ _ _ hn), ?_, ?_⟩
      · intro hty
        apply h2
        intro e he
        rcases GoMap.mem_set _ _ _ _ he with e1 | e1
        · rw [e1]
          exact ht
        · exact hty e e1
      · intro x hx
        rcases List.mem_cons.mp hx with e | e
        · exact ⟨t0, by rw [e]; exact ht⟩
        · exact h3 x e

/-- The values of the map of desired namespaces, built from the empty map:
one per type, the last desired namespace of each type. -/
theorem desiredNamespaces_spec (desired : List NSTemplateSetNamespace)
    (m : GoMap NSTemplateSetNamespace) (h : desiredNamespaces desired [] = .ret m) :
    (m.values.map typeOf).Nodup ∧
    m.values.length = ((desired.map typeOf).dedup).length ∧
    (∀ ns, ns ∈ m.values ↔
      (desired.filter (fun d => typeOf d = typeOf ns)).getLast? = some ns) ∧
    (∀ d ∈ desired, ∃ ns ∈ m.values, typeOf ns = typeOf d) := by
  obtain ⟨hnodup, hty, hall⟩ := desiredNamespaces_inv desired [] m h
  have hkeys : m.keys.Nodup := hnodup (by simp [GoMap.keys])
  have htypes : ∀ e ∈ m, typeOf e.2 = .ret e.1 := hty (by simp)
  have hget : ∀ t, m.get? t = (desired.filter (fun d => typeOf d = .ret t)).getLast? := by
    intro t
    rw [desiredNamespaces_get? desired [] m h t]
    cases (desired.filter (fun d => typeOf d = .ret t)).getLast? <;> simp [GoMap.get?]
  have hmap : m.values.map typeOf = m.keys.map Run.ret := by
    simp only [GoMap.values, GoMap.keys, List.map_map]
    apply List.map_congr_left
    intro e he
    exact htypes e he
  have hinj : Function.Injective (Run.ret : String → Run String) := by
    intro a b hab
    exact Run.ret.inj hab
  have hnd : (m.values.map typeOf).Nodup := by
    rw [hmap]
    exact hkeys.map hinj
  have hmem : ∀ ns, ns ∈ m.values ↔
      (desired.filter (fun d => typeOf d = typeOf ns)).getLast? = some ns := by
    intro ns
    constructor
    · intro hns
      obtain ⟨e, he, hes⟩ := List.mem_map.mp hns
      have h1 := htypes e he
      rw [hes] at h1
      have h2 : m.get? e.1 = some ns := by
        apply GoMap.get?_of_mem m e.1 ns hkeys
        rw [← hes]
        exact he
      rw [h1, ← hget]
      exact h2
    · intro hlast
      have hin : ns ∈ desired := by
        have := List.mem_of_getLast?_eq_some hlast
        exact (List.mem_filter.mp this).1
      obtain ⟨t, ht⟩ := hall ns hin
      rw [ht, ← hget] at hlast
      exact List.mem_map.mpr ⟨(t, ns), GoMap.mem_of_get? m t ns hlast, rfl⟩
  have hcover : ∀ d ∈ desired, ∃ ns ∈ m.values, typeOf ns = typeOf d := by
    intro d hd
    obtain ⟨t, ht⟩ := hall d hd
    have hne : (desired.filter (fun x => typeOf x = .ret t)) ≠ [] := by
      intro hnil
      have : d ∈ desired.filter (fun x => typeOf x = .ret t) :=
        List.mem_filter.mpr ⟨hd, by simpa using ht⟩
      rw [hnil] at this
      simp at this
    cases hl : (desired.filter (fun x => typeOf x = .ret t)).getLast? with
    | none => exact absurd (List.getLast?_eq_none_iff.mp hl) hne
    | some ns =>
      have hmemf := List.mem_of_getLast?_eq_some hl
      have hnst : typeOf ns = .ret t := by simpa using (List.mem_filter.mp hmemf).2
      refine ⟨ns, (hmem ns).mpr ?_, by rw [hnst, ht]⟩
      rw [hnst]
      exact hl
  refine ⟨hnd, ?_, hmem, hcover⟩
  have hperm : (m.values.map typeOf).Perm ((desired.map typeOf).dedup) := by
    rw [List.perm_ext_iff_of_nodup hnd (List.nodup_dedup _)]
    intro r
    rw [List.mem_dedup]
    constructor
    · intro hr
      obtain ⟨ns, hns, hr⟩ := List.mem_map.mp hr
      have hlast := (hmem ns).mp hns
      have hin : ns ∈ desired := (List.mem_filter.mp (List.mem_of_getLast?_eq_some hlast)).1
      exact List.mem_map.mpr ⟨ns, hin, hr⟩
    · intro hr
      obtain ⟨d, hd, hr⟩ := List.mem_map.mp hr
      obtain ⟨ns, hns, hnd2⟩ := hcover d hd
      exact List.mem_map.mpr ⟨ns, hns, by rw [hnd2, hr]⟩
  have := hperm.length_eq
  simpa using this

/-- C15: in the record that `updateTemplateRefs` sends to the store, the
namespace list of every account on the request's tier has one entry per
distinct type among the request's desired namespaces: no two entries have the
same type, the length is the number of distinct types, each desired type has
an entry, and a namespace is an entry exactly when it is the last desired
namespace of its type in the request's order. The list is a permutation of
the values of the map of desired namespaces: it is determined up to order. -/
theorem updateTemplateRefs_namespaces (env : Env) (c : Client)
    (tur : TemplateUpdateRequest) (mur mur1 : MasterUserRecord) (err : Option String)
    (hu : updateTemplateRefs env c tur mur = .ret (mur1, err, [Write.update mur1 err])) :
    ∀ ua ∈ mur1.userAccounts, ∀ set, ua.nsTemplateSet = some set →
      set.tierName = tur.spec.tierName →
      (set.namespaces.map typeOf).Nodup ∧
      set.namespaces.length = ((tur.spec.namespaces.map typeOf).dedup).length ∧
      (∀ d ∈ tur.spec.namespaces, ∃ ns ∈ set.namespaces, typeOf ns = typeOf d) ∧
      (∀ ns, ns ∈ set.namespaces ↔
        (tur.spec.namespaces.filter (fun d => typeOf d = typeOf ns)).getLast? = some ns) ∧
      ∃ namespaces, desiredNamespaces tur.spec.namespaces [] = .ret namespaces ∧
        set.namespaces.Perm namespaces.values := by
  intro ua hua set hset htier
  obtain ⟨namespaces, j, hd, hns, _⟩ :=
    updateTemplateRefs_merged_account env c tur mur mur1 err hu ua hua set hset htier
  obtain ⟨h1, h2, h3, h4⟩ := desiredNamespaces_spec tur.spec.namespaces namespaces hd
  have hperm : set.namespaces.Perm namespaces.values := by
    rw [hns]
    exact rangeMap_perm _ _
  refine ⟨?_, ?_, ?_, ?_, namespaces, hd, hperm⟩
  · exact ((hperm.map typeOf).nodup_iff).mpr h1
  · rw [hperm.length_eq, h2]
  · intro d hdm
    obtain ⟨ns, hnsm, hty⟩ := h4 d hdm
    exact ⟨ns, hperm.mem_iff.mpr hnsm, hty⟩
  · intro ns
    rw [hperm.mem_iff]
    exact h3 ns

/-- Witness for C15: desired namespaces of types `dev`, `stage` and `dev`
again: the account ends with two namespaces, the later one of type `dev` and
the one of type `stage`. -/
theorem updateTemplateRefs_namespaces_witness :
    updateTemplateRefs env0 (noFaults 3) turLastWins murTwoTypes =
      .ret (murWithNamespaces [{ templateRef := "base-dev-xyz" },
              { templateRef := "base-stage-abc" }], none,
            [Write.update (murWithNamespaces [{ templateRef := "base-dev-xyz" },
              { templateRef := "base-stage-abc" }]) none]) ∧
    ∀ ua ∈ (murWithNamespaces [{ templateRef := "base-dev-xyz" },
        { templateRef := "base-stage-abc" }]).userAccounts,
      ∀ set, ua.nsTemplateSet = some set → set.tierName = "base" →
        set.namespaces.length = 2 ∧
        ({ templateRef := "base-dev-abc" } : NSTemplateSetNamespace) ∉ set.namespaces := by
  refine ⟨by decide, ?_⟩
  intro ua hua set hset htier
  obtain ⟨_, h2, _, h4, _⟩ := updateTemplateRefs_namespaces env0 (noFaults 3) turLastWins
    murTwoTypes (murWithNamespaces [{ templateRef := "base-dev-xyz" },
      { templateRef := "base-stage-abc" }]) none (by decide) ua hua set hset htier
  refine ⟨h2.trans (by decide), ?_⟩
  rw [h4]
  decide

/-! ### The writes of one invocation -/

/-- The write of `updateTemplateRefs`: none when the hash fails, else the one
update of the merged record, whose answer is the returned error. -/
theorem updateTemplateRefs_shape (env : Env) (c : Client) (tur : TemplateUpdateRequest)
    (mur mur1 : MasterUserRecord) (err : Option String) (ws : List Write)
    (hu : updateTemplateRefs env c tur mur = .ret (mur1, err, ws)) :
    ((∃ e, err = some e) ∧ ws = []) ∨
    (ws = [Write.update mur1 (c.Update mur1)] ∧ err = c.Update mur1) := by
  unfold updateTemplateRefs at hu
  split at hu
  · cases hu
  · rename_i accounts labels e heq
    simp only [Run.ret.injEq, Prod.mk.injEq] at hu
    exact Or.inl ⟨⟨e, hu.2.1.symm⟩, hu.2.2.symm⟩
  · rename_i accounts labels heq
    simp only [Run.ret.injEq, Prod.mk.injEq] at hu
    obtain ⟨h1, h2, h3⟩ := hu
    subst h1
    exact Or.inr ⟨h3.symm, h2.symm⟩

/-- The writes of the Space flow: one status update of the request as it is
in memory at the return, or none; the spec of the request is kept. -/
theorem handleSpaceUpdate_shape (env : Env) (c : Client) (tur : TemplateUpdateRequest) :
    (handleSpaceUpdate env c tur).tur.spec = tur.spec ∧
    ((handleSpaceUpdate env c tur).writes = [] ∨
      (handleSpaceUpdate env c tur).writes =
        [Write.statusUpdate (handleSpaceUpdate env c tur).tur
          (c.StatusUpdate (handleSpaceUpdate env c tur).tur)]) := by
  unfold handleSpaceUpdate
  cases hs : c.getSpace with
  | notFound err => exact ⟨rfl, Or.inr rfl⟩
  | failed err => exact ⟨rfl, Or.inl rfl⟩
  | found space =>
    simp only
    split
    · exact ⟨rfl, Or.inr rfl⟩
    · split
      · rename_i e he
        exact ⟨rfl, Or.inr rfl⟩
      · exact ⟨rfl, Or.inr rfl⟩

/-- The writes of the MasterUserRecord flow: at most one update of the
record, issued only when `status.syncIndexes` is empty, followed by at most
one status update of the request as it is in memory at the return. The spec
of the request is kept, and `status.syncIndexes` changes only in an invocation
whose update of the record succeeded. -/
theorem handleMURUpdate_shape (env : Env) (c : Client) (tur : TemplateUpdateRequest)
    (out : Outcome) (h : handleMURUpdate env c tur = .ret out) :
    out.tur.spec = tur.spec ∧
    (∃ us ss, out.writes = us ++ ss ∧
      (us = [] ∨ ∃ m, us = [Write.update m (c.Update m)] ∧ tur.status.syncIndexes = []) ∧
      (ss = [] ∨ ss = [Write.statusUpdate out.tur (c.StatusUpdate out.tur)])) ∧
    (out.tur.status.syncIndexes = tur.status.syncIndexes ∨
      (tur.status.syncIndexes = [] ∧ ∃ m, Write.update m none ∈ out.writes)) := by
  unfold handleMURUpdate at h
  cases hc : c.GetToolchainConfig with
  | error e =>
    simp only [hc, Run.ret.injEq] at h
    subst h
    exact ⟨rfl, ⟨[], [], rfl, Or.inl rfl, Or.inl rfl⟩, Or.inl rfl⟩
  | ok threshold =>
    simp only [hc] at h
    cases hm : c.getMUR with
    | notFound e =>
      simp only [hm, Run.ret.injEq] at h
      subst h
      exact ⟨rfl, ⟨[], _, rfl, Or.inl rfl, Or.inr rfl⟩, Or.inl rfl⟩
    | failed e =>
      simp only [hm, Run.ret.injEq] at h
      subst h
      exact ⟨rfl, ⟨[], [], rfl, Or.inl rfl, Or.inl rfl⟩, Or.inl rfl⟩
    | found mur =>
      simp only [hm] at h
      by_cases hlen : tur.status.syncIndexes.length = 0
      · have hnil : tur.status.syncIndexes = [] := List.length_eq_zero.mp hlen
        simp only [if_pos hlen, handleMURUpdateFirst] at h
        cases hu : updateTemplateRefs env c tur mur with
        | panic => simp [hu] at h
        | ret r =>
          obtain ⟨m1, e, ws⟩ := r
          have hshape := updateTemplateRefs_shape env c tur mur m1 e ws hu
          have hus : ws = [] ∨ ∃ m, ws = [Write.update m (c.Update m)] ∧
              tur.status.syncIndexes = [] := by
            rcases hshape with ⟨_, h2⟩ | ⟨h2, _⟩
            · exact Or.inl h2
            · exact Or.inr ⟨m1, h2, hnil⟩
          cases e with
          | some e1 =>
            simp only [hu] at h
            split at h
            · simp only [Run.ret.injEq] at h
              subst h
              exact ⟨rfl, ⟨ws, _, rfl, hus, Or.inr rfl⟩, Or.inl rfl⟩
            · split at h
              · simp only [Run.ret.injEq] at h
                subst h
                exact ⟨rfl, ⟨ws, _, rfl, hus, Or.inr rfl⟩, Or.inl rfl⟩
              · simp only [Run.ret.injEq] at h
                subst h
                exact ⟨rfl, ⟨ws, _, rfl, hus, Or.inr rfl⟩, Or.inl rfl⟩
          | none =>
            have hok : ∃ m, Write.update m none ∈ ws := by
              rcases hshape with ⟨⟨e2, h1⟩, _⟩ | ⟨h2, h3⟩
              · cases h1
              · exact ⟨m1, by rw [h2, ← h3]; simp⟩
            obtain ⟨m, hmem⟩ := hok
            simp only [hu] at h
            split at h
            · simp only [Run.ret.injEq] at h
              subst h
              exact ⟨rfl, ⟨ws, _, rfl, hus, Or.inr rfl⟩,
                Or.inr ⟨hnil, m, List.mem_append_left _ hmem⟩⟩
            · simp only [Run.ret.injEq] at h
              subst h
              exact ⟨rfl, ⟨ws, _, rfl, hus, Or.inr rfl⟩,
                Or.inr ⟨hnil, m, List.mem_append_left _ hmem⟩⟩
      · simp only [if_neg hlen] at h
        split at h
        · simp only [Run.ret.injEq] at h
          subst h
          exact ⟨rfl, ⟨[], _, rfl, Or.inl rfl, Or.inr rfl⟩, Or.inl rfl⟩
        · simp only [Run.ret.injEq] at h
          subst h
          exact ⟨rfl, ⟨[], [], rfl, Or.inl rfl, Or.inl rfl⟩, Or.inl rfl⟩

/-- C13: an invocation of `Reconcile` that returns has issued at most one
status update of the request and at most one update of a target entity; an
update of a target entity is issued only in the MasterUserRecord flow (the
request's `currentTierHash` is empty) and only when the request's
`status.syncIndexes` is empty. An invocation that panics has issued none (the
panics of the merge come before any write). -/
theorem Reconcile_writes (env : Env) (c : Client) (out : Outcome)
    (h : Reconcile env c = .ret out) :
    (out.writes.filter Write.isStatusUpdate).length ≤ 1 ∧
    (out.writes.filter Write.isUpdate).length ≤ 1 ∧
    (out.writes.filter Write.isUpdate ≠ [] →
      ∃ tur, c.getTUR = .found tur ∧ tur.spec.currentTierHash = "" ∧
        tur.status.syncIndexes = []) := by
  unfold Reconcile at h
  cases hg : c.getTUR with
  | notFound e =>
    simp only [hg, Run.ret.injEq] at h
    subst h
    simp
  | failed e =>
    simp only [hg, Run.ret.injEq] at h
    subst h
    simp
  | found tur =>
    simp only [hg] at h
    by_cases hh : tur.spec.currentTierHash ≠ ""
    · simp only [if_pos hh, Run.ret.injEq] at h
      subst h
      rcases (handleSpaceUpdate_shape env c tur).2 with hw | hw
      · rw [hw]
        simp
      · rw [hw]
        simp [Write.isStatusUpdate, Write.isUpdate]
    · simp only [if_neg hh] at h
      have hempty : tur.spec.currentTierHash = "" := by
        by_contra hne
        exact hh hne
      obtain ⟨_, ⟨us, ss, hw, hus, hss⟩, _⟩ := handleMURUpdate_shape env c tur out h
      rw [hw]
      rcases hus with rfl | ⟨m, rfl, hnil⟩ <;> rcases hss with rfl | rfl
      · simp
      · simp [Write.isStatusUpdate, Write.isUpdate]
      · simp only [List.append_nil]
        refine ⟨by simp [Write.isStatusUpdate], by simp [Write.isUpdate], ?_⟩
        intro _
        exact ⟨tur, rfl, hempty, hnil⟩
      · refine ⟨by simp [Write.isStatusUpdate], by simp [Write.isUpdate], ?_⟩
        intro _
        exact ⟨tur, rfl, hempty, hnil⟩

/-- Witness for C13: a first invocation of the MasterUserRecord flow issues
one update of the record, then one status update. -/
theorem Reconcile_writes_witness :
    ∃ out, Reconcile env0
        ((storeWithMUR (turMUR [] []) murTwoTypes).client "not found" (noFaults 3)) = .ret out ∧
      out.writes = [Write.update murTwoTypesMerged none,
        Write.statusUpdate (turMUR [("c1", "s1")] [ToBeUpdating 7]) none] ∧
      (out.writes.filter Write.isStatusUpdate).length ≤ 1 ∧
      (out.writes.filter Write.isUpdate).length ≤ 1 := by
  have hrun : Reconcile env0
      ((storeWithMUR (turMUR [] []) murTwoTypes).client "not found" (noFaults 3)) =
      .ret { result := Result.empty, err := none
             tur := turMUR [("c1", "s1")] [ToBeUpdating 7]
             writes := [Write.update murTwoTypesMerged none,
               Write.statusUpdate (turMUR [("c1", "s1")] [ToBeUpdating 7]) none] } := by
    decide
  have h := Reconcile_writes env0 _ _ hrun
  exact ⟨_, hrun, rfl, h.1, h.2.1⟩

/-! ### Repeated invocations of the MasterUserRecord flow -/

/-- The fetch of the request on a store: it fails as the behaviour says, or
answers from the store. -/
theorem Store.client_getTUR (s : Store) (nf : String) (faults : Client) :
    (∃ e, (s.client nf faults).getTUR = .failed e) ∨
    (s.client nf faults).getTUR =
      (match s.tur with
       | some o => .found o
       | none => .notFound nf) := by
  cases hf : faults.getTUR with
  | failed e => exact Or.inl ⟨e, by simp [Store.client, hf]⟩
  | notFound e => exact Or.inr (by simp [Store.client, hf])
  | found o => exact Or.inr (by simp [Store.client, hf])

/-- The stored request after the writes of an invocation of the
MasterUserRecord flow. -/
theorem applyWrites_shape_tur (s : Store) (tur : TemplateUpdateRequest) (c : Client)
    (out : Outcome) (us ss : List Write) (hs : s.tur = some tur)
    (hus : us = [] ∨ ∃ m, us = [Write.update m (c.Update m)] ∧ tur.status.syncIndexes = [])
    (hss : ss = [] ∨ ss = [Write.statusUpdate out.tur (c.StatusUpdate out.tur)]) :
    (s.applyWrites (us ++ ss)).tur = some tur ∨
    (s.applyWrites (us ++ ss)).tur = some { tur with status := out.tur.status } := by
  rcases hus with rfl | ⟨m, rfl, _⟩ <;> rcases hss with rfl | rfl
  · exact Or.inl (by simp [Store.applyWrites, hs])
  · cases he : c.StatusUpdate out.tur with
    | none => exact Or.inr (by simp [Store.applyWrites, Store.applyWrite, hs])
    | some e => exact Or.inl (by simp [Store.applyWrites, Store.applyWrite, hs])
  · cases hu : c.Update m with
    | none => exact Or.inl (by simp [Store.applyWrites, Store.applyWrite, hs])
    | some e => exact Or.inl (by simp [Store.applyWrites, Store.applyWrite, hs])
  · cases hu : c.Update m <;> cases he : c.StatusUpdate out.tur <;>
      simp [Store.applyWrites, Store.applyWrite, hs]

/-- One invocation on a store whose request is of the MasterUserRecord flow:
the request stays, with its spec; its `status.syncIndexes` is as before unless
it was empty and an update of the record succeeded in this invocation; and
when it was not empty, no update of the record is issued. -/
theorem invoke_mur_flow (env : Env) (nf : String) (faults : Client) (s : Store)
    (tur : TemplateUpdateRequest) (hs : s.tur = some tur)
    (hh : tur.spec.currentTierHash = "") :
    ∃ tur1, (invoke env nf faults s).tur = some tur1 ∧ tur1.spec = tur.spec ∧
      (tur1.status.syncIndexes = tur.status.syncIndexes ∨
        (tur.status.syncIndexes = [] ∧
          ∃ m, Write.update m none ∈ invokeWrites env nf faults s)) ∧
      (tur.status.syncIndexes ≠ [] →
        (invokeWrites env nf faults s).filter Write.isUpdate = []) := by
  rcases Store.client_getTUR s nf faults with ⟨e, hg⟩ | hg
  · have hR : Reconcile env (s.client nf faults) =
        .ret { result := Result.empty
               err := some (errsWrap e "unable to get the current TemplateUpdateRequest")
               tur := TemplateUpdateRequest.zero, writes := [] } := by
      simp only [Reconcile, hg]
    refine ⟨tur, ?_, rfl, Or.inl rfl, ?_⟩
    · simp only [invoke, hR, Store.applyWrites, List.foldl_nil, hs]
    · intro _
      simp only [invokeWrites, hR, List.filter_nil]
  · rw [hs] at hg
    have hR : Reconcile env (s.client nf faults) =
        handleMURUpdate env (s.client nf faults) tur := by
      simp only [Reconcile, hg, hh, ne_eq, not_true_eq_false, if_false]
    cases hm : handleMURUpdate env (s.client nf faults) tur with
    | panic =>
      refine ⟨tur, ?_, rfl, Or.inl rfl, ?_⟩
      · simp only [invoke, hR, hm, hs]
      · intro _
        simp only [invokeWrites, hR, hm, List.filter_nil]
    | ret out =>
      obtain ⟨hspec, ⟨us, ss, hw, hus, hss⟩, hsync⟩ :=
        handleMURUpdate_shape env (s.client nf faults) tur out hm
      have hinv : invoke env nf faults s = s.applyWrites (us ++ ss) := by
        simp only [invoke, hR, hm, hw]
      have hws : invokeWrites env nf faults s = out.writes := by
        simp only [invokeWrites, hR, hm]
      have hno : tur.status.syncIndexes ≠ [] →
          (invokeWrites env nf faults s).filter Write.isUpdate = [] := by
        intro hne
        rw [hws, hw]
        rcases hus with rfl | ⟨m, _, hnil⟩
        · rcases hss with rfl | rfl <;> simp [Write.isUpdate]
        · exact absurd hnil hne
      rcases applyWrites_shape_tur s tur (s.client nf faults) out us ss hs hus hss with h1 | h1
      · exact ⟨tur, by rw [hinv, h1], rfl, Or.inl rfl, hno⟩
      · refine ⟨{ tur with status := out.tur.status }, by rw [hinv, h1], rfl, ?_, hno⟩
        rcases hsync with h2 | ⟨h2, m, h3⟩
        · exact Or.inl h2
        · exact Or.inr ⟨h2, m, by rw [hws]; exact h3⟩

/-- Along any sequence of events from a store whose request is of the
MasterUserRecord flow with an empty `status.syncIndexes`, the request stays
with its spec, and a non-empty `status.syncIndexes` comes with a successful
update of the record among the writes issued. -/
theorem runEvents_inv (nf : String) (spec : TemplateUpdateRequestSpec)
    (hh : spec.currentTierHash = "") (events : List Event) (st : Store × List Write)
    (h : ∃ tur, st.1.tur = some tur ∧ tur.spec = spec ∧
      (tur.status.syncIndexes ≠ [] → ∃ m, Write.update m none ∈ st.2)) :
    ∃ tur, (events.foldl (Event.apply nf) st).1.tur = some tur ∧ tur.spec = spec ∧
      (tur.status.syncIndexes ≠ [] →
        ∃ m, Write.update m none ∈ (events.foldl (Event.apply nf) st).2) := by
  induction events generalizing st with
  | nil => exact h
  | cons ev rest ih =>
    simp only [List.foldl_cons]
    apply ih
    obtain ⟨tur, hs, hspec, hsync⟩ := h
    cases ev with
    | external mur => exact ⟨tur, hs, hspec, hsync⟩
    | reconcile env faults =>
      obtain ⟨tur1, h1, h2, h3, _⟩ :=
        invoke_mur_flow env nf faults st.1 tur hs (by rw [hspec]; exact hh)
      refine ⟨tur1, h1, h2.trans hspec, ?_⟩
      intro hne
      simp only [Event.apply]
      rcases h3 with h4 | ⟨_, m, h5⟩
      · rw [h4] at hne
        obtain ⟨m, hm⟩ := hsync hne
        exact ⟨m, List.mem_append_left _ hm⟩
      · exact ⟨m, List.mem_append_right _ h5⟩

/-- C12, as stated, fails: on a fresh request, an invocation in which the
update of the record is refused has attempted the mutation (the update is
among its writes) and leaves `status.syncIndexes` empty; the next invocation
takes the first-invocation branch and attempts the update again. -/
theorem syncIndexes_empty_after_attempt :
    Write.update
        { murWithAccounts [baseAccount "c1" "s1"] true with
          labels := some [("toolchain.dev.openshift.com/base-tier-hash",
            "nbase-clusterresources-abc")]
          userAccounts := [{ baseAccount "c1" "s1" with
            nsTemplateSet := some
              { tierName := "base", namespaces := [{ templateRef := "base-dev-abc" }]
                clusterResources := some { templateRef := "base-clusterresources-abc" } } }] }
        (some "conflict") ∈
      (runEvents "not found" [Event.reconcile env0 (updateRefused 3)]
        (storeWithMUR (turMUR [] []) (murWithAccounts [baseAccount "c1" "s1"] true))).2 ∧
    (runEvents "not found" [Event.reconcile env0 (updateRefused 3)]
        (storeWithMUR (turMUR [] []) (murWithAccounts [baseAccount "c1" "s1"] true))).1.tur.map
      (fun tur => tur.status.syncIndexes) = some [] ∧
    (invokeWrites env0 "not found" (updateRefused 3)
      (runEvents "not found" [Event.reconcile env0 (updateRefused 3)]
        (storeWithMUR (turMUR [] []) (murWithAccounts [baseAccount "c1" "s1"] true))).1).filter
      Write.isUpdate ≠ [] := by
  refine ⟨by decide, by decide, by decide⟩

/-- C12, amended: in every state reached from a freshly created request of
the MasterUserRecord flow (empty status) by invocations, under any behaviour
of the store, and changes of the record from outside, `status.syncIndexes` is
non-empty only if an update of the merged record has succeeded; and once it is
non-empty, an invocation issues no update of the record and leaves
`status.syncIndexes` as it is. -/
theorem syncIndexes_nonempty_inv (nf : String) (tur0 : TemplateUpdateRequest)
    (space0 : Option Space) (mur0 : Option MasterUserRecord) (events : List Event)
    (h0 : tur0.status.syncIndexes = []) (hh : tur0.spec.currentTierHash = "") :
    ∃ tur, (runEvents nf events { tur := some tur0, space := space0, mur := mur0 }).1.tur =
        some tur ∧
      tur.spec = tur0.spec ∧
      (tur.status.syncIndexes ≠ [] →
        (∃ m, Write.update m none ∈
          (runEvents nf events { tur := some tur0, space := space0, mur := mur0 }).2) ∧
        ∀ env faults,
          (invokeWrites env nf faults
            (runEvents nf events { tur := some tur0, space := space0, mur := mur0 }).1).filter
            Write.isUpdate = [] ∧
          (invoke env nf faults
            (runEvents nf events { tur := some tur0, space := space0, mur := mur0 }).1).tur.map
            (fun t => t.status.syncIndexes) = some tur.status.syncIndexes) := by
  obtain ⟨tur, h1, h2, h3⟩ := runEvents_inv nf tur0.spec hh events
    ({ tur := some tur0, space := space0, mur := mur0 }, [])
    ⟨tur0, rfl, rfl, fun hne => absurd h0 hne⟩
  refine ⟨tur, h1, h2, ?_⟩
  intro hne
  refine ⟨h3 hne, ?_⟩
  intro env faults
  obtain ⟨tur1, k1, _, k3, k4⟩ := invoke_mur_flow env nf faults _ tur h1 (by rw [h2]; exact hh)
  refine ⟨k4 hne, ?_⟩
  show (invoke env nf faults (List.foldl (Event.apply nf) _ events).1).tur.map _ = _
  rw [k1]
  rcases k3 with k5 | ⟨k5, _⟩
  · simp [k5]
  · exact absurd k5 hne

/-- Witness for C12 amended: after a successful first invocation the baseline
`c1:s1` is stored and the successful update is among the writes; a second
invocation issues no update of the record. -/
theorem syncIndexes_nonempty_inv_witness :
    ∃ tur, (runEvents "not found" [Event.reconcile env0 (noFaults 3)]
        { tur := some (turMUR [] []), space := none, mur := some murTwoTypes }).1.tur =
        some tur ∧
      tur.status.syncIndexes = [("c1", "s1")] ∧
      (invokeWrites env0 "not found" (noFaults 3)
        (runEvents "not found" [Event.reconcile env0 (noFaults 3)]
          { tur := some (turMUR [] []), space := none, mur := some murTwoTypes }).1).filter
        Write.isUpdate = [] := by
  obtain ⟨tur, h1, _, h3⟩ := syncIndexes_nonempty_inv "not found" (turMUR [] []) none
    (some murTwoTypes) [Event.reconcile env0 (noFaults 3)] rfl rfl
  have hstore : (runEvents "not found" [Event.reconcile env0 (noFaults 3)]
      { tur := some (turMUR [] []), space := none, mur := some murTwoTypes }).1.tur =
      some (turMUR [("c1", "s1")] [ToBeUpdating 7]) := by decide
  have htur : tur = turMUR [("c1", "s1")] [ToBeUpdating 7] := by
    rw [hstore] at h1
    exact (Option.some.inj h1).symm
  subst htur
  exact ⟨_, h1, rfl, ((h3 (by decide)).2 env0 (noFaults 3)).1⟩

/-! ### Running `Reconcile` again -/

/-- The loop of `updateTemplateRefs` reads the spec of the request only, and
of the environment the label key, the hash and the order of the `range`. -/
theorem updateUserAccounts_congr (env env2 : Env) (tur tur2 : TemplateUpdateRequest)
    (hk : env2.TemplateTierHashLabelKey = env.TemplateTierHashLabelKey)
    (hhash : env2.ComputeHashForNSTemplateSetSpec = env.ComputeHashForNSTemplateSetSpec)
    (ho : env2.rangeOrder = env.rangeOrder) (hspec : tur2.spec = tur.spec)
    (i : Nat) (accounts : List UserAccountEmbedded) (labels : Option (GoMap String)) :
    updateUserAccounts env2 tur2 i accounts labels =
      updateUserAccounts env tur i accounts labels := by
  induction accounts generalizing i labels with
  | nil => simp [updateUserAccounts]
  | cons ua rest ih =>
    simp only [updateUserAccounts, hk, hhash, ho, hspec, ih, mergedSet]

theorem updateTemplateRefs_congr (env env2 : Env) (c c2 : Client)
    (tur tur2 : TemplateUpdateRequest)
    (hk : env2.TemplateTierHashLabelKey = env.TemplateTierHashLabelKey)
    (hhash : env2.ComputeHashForNSTemplateSetSpec = env.ComputeHashForNSTemplateSetSpec)
    (ho : env2.rangeOrder = env.rangeOrder) (hspec : tur2.spec = tur.spec)
    (hU : c2.Update = c.Update) (mur : MasterUserRecord) :
    updateTemplateRefs env2 c2 tur2 mur = updateTemplateRefs env c tur mur := by
  simp only [updateTemplateRefs, updateUserAccounts_congr env env2 tur tur2 hk hhash ho hspec, hU]

/-- A non-empty baseline compared with itself is not converged. -/
theorem allSyncIndexesChangedLoop_self (m : GoMap String) (hn : m.keys.Nodup)
    (hne : m ≠ []) : allSyncIndexesChangedLoop m m = false := by
  cases m with
  | nil => exact absurd rfl hne
  | cons e rest =>
    obtain ⟨k, v⟩ := e
    rw [← Bool.not_eq_true, allSyncIndexesChangedLoop_eq_true]
    intro hall
    exact hall (k, v) (List.mem_cons_self _ _)
      (GoMap.get?_of_mem _ k v hn (List.mem_cons_self _ _))

/-- The first-invocation branch when `updateTemplateRefs` fails: the request
gets the Failed condition, and the status update follows the writes of
`updateTemplateRefs`. -/
theorem handleMURUpdateFirst_failed (env : Env) (c : Client) (threshold : Int)
    (tur : TemplateUpdateRequest) (mur mur1 : MasterUserRecord) (e : String)
    (ws : List Write) (hu : updateTemplateRefs env c tur mur = .ret (mur1, some e, ws)) :
    ∃ out, handleMURUpdateFirst env c threshold tur mur = .ret out ∧
      out.tur = (addFailureStatusCondition env c tur (errsWrap e
        "unable to update the MasterUserRecord associated with the TemplateUpdateRequest")).1 ∧
      out.writes = ws ++ [Write.statusUpdate out.tur (c.StatusUpdate out.tur)] := by
  simp only [handleMURUpdateFirst, hu]
  split
  · exact ⟨_, rfl, rfl, rfl⟩
  · split
    · exact ⟨_, rfl, rfl, rfl⟩
    · exact ⟨_, rfl, rfl, rfl⟩

/-- The first-invocation branch when `updateTemplateRefs` succeeds: the
request gets `[Updating]` and the snapshot of the record as fetched. -/
theorem handleMURUpdateFirst_ok (env : Env) (c : Client) (threshold : Int)
    (tur : TemplateUpdateRequest) (mur mur1 : MasterUserRecord)
    (ws : List Write) (hu : updateTemplateRefs env c tur mur = .ret (mur1, none, ws)) :
    ∃ out, handleMURUpdateFirst env c threshold tur mur = .ret out ∧
      out.tur = (addUpdatingStatusCondition env c tur (syncIndexes tur.spec.tierName mur)).1 ∧
      out.writes = ws ++ [Write.statusUpdate out.tur (c.StatusUpdate out.tur)] := by
  simp only [handleMURUpdateFirst, hu]
  split
  · exact ⟨_, rfl, rfl, rfl⟩
  · exact ⟨_, rfl, rfl, rfl⟩

theorem handleMURUpdateFirst_panic (env : Env) (c : Client) (threshold : Int)
    (tur : TemplateUpdateRequest) (mur : MasterUserRecord) :
    handleMURUpdateFirst env c threshold tur mur = .panic ↔
      updateTemplateRefs env c tur mur = .panic := by
  constructor
  · intro h
    cases hu : updateTemplateRefs env c tur mur with
    | panic => rfl
    | ret r =>
      obtain ⟨m1, e, ws⟩ := r
      cases e with
      | none =>
        obtain ⟨out, ho, _⟩ := handleMURUpdateFirst_ok env c threshold tur mur m1 ws hu
        rw [ho] at h
        cases h
      | some e1 =>
        obtain ⟨out, ho, _⟩ := handleMURUpdateFirst_failed env c threshold tur mur m1 e1 ws hu
        rw [ho] at h
        cases h
  · intro h
    simp only [handleMURUpdateFirst, h]

theorem decision_addFailure (env env2 : Env) (c c2 : Client) (tur : TemplateUpdateRequest)
    (e e2 : String) :
    decision (addFailureStatusCondition env2 c2 (addFailureStatusCondition env c tur e).1 e2).1 =
      decision (addFailureStatusCondition env c tur e).1 := by
  simp [decision, addFailureStatusCondition, condition.AddStatusConditions, ToFailure]

/-- The Space flow run again on the request it left, with the same answer to
the fetch of the Space, leaves the same status decision. -/
theorem handleSpaceUpdate_again (env env2 : Env) (c c2 : Client)
    (tur : TemplateUpdateRequest)
    (hk : env2.TemplateTierHashLabelKey = env.TemplateTierHashLabelKey)
    (hsp : c2.getSpace = c.getSpace) :
    decision (handleSpaceUpdate env2 c2 (handleSpaceUpdate env c tur).tur).tur =
      decision (handleSpaceUpdate env c tur).tur := by
  cases hs : c.getSpace with
  | notFound err =>
    have h1 : (handleSpaceUpdate env c tur).tur = (addFailureStatusCondition env c tur err).1 := by
      simp only [handleSpaceUpdate, hs]
    have h2 : ∀ t, (handleSpaceUpdate env2 c2 t).tur =
        (addFailureStatusCondition env2 c2 t err).1 := by
      intro t
      simp only [handleSpaceUpdate, hsp, hs]
    rw [h1, h2]
    exact decision_addFailure env env2 c c2 tur err err
  | failed err =>
    have h1 : ∀ (e : Env) (cl : Client) (t : TemplateUpdateRequest), cl.getSpace = .failed err →
        (handleSpaceUpdate e cl t).tur = t := by
      intro e cl t hcl
      simp only [handleSpaceUpdate, hcl]
    rw [h1 env c tur hs, h1 env2 c2 tur (hsp.trans hs)]
  | found space =>
    by_cases hcond : tur.spec.currentTierHash ≠
        space.labels.getD (env.TemplateTierHashLabelKey space.tierName) ∧
        condition.IsTrue space.conditions ConditionReady = true
    · have h1 : (handleSpaceUpdate env c tur).tur = (setCompleteStatusCondition env c tur).1 := by
        simp only [handleSpaceUpdate, hs, if_pos hcond]
      have hcond2 : (setCompleteStatusCondition env c tur).1.spec.currentTierHash ≠
          space.labels.getD (env2.TemplateTierHashLabelKey space.tierName) ∧
          condition.IsTrue space.conditions ConditionReady = true := by
        rw [hk]
        exact hcond
      have h2 : (handleSpaceUpdate env2 c2 (setCompleteStatusCondition env c tur).1).tur =
          (setCompleteStatusCondition env2 c2 (setCompleteStatusCondition env c tur).1).1 := by
        simp only [handleSpaceUpdate, hsp, hs, if_pos hcond2]
      rw [h1, h2]
      simp [decision, setCompleteStatusCondition, ToBeComplete]
    · have h1 : (handleSpaceUpdate env c tur).tur = (addUpdatingStatusCondition env c tur []).1 := by
        simp only [handleSpaceUpdate, hs, if_neg hcond]
        split <;> rfl
      have hcond2 : ¬ ((addUpdatingStatusCondition env c tur []).1.spec.currentTierHash ≠
          space.labels.getD (env2.TemplateTierHashLabelKey space.tierName) ∧
          condition.IsTrue space.conditions ConditionReady = true) := by
        rw [hk]
        exact hcond
      have h2 : (handleSpaceUpdate env2 c2 (addUpdatingStatusCondition env c tur []).1).tur =
          (addUpdatingStatusCondition env2 c2 (addUpdatingStatusCondition env c tur []).1 []).1 := by
        simp only [handleSpaceUpdate, hsp, hs, if_neg hcond2]
        split <;> rfl
      rw [h1, h2]
      simp [decision, addUpdatingStatusCondition, ToBeUpdating]

/-- Once the request is fetched, `Reconcile` is the flow its `currentTierHash`
selects. -/
theorem Reconcile_of_found (env : Env) (c : Client) (tur : TemplateUpdateRequest)
    (hg : c.getTUR = .found tur) :
    (tur.spec.currentTierHash ≠ "" → Reconcile env c = .ret (handleSpaceUpdate env c tur)) ∧
    (tur.spec.currentTierHash = "" → Reconcile env c = handleMURUpdate env c tur) := by
  constructor
  · intro hne
    simp only [Reconcile, hg, if_pos hne]
  · intro he
    simp only [Reconcile, hg, he, ne_eq, not_true_eq_false, if_false]

/-- Whatever way `updateTemplateRefs` returns, the snapshot of the record in
memory is the snapshot of the record as fetched. -/
theorem updateTemplateRefs_syncIndexes (env : Env) (c : Client) (tur : TemplateUpdateRequest)
    (mur mur1 : MasterUserRecord) (err : Option String) (ws : List Write)
    (hu : updateTemplateRefs env c tur mur = .ret (mur1, err, ws)) (tierName : String) :
    syncIndexes tierName mur1 = syncIndexes tierName mur := by
  apply syncIndexes_of_frame tierName tur.spec.tierName
  unfold updateTemplateRefs at hu
  split at hu
  · cases hu
  · rename_i accounts labels e heq
    simp only [Run.ret.injEq, Prod.mk.injEq] at hu
    rw [← hu.1]
    exact updateUserAccounts_frame env tur 0 _ _ _ _ _ heq
  · rename_i accounts labels heq
    simp only [Run.ret.injEq, Prod.mk.injEq] at hu
    rw [← hu.1]
    exact updateUserAccounts_frame env tur 0 _ _ _ _ _ heq

/-- When the snapshot on the request's tier is empty, no account is on the
tier. -/
theorem onTier_false_of_syncIndexes_nil (tierName : String) (mur : MasterUserRecord)
    (h : syncIndexes tierName mur = []) :
    ∀ ua ∈ mur.userAccounts, onTier tierName ua = false := by
  intro ua hua
  by_contra hc
  have h1 := syncIndexes_get? tierName mur ua.targetCluster
  rw [h] at h1
  have h2 : mur.userAccounts.filter
      (fun x => onTier tierName x && decide (x.targetCluster = ua.targetCluster)) = [] := by
    have h3 := h1.symm
    simp only [GoMap.get?, Option.map_eq_none', List.getLast?_eq_none_iff] at h3
    exact h3
  have h4 : ua ∈ mur.userAccounts.filter
      (fun x => onTier tierName x && decide (x.targetCluster = ua.targetCluster)) :=
    List.mem_filter.mpr ⟨hua, by simpa using hc⟩
  rw [h2] at h4
  simp at h4

/-- The MasterUserRecord flow run again on the request it left, by a client
that answers as before except that it fetches the record as updated, returns
and leaves the same status decision. -/
theorem handleMURUpdate_again (env env2 : Env) (c c2 : Client)
    (tur : TemplateUpdateRequest) (out1 : Outcome)
    (hk : env2.TemplateTierHashLabelKey = env.TemplateTierHashLabelKey)
    (hhash : env2.ComputeHashForNSTemplateSetSpec = env.ComputeHashForNSTemplateSetSpec)
    (ho : env2.rangeOrder = env.rangeOrder)
    (hconf : c2.GetToolchainConfig = c.GetToolchainConfig) (hU : c2.Update = c.Update)
    (h1 : handleMURUpdate env c tur = .ret out1)
    (hR : (∃ m, Write.update m none ∈ out1.writes ∧ c2.getMUR = .found m) ∨
      ((∀ m, Write.update m none ∉ out1.writes) ∧ c2.getMUR = c.getMUR)) :
    ∃ out2, handleMURUpdate env2 c2 out1.tur = .ret out2 ∧
      decision out2.tur = decision out1.tur := by
  unfold handleMURUpdate at h1
  cases hc : c.GetToolchainConfig with
  | error e =>
    simp only [hc, Run.ret.injEq] at h1
    subst h1
    have h2 : handleMURUpdate env2 c2 tur =
        .ret { result := Result.empty, err := some (errsWrap e "unable to get ToolchainConfig")
               tur := tur, writes := [] } := by
      simp only [handleMURUpdate, hconf, hc]
    exact ⟨_, h2, rfl⟩
  | ok threshold =>
    simp only [hc] at h1
    cases hm : c.getMUR with
    | notFound e =>
      simp only [hm, Run.ret.injEq] at h1
      subst h1
      have hget : c2.getMUR = .notFound e := by
        rcases hR with ⟨m, hmem, _⟩ | ⟨_, h⟩
        · simp at hmem
        · exact h.trans hm
      have h2 : handleMURUpdate env2 c2 (addFailureStatusCondition env c tur e).1 =
          .ret { result := Result.empty
                 err := (addFailureStatusCondition env2 c2
                   (addFailureStatusCondition env c tur e).1 e).2
                 tur := (addFailureStatusCondition env2 c2
                   (addFailureStatusCondition env c tur e).1 e).1
                 writes := [Write.statusUpdate (addFailureStatusCondition env2 c2
                     (addFailureStatusCondition env c tur e).1 e).1
                   (addFailureStatusCondition env2 c2
                     (addFailureStatusCondition env c tur e).1 e).2] } := by
        simp only [handleMURUpdate, hconf, hc, hget]
      exact ⟨_, h2, decision_addFailure env env2 c c2 tur e e⟩
    | failed e =>
      simp only [hm, Run.ret.injEq] at h1
      subst h1
      have hget : c2.getMUR = .failed e := by
        rcases hR with ⟨m, hmem, _⟩ | ⟨_, h⟩
        · simp at hmem
        · exact h.trans hm
      have h2 : handleMURUpdate env2 c2 tur =
          .ret { result := Result.empty
                 err := some (errsWrap e
                   "unable to get the MasterUserRecord associated with the TemplateUpdateRequest")
                 tur := tur, writes := [] } := by
        simp only [handleMURUpdate, hconf, hc, hget]
      exact ⟨_, h2, rfl⟩
    | found mur =>
      simp only [hm] at h1
      by_cases hlen : tur.status.syncIndexes.length = 0
      · have hnil : tur.status.syncIndexes = [] := List.length_eq_zero.mp hlen
        simp only [if_pos hlen] at h1
        cases hu : updateTemplateRefs env c tur mur with
        | panic =>
          rw [(handleMURUpdateFirst_panic env c threshold tur mur).mpr hu] at h1
          cases h1
        | ret r =>
          obtain ⟨m1, e, ws⟩ := r
          have hshape := updateTemplateRefs_shape env c tur mur m1 e ws hu
          cases e with
          | some e1 =>
            obtain ⟨o, ho1, hot, how⟩ :=
              handleMURUpdateFirst_failed env c threshold tur mur m1 e1 ws hu
            rw [ho1, Run.ret.injEq] at h1
            subst h1
            have hget : c2.getMUR = .found mur := by
              rcases hR with ⟨m, hmem, _⟩ | ⟨_, h⟩
              · rw [how] at hmem
                rcases hshape with ⟨_, hws⟩ | ⟨hws, he⟩
                · rw [hws] at hmem
                  simp at hmem
                · rw [hws, ← he] at hmem
                  simp at hmem
              · exact h.trans hm
            have hlen2 : o.tur.status.syncIndexes.length = 0 := by
              rw [hot]
              simpa [addFailureStatusCondition] using hlen
            have hu2 : updateTemplateRefs env2 c2 o.tur mur = .ret (m1, some e1, ws) := by
              rw [updateTemplateRefs_congr env env2 c c2 tur o.tur hk hhash ho
                (by rw [hot]; rfl) hU mur]
              exact hu
            obtain ⟨o2, ho2, hot2, _⟩ :=
              handleMURUpdateFirst_failed env2 c2 threshold o.tur mur m1 e1 ws hu2
            have h2 : handleMURUpdate env2 c2 o.tur = .ret o2 := by
              simp only [handleMURUpdate, hconf, hc, hget, if_pos hlen2]
              exact ho2
            refine ⟨o2, h2, ?_⟩
            rw [hot2, hot]
            exact decision_addFailure env env2 c c2 tur _ _
          | none =>
            obtain ⟨o, ho1, hot, how⟩ :=
              handleMURUpdateFirst_ok env c threshold tur mur m1 ws hu
            rw [ho1, Run.ret.injEq] at h1
            subst h1
            have hws : ws = [Write.update m1 none] := by
              rcases hshape with ⟨⟨e2, he2⟩, _⟩ | ⟨hws, he⟩
              · cases he2
              · rw [hws, ← he]
            have hget : c2.getMUR = .found m1 := by
              rcases hR with ⟨m, hmem, h⟩ | ⟨hno, _⟩
              · rw [how, hws] at hmem
                have : m = m1 := by simpa using hmem
                rw [← this]
                exact h
              · exact absurd (by rw [how, hws]; simp) (hno m1)
            have hsnap : syncIndexes tur.spec.tierName m1 = syncIndexes tur.spec.tierName mur :=
              updateTemplateRefs_syncIndexes env c tur mur m1 none ws hu tur.spec.tierName
            have hsync : o.tur.status.syncIndexes = syncIndexes tur.spec.tierName mur := by
              rw [hot]
              rfl
            have hspec : o.tur.spec = tur.spec := by
              rw [hot]
              rfl
            by_cases hB : syncIndexes tur.spec.tierName mur = []
            · have hnone := onTier_false_of_syncIndexes_nil tur.spec.tierName mur hB
              have hloop := updateUserAccounts_none_onTier env tur 0 mur.userAccounts
                mur.labels hnone
              have hm1 : m1 = mur := by
                have hu' := hu
                rw [updateTemplateRefs_of_loop env c tur mur _ _ hloop] at hu'
                simp only [Run.ret.injEq, Prod.mk.injEq] at hu'
                exact hu'.1.symm
              have hlen2 : o.tur.status.syncIndexes.length = 0 := by
                rw [hsync, hB]
                rfl
              have hu2 : updateTemplateRefs env2 c2 o.tur m1 = .ret (m1, none, ws) := by
                rw [updateTemplateRefs_congr env env2 c c2 tur o.tur hk hhash ho hspec hU m1]
                rw [hm1]
                rw [hm1] at hu
                exact hu
              obtain ⟨o2, ho2, hot2, _⟩ :=
                handleMURUpdateFirst_ok env2 c2 threshold o.tur m1 m1 ws hu2
              have h2 : handleMURUpdate env2 c2 o.tur = .ret o2 := by
                simp only [handleMURUpdate, hconf, hc, hget, if_pos hlen2]
                exact ho2
              refine ⟨o2, h2, ?_⟩
              rw [hot2, hspec, hsnap, hot]
              simp [decision, addUpdatingStatusCondition, ToBeUpdating]
            · have hlen2 : ¬ o.tur.status.syncIndexes.length = 0 := by
                rw [hsync]
                intro h0
                exact hB (List.length_eq_zero.mp h0)
              have hnot : ¬ (allSyncIndexesChanged o.tur m1 = true ∧
                  condition.IsTrue m1.conditions ConditionReady = true) := by
                intro hboth
                have hself := allSyncIndexesChangedLoop_self (syncIndexes tur.spec.tierName mur)
                  (syncIndexes_nodup _ _) hB
                have : allSyncIndexesChanged o.tur m1 = false := by
                  unfold allSyncIndexesChanged
                  rw [hspec, hsnap, hsync]
                  exact hself
                rw [this] at hboth
                exact Bool.false_ne_true hboth.1
              have h2 : handleMURUpdate env2 c2 o.tur =
                  .ret { result := Result.empty, err := none, tur := o.tur, writes := [] } := by
                simp only [handleMURUpdate, hconf, hc, hget, if_neg hlen2, if_neg hnot]
              exact ⟨_, h2, rfl⟩
      · simp only [if_neg hlen] at h1
        by_cases hcond : allSyncIndexesChanged tur mur = true ∧
            condition.IsTrue mur.conditions ConditionReady = true
        · simp only [if_pos hcond, Run.ret.injEq] at h1
          subst h1
          have hget : c2.getMUR = .found mur := by
            rcases hR with ⟨m, hmem, _⟩ | ⟨_, h⟩
            · simp at hmem
            · exact h.trans hm
          have hlen2 : ¬ (setCompleteStatusCondition env c tur).1.status.syncIndexes.length = 0 :=
            hlen
          have hcond2 : allSyncIndexesChanged (setCompleteStatusCondition env c tur).1 mur = true ∧
              condition.IsTrue mur.conditions ConditionReady = true := hcond
          have h2 : handleMURUpdate env2 c2 (setCompleteStatusCondition env c tur).1 =
              .ret { result := Result.empty
                     err := (setCompleteStatusCondition env2 c2
                       (setCompleteStatusCondition env c tur).1).2
                     tur := (setCompleteStatusCondition env2 c2
                       (setCompleteStatusCondition env c tur).1).1
                     writes := [Write.statusUpdate (setCompleteStatusCondition env2 c2
                         (setCompleteStatusCondition env c tur).1).1
                       (setCompleteStatusCondition env2 c2
                         (setCompleteStatusCondition env c tur).1).2] } := by
            simp only [handleMURUpdate, hconf, hc, hget, if_neg hlen2, if_pos hcond2]
          refine ⟨_, h2, ?_⟩
          simp [decision, setCompleteStatusCondition, ToBeComplete]
        · simp only [if_neg hcond, Run.ret.injEq] at h1
          subst h1
          have hget : c2.getMUR = .found mur := by
            rcases hR with ⟨m, hmem, _⟩ | ⟨_, h⟩
            · simp at hmem
            · exact h.trans hm
          have h2 : handleMURUpdate env2 c2 tur =
              .ret { result := Result.empty, err := none, tur := tur, writes := [] } := by
            simp only [handleMURUpdate, hconf, hc, hget, if_neg hlen, if_neg hcond]
          exact ⟨_, h2, rfl⟩

/-- The writes of the Space flow, and the request in memory when there is
none. -/
theorem handleSpaceUpdate_effects (env : Env) (c : Client) (tur : TemplateUpdateRequest) :
    (handleSpaceUpdate env c tur).tur.spec = tur.spec ∧
    (((handleSpaceUpdate env c tur).writes = [] ∧ (handleSpaceUpdate env c tur).tur = tur) ∨
      (handleSpaceUpdate env c tur).writes =
        [Write.statusUpdate (handleSpaceUpdate env c tur).tur
          (c.StatusUpdate (handleSpaceUpdate env c tur).tur)]) := by
  unfold handleSpaceUpdate
  cases hs : c.getSpace with
  | notFound err => exact ⟨rfl, Or.inr rfl⟩
  | failed err => exact ⟨rfl, Or.inl ⟨rfl, rfl⟩⟩
  | found space =>
    simp only
    split
    · exact ⟨rfl, Or.inr rfl⟩
    · split
      · exact ⟨rfl, Or.inr rfl⟩
      · exact ⟨rfl, Or.inr rfl⟩

/-- The writes of the MasterUserRecord flow, the request in memory when there
is no status update, and the fetch that precedes an update of the record. -/
theorem handleMURUpdate_effects (env : Env) (c : Client) (tur : TemplateUpdateRequest)
    (out : Outcome) (h : handleMURUpdate env c tur = .ret out) :
    out.tur.spec = tur.spec ∧
    ∃ us ss, out.writes = us ++ ss ∧
      (us = [] ∨ ∃ m mur, us = [Write.update m (c.Update m)] ∧ c.getMUR = .found mur) ∧
      ((ss = [] ∧ out.tur = tur) ∨
        ss = [Write.statusUpdate out.tur (c.StatusUpdate out.tur)]) := by
  unfold handleMURUpdate at h
  cases hc : c.GetToolchainConfig with
  | error e =>
    simp only [hc, Run.ret.injEq] at h
    subst h
    exact ⟨rfl, [], [], rfl, Or.inl rfl, Or.inl ⟨rfl, rfl⟩⟩
  | ok threshold =>
    simp only [hc] at h
    cases hm : c.getMUR with
    | notFound e =>
      simp only [hm, Run.ret.injEq] at h
      subst h
      exact ⟨rfl, [], _, rfl, Or.inl rfl, Or.inr rfl⟩
    | failed e =>
      simp only [hm, Run.ret.injEq] at h
      subst h
      exact ⟨rfl, [], [], rfl, Or.inl rfl, Or.inl ⟨rfl, rfl⟩⟩
    | found mur =>
      simp only [hm] at h
      by_cases hlen : tur.status.syncIndexes.length = 0
      · simp only [if_pos hlen] at h
        cases hu : updateTemplateRefs env c tur mur with
        | panic =>
          rw [(handleMURUpdateFirst_panic env c threshold tur mur).mpr hu] at h
          cases h
        | ret r =>
          obtain ⟨m1, e, ws⟩ := r
          have hus : ws = [] ∨ ∃ m mur1, ws = [Write.update m (c.Update m)] ∧
              (GetResult.found mur : GetResult MasterUserRecord) = .found mur1 := by
            rcases updateTemplateRefs_shape env c tur mur m1 e ws hu with ⟨_, h2⟩ | ⟨h2, _⟩
            · exact Or.inl h2
            · exact Or.inr ⟨m1, mur, h2, rfl⟩
          cases e with
          | some e1 =>
            obtain ⟨o, ho1, hot, how⟩ :=
              handleMURUpdateFirst_failed env c threshold tur mur m1 e1 ws hu
            rw [ho1, Run.ret.injEq] at h
            subst h
            exact ⟨by rw [hot]; rfl, ws, _, how, hus, Or.inr rfl⟩
          | none =>
            obtain ⟨o, ho1, hot, how⟩ :=
              handleMURUpdateFirst_ok env c threshold tur mur m1 ws hu
            rw [ho1, Run.ret.injEq] at h
            subst h
            exact ⟨by rw [hot]; rfl, ws, _, how, hus, Or.inr rfl⟩
      · simp only [if_neg hlen] at h
        split at h
        · simp only [Run.ret.injEq] at h
          subst h
          exact ⟨rfl, [], _, rfl, Or.inl rfl, Or.inr rfl⟩
        · simp only [Run.ret.injEq] at h
          subst h
          exact ⟨rfl, [], [], rfl, Or.inl rfl, Or.inl ⟨rfl, rfl⟩⟩

/-- The writes of an invocation that fetched the request. -/
theorem Reconcile_effects (env : Env) (c : Client) (tur : TemplateUpdateRequest)
    (out : Outcome) (hg : c.getTUR = .found tur) (h : Reconcile env c = .ret out) :
    out.tur.spec = tur.spec ∧
    ∃ us ss, out.writes = us ++ ss ∧
      (us = [] ∨ ∃ m mur, us = [Write.update m (c.Update m)] ∧ c.getMUR = .found mur) ∧
      ((ss = [] ∧ out.tur = tur) ∨
        ss = [Write.statusUpdate out.tur (c.StatusUpdate out.tur)]) := by
  by_cases hh : tur.spec.currentTierHash ≠ ""
  · rw [(Reconcile_of_found env c tur hg).1 hh, Run.ret.injEq] at h
    subst h
    obtain ⟨h1, h2⟩ := handleSpaceUpdate_effects env c tur
    refine ⟨h1, [], _, rfl, Or.inl rfl, ?_⟩
    rcases h2 with ⟨h3, h4⟩ | h3
    · exact Or.inl ⟨h3, h4⟩
    · exact Or.inr h3
  · have hempty : tur.spec.currentTierHash = "" := by
      by_contra hne
      exact hh hne
    rw [(Reconcile_of_found env c tur hg).2 hempty] at h
    exact handleMURUpdate_effects env c tur out h

/-- What the store answers to the fetches depends on the behaviour and on the
object stored. -/
theorem Store.client_reads (nf : String) (faults : Client) :
    ((∃ e, ∀ s : Store, (s.client nf faults).getTUR = .failed e) ∨
      ∀ s : Store, (s.client nf faults).getTUR =
        (match s.tur with
         | some o => .found o
         | none => .notFound nf)) ∧
    ((∃ e, ∀ s : Store, (s.client nf faults).getSpace = .failed e) ∨
      ∀ s : Store, (s.client nf faults).getSpace =
        (match s.space with
         | some o => .found o
         | none => .notFound nf)) ∧
    ((∃ e, ∀ s : Store, (s.client nf faults).getMUR = .failed e) ∨
      ∀ s : Store, (s.client nf faults).getMUR =
        (match s.mur with
         | some o => .found o
         | none => .notFound nf)) := by
  refine ⟨?_, ?_, ?_⟩
  · cases hf : faults.getTUR with
    | failed e => exact Or.inl ⟨e, fun s => by simp [Store.client, hf]⟩
    | notFound e => exact Or.inr (fun s => by simp [Store.client, hf])
    | found o => exact Or.inr (fun s => by simp [Store.client, hf])
  · cases hf : faults.getSpace with
    | failed e => exact Or.inl ⟨e, fun s => by simp [Store.client, hf]⟩
    | notFound e => exact Or.inr (fun s => by simp [Store.client, hf])
    | found o => exact Or.inr (fun s => by simp [Store.client, hf])
  · cases hf : faults.getMUR with
    | failed e => exact Or.inl ⟨e, fun s => by simp [Store.client, hf]⟩
    | notFound e => exact Or.inr (fun s => by simp [Store.client, hf])
    | found o => exact Or.inr (fun s => by simp [Store.client, hf])

/-- An invocation that does not fetch the request leaves the store as it
is. -/
theorem invoke_of_no_request (env : Env) (nf : String) (faults : Client) (s : Store)
    (h : ∀ tur, (s.client nf faults).getTUR ≠ .found tur) :
    invoke env nf faults s = s := by
  unfold invoke Reconcile
  cases hg : (s.client nf faults).getTUR with
  | notFound e => simp [Store.applyWrites]
  | failed e => simp [Store.applyWrites]
  | found tur => exact absurd hg (h tur)

/-- The store after an invocation that fetched the request and returned, when
status updates succeed: the stored request is the request as in memory at the
return, the Space is as before, and the record is as before unless an update
of it succeeded. -/
theorem invoke_step (env : Env) (nf : String) (faults : Client) (s : Store)
    (tur : TemplateUpdateRequest) (out : Outcome) (hs : s.tur = some tur)
    (hg : (s.client nf faults).getTUR = .found tur)
    (hS : ∀ t, faults.StatusUpdate t = none)
    (h : Reconcile env (s.client nf faults) = .ret out) :
    (invoke env nf faults s).tur = some out.tur ∧
    (invoke env nf faults s).space = s.space ∧
    ((∃ m, Write.update m none ∈ out.writes ∧ (invoke env nf faults s).mur = some m ∧
        ∃ mur, (s.client nf faults).getMUR = .found mur) ∨
      ((∀ m, Write.update m none ∉ out.writes) ∧ (invoke env nf faults s).mur = s.mur)) := by
  obtain ⟨hspec, us, ss, hw, hus, hss⟩ := Reconcile_effects env _ tur out hg h
  have hinv : invoke env nf faults s = s.applyWrites (us ++ ss) := by
    simp only [invoke, h, hw]
  have hstat : (s.client nf faults).StatusUpdate out.tur = none := hS out.tur
  have heta : ({ tur with status := out.tur.status } : TemplateUpdateRequest) = out.tur := by
    cases hout : out.tur with
    | mk sp st =>
      rw [hout] at hspec
      simp only at hspec
      simp [hspec]
  rw [hinv, hw]
  rcases hus with rfl | ⟨m, mur, rfl, hmur⟩ <;> rcases hss with ⟨rfl, htur⟩ | rfl
  · simp [Store.applyWrites, hs, htur]
  · rw [hstat]
    simp [Store.applyWrites, Store.applyWrite, hs, heta]
  · cases hu : (s.client nf faults).Update m with
    | none =>
      refine ⟨by simp [Store.applyWrites, Store.applyWrite, hs, htur],
        by simp [Store.applyWrites, Store.applyWrite], Or.inl ⟨m, by simp, ?_, mur, hmur⟩⟩
      simp [Store.applyWrites, Store.applyWrite]
    | some e =>
      refine ⟨by simp [Store.applyWrites, Store.applyWrite, hs, htur],
        by simp [Store.applyWrites, Store.applyWrite], Or.inr ⟨by simp, ?_⟩⟩
      simp [Store.applyWrites, Store.applyWrite]
  · rw [hstat]
    cases hu : (s.client nf faults).Update m with
    | none =>
      refine ⟨by simp [Store.applyWrites, Store.applyWrite, hs, heta],
        by simp [Store.applyWrites, Store.applyWrite], Or.inl ⟨m, by simp, ?_, mur, hmur⟩⟩
      simp [Store.applyWrites, Store.applyWrite]
    | some e =>
      refine ⟨by simp [Store.applyWrites, Store.applyWrite, hs, heta],
        by simp [Store.applyWrites, Store.applyWrite], Or.inr ⟨by simp, ?_⟩⟩
      simp [Store.applyWrites, Store.applyWrite]

/-- When status updates fail, an invocation leaves the stored request as it
is. -/
theorem invoke_tur_of_status_failing (env : Env) (nf : String) (faults : Client) (s : Store)
    (e : String) (hS : ∀ t, faults.StatusUpdate t = some e) :
    (invoke env nf faults s).tur = s.tur := by
  cases hg : (s.client nf faults).getTUR with
  | notFound e1 =>
    rw [invoke_of_no_request env nf faults s (by rw [hg]; simp)]
  | failed e1 =>
    rw [invoke_of_no_request env nf faults s (by rw [hg]; simp)]
  | found tur =>
    cases hR : Reconcile env (s.client nf faults) with
    | panic => simp only [invoke, hR]
    | ret out =>
      obtain ⟨_, us, ss, hw, hus, hss⟩ := Reconcile_effects env _ tur out hg hR
      have hinv : invoke env nf faults s = s.applyWrites (us ++ ss) := by
        simp only [invoke, hR, hw]
      have hstat : (s.client nf faults).StatusUpdate out.tur = some e := hS out.tur
      rw [hinv]
      rcases hus with rfl | ⟨m, mur, rfl, _⟩ <;> rcases hss with ⟨rfl, _⟩ | rfl
      · simp [Store.applyWrites]
      · rw [hstat]
        simp [Store.applyWrites, Store.applyWrite]
      · cases hu : (s.client nf faults).Update m <;>
          simp [Store.applyWrites, Store.applyWrite]
      · rw [hstat]
        cases hu : (s.client nf faults).Update m <;>
          simp [Store.applyWrites, Store.applyWrite]

/-- A panic of the MasterUserRecord flow does not depend on the clock. -/
theorem handleMURUpdate_panic_congr (env env2 : Env) (c : Client)
    (tur : TemplateUpdateRequest)
    (hk : env2.TemplateTierHashLabelKey = env.TemplateTierHashLabelKey)
    (hhash : env2.ComputeHashForNSTemplateSetSpec = env.ComputeHashForNSTemplateSetSpec)
    (ho : env2.rangeOrder = env.rangeOrder)
    (h : handleMURUpdate env c tur = .panic) :
    handleMURUpdate env2 c tur = .panic := by
  unfold handleMURUpdate at h
  cases hc : c.GetToolchainConfig with
  | error e =>
    simp only [hc] at h
    cases h
  | ok threshold =>
    simp only [hc] at h
    cases hm : c.getMUR with
    | notFound e =>
      simp only [hm] at h
      cases h
    | failed e =>
      simp only [hm] at h
      cases h
    | found mur =>
      simp only [hm] at h
      by_cases hlen : tur.status.syncIndexes.length = 0
      · simp only [if_pos hlen] at h
        have hu := (handleMURUpdateFirst_panic env c threshold tur mur).mp h
        have hu2 : updateTemplateRefs env2 c tur mur = .panic := by
          rw [updateTemplateRefs_congr env env2 c c tur tur hk hhash ho rfl rfl mur]
          exact hu
        simp only [handleMURUpdate, hc, hm, if_pos hlen]
        exact (handleMURUpdateFirst_panic env2 c threshold tur mur).mpr hu2
      · simp only [if_neg hlen] at h
        split at h <;> cases h

/-- C14: `Reconcile` is idempotent on unchanged state. For every store, and
every behaviour of the store in which the answer to a status update does not
depend on what is written, running `Reconcile` and running it again on the
resulting store (same behaviour, any later clock reading, nothing changed
from outside) leaves the stored request with the same status decision: the
same kind of latest condition and the same `status.syncIndexes`. -/
theorem Reconcile_idempotent (env : Env) (now2 : Nat) (nf : String) (faults : Client)
    (s : Store) (hS : ∀ t t1, faults.StatusUpdate t = faults.StatusUpdate t1) :
    (invoke { env with now := now2 } nf faults (invoke env nf faults s)).tur.map decision =
      (invoke env nf faults s).tur.map decision := by
  obtain ⟨hT, hSp, hM⟩ := Store.client_reads nf faults
  rcases hT with ⟨e, he⟩ | he
  · have hno : ∀ (en : Env) (st : Store), invoke en nf faults st = st := by
      intro en st
      apply invoke_of_no_request
      intro tur hg
      rw [he st] at hg
      cases hg
    rw [hno, hno]
  · cases hst : s.tur with
    | none =>
      have hno : ∀ (en : Env), invoke en nf faults s = s := by
        intro en
        apply invoke_of_no_request
        intro tur hg
        rw [he s, hst] at hg
        cases hg
      rw [hno env, hno]
    | some tur =>
      have hg : (s.client nf faults).getTUR = .found tur := by rw [he s, hst]
      cases hstat : faults.StatusUpdate TemplateUpdateRequest.zero with
      | some e =>
        have hf : ∀ t, faults.StatusUpdate t = some e := fun t => (hS t _).trans hstat
        rw [invoke_tur_of_status_failing { env with now := now2 } nf faults _ e hf]
      | none =>
        have hS0 : ∀ t, faults.StatusUpdate t = none := fun t => (hS t _).trans hstat
        cases hR : Reconcile env (s.client nf faults) with
        | panic =>
          have h1 : invoke env nf faults s = s := by simp only [invoke, hR]
          have hR2 : Reconcile { env with now := now2 } (s.client nf faults) = .panic := by
            by_cases hh : tur.spec.currentTierHash ≠ ""
            · rw [(Reconcile_of_found env _ tur hg).1 hh] at hR
              cases hR
            · have hempty : tur.spec.currentTierHash = "" := by
                by_contra hne
                exact hh hne
              rw [(Reconcile_of_found env _ tur hg).2 hempty] at hR
              rw [(Reconcile_of_found { env with now := now2 } _ tur hg).2 hempty]
              exact handleMURUpdate_panic_congr env _ _ tur rfl rfl rfl hR
          have h2 : invoke { env with now := now2 } nf faults s = s := by
            simp only [invoke, hR2]
          rw [h1, h2]
        | ret out1 =>
          obtain ⟨ht1, hsp1, hm1⟩ := invoke_step env nf faults s tur out1 hst hg hS0 hR
          have hspec : out1.tur.spec = tur.spec := (Reconcile_effects env _ tur out1 hg hR).1
          have hg2 : ((invoke env nf faults s).client nf faults).getTUR = .found out1.tur := by
            rw [he, ht1]
          have key : ∃ out2,
              Reconcile { env with now := now2 } ((invoke env nf faults s).client nf faults) =
                .ret out2 ∧ decision out2.tur = decision out1.tur := by
            by_cases hh : tur.spec.currentTierHash ≠ ""
            · have h1 := (Reconcile_of_found env _ tur hg).1 hh
              rw [h1, Run.ret.injEq] at hR
              have h2 := (Reconcile_of_found { env with now := now2 }
                ((invoke env nf faults s).client nf faults) out1.tur hg2).1
                (by rw [hspec]; exact hh)
              have hsp : ((invoke env nf faults s).client nf faults).getSpace =
                  (s.client nf faults).getSpace := by
                rcases hSp with ⟨e1, h3⟩ | h3
                · rw [h3, h3]
                · rw [h3, h3, hsp1]
              refine ⟨_, h2, ?_⟩
              rw [← hR]
              exact handleSpaceUpdate_again env { env with now := now2 } (s.client nf faults)
                ((invoke env nf faults s).client nf faults) tur rfl hsp
            · have hempty : tur.spec.currentTierHash = "" := by
                by_contra hne
                exact hh hne
              rw [(Reconcile_of_found env _ tur hg).2 hempty] at hR
              have hRel : (∃ m, Write.update m none ∈ out1.writes ∧
                    ((invoke env nf faults s).client nf faults).getMUR = .found m) ∨
                  ((∀ m, Write.update m none ∉ out1.writes) ∧
                    ((invoke env nf faults s).client nf faults).getMUR =
                      (s.client nf faults).getMUR) := by
                rcases hm1 with ⟨m, hmem, hmur, mur, hgm⟩ | ⟨hno, hmur⟩
                · refine Or.inl ⟨m, hmem, ?_⟩
                  rcases hM with ⟨e1, h3⟩ | h3
                  · rw [h3] at hgm
                    cases hgm
                  · rw [h3, hmur]
                · refine Or.inr ⟨hno, ?_⟩
                  rcases hM with ⟨e1, h3⟩ | h3
                  · rw [h3, h3]
                  · rw [h3, h3, hmur]
              obtain ⟨out2, h2, hd⟩ := handleMURUpdate_again env { env with now := now2 }
                (s.client nf faults) ((invoke env nf faults s).client nf faults) tur out1
                rfl rfl rfl rfl rfl hR hRel
              refine ⟨out2, ?_, hd⟩
              rw [(Reconcile_of_found { env with now := now2 }
                ((invoke env nf faults s).client nf faults) out1.tur hg2).2
                (by rw [hspec]; exact hempty)]
              exact h2
          obtain ⟨out2, hR2, hd⟩ := key
          obtain ⟨ht2, _, _⟩ := invoke_step { env with now := now2 } nf faults
            (invoke env nf faults s) out1.tur out2 ht1 hg2 hS0 hR2
          rw [ht2, ht1]
          simp [hd]

/-- Witness for C14: a first invocation of the MasterUserRecord flow stores
`[Updating]` with the baseline `c1:s1`; a second invocation at a later time
leaves that decision. -/
theorem Reconcile_idempotent_witness :
    (invoke { env0 with now := 9 } "not found" (noFaults 3)
        (invoke env0 "not found" (noFaults 3)
          (storeWithMUR (turMUR [] []) murTwoTypes))).tur.map decision =
      some (some "Updating", [("c1", "s1")]) :=
  (Reconcile_idempotent env0 9 "not found" (noFaults 3)
    (storeWithMUR (turMUR [] []) murTwoTypes) (fun _ _ => rfl)).trans (by decide)

end HostOperator
